import Mathlib

/-!
CRPropa3: photodisintegration module and photon backgrounds

A shallow embedding of

* `src/module/PhotoDisintegration.cpp` (namespace `mpc`): the channel decoding and the
  commit step `performInteraction`, the proposal step `setNextInteraction`, and the loading of
  the disintegration table by `init`;
* `src/PhotonBackground.cpp` (namespace `crpropa`): the tabulated photon field
  (`checkInputData`, the constructor, `initRedshiftScaling`, `getPhotonDensity`,
  `getRedshiftScaling`), the blackbody photon field, and the photon-field sampling
  (`sample_eps`, `prob_eps`, `getPhotonDensity`, `crossection` and its helpers).

Conventions of the embedding.

* A C++ `double` is a number of an ordered field: arithmetic is exact, and the two special
  values (infinity, not-a-number) are outside the embedding. The photodisintegration module and
  the tabulated field are written over the rational numbers (`ℚ`); the blackbody field and the
  sampling are written over any linear ordered field `K`, so that they can be evaluated over `ℚ`
  and reasoned about over the real numbers where the claim is about `exp` or `pow`. Every finite
  `double` is at most `DBL_MAX`; theorems that depend on this say so in a hypothesis. A quotient
  by zero is 0 in the embedding and infinite or not-a-number in `double` arithmetic; theorems
  about a quotient assume a nonzero divisor, or say what the quotient is.
* A C++ `int` is an integer (`ℤ`); `/` and `%` on `int` truncate toward zero (`Int.tdiv`,
  `Int.tmod`). No arithmetic in the embedded code can leave the 32-bit range for the operands
  the theorems range over, so no wrap-around is modelled, except the conversion of an `int`
  loop bound to `size_t`, which is modelled explicitly (`sizeT`).
* `std::vector` is `List`; reading `v[i]` outside the vector is undefined behaviour and is a
  separate outcome of the embedded function (`none`, or `Fault.outOfBounds`).
* Library calls whose code is outside the repository (`log`, `log10`, `exp`, `pow`, `sqrt`, the
  random generator, the evaluated rate splines, `gaussInt`, `interpolate2d`) are parameters of
  the embedded functions.
* A loop with a bound of its own is a recursion on what is left of the bound; the one loop
  without a bound (the rejection loop of the CMB branch of `sample_eps`) takes the number of
  iterations it is allowed as an argument.
-/

/-! ## Part I: definitions -/

namespace mpc

/-- Modelled from the spec: the nuclide code returned by `getNucleusId(A, Z)` is not among the
source files; the spec says a particle identity is "charge number Z, mass number A, packed as a
single integer nuclide code". The embedding keeps the two packed numbers as a pair, so that
`getMassNumber` and `getChargeNumber` read back what `getNucleusId` stored. -/
structure NucleusId where
  massNumber : Int
  chargeNumber : Int
deriving DecidableEq

/-- The call `getNucleusId(a, z)`: mass number first, charge number second. -/
def getNucleusId (a z : Int) : NucleusId := ⟨a, z⟩

/-- The part of `ParticleState` that the photodisintegration module reads and writes: the
nuclide id and the energy. Position and direction are never touched by the module. -/
structure ParticleState where
  id : NucleusId
  energy : ℚ
deriving DecidableEq

namespace ParticleState

/-- The getter `ParticleState::getMassNumber`. -/
def getMassNumber (p : ParticleState) : Int := p.id.massNumber

/-- The getter `ParticleState::getChargeNumber`. -/
def getChargeNumber (p : ParticleState) : Int := p.id.chargeNumber

/-- The setter `ParticleState::setId`. -/
def setId (p : ParticleState) (newId : NucleusId) : ParticleState := { p with id := newId }

/-- The setter `ParticleState::setEnergy`. -/
def setEnergy (p : ParticleState) (newEnergy : ℚ) : ParticleState :=
  { p with energy := newEnergy }

end ParticleState

/-- The pending interaction of one module: `double distance; int channel;`. -/
structure InteractionState where
  distance : ℚ
  channel : Int
deriving DecidableEq

/-- Modelled from the spec: the class `Candidate` is not among the source files. The spec gives
it one current particle state, a redshift, an active/terminal flag, "a per-module slot map of
pending interaction state (keyed by module identity ...)" and a list of newly spawned
secondaries. The slot map is an association list with at most one entry per key; a secondary is
recorded by the nuclide id and energy passed to `addSecondary`, in call order. -/
structure Candidate where
  current : ParticleState
  redshift : ℚ
  active : Bool
  interactionStates : List (String × InteractionState)
  secondaries : List ParticleState
deriving DecidableEq

namespace Candidate

/-- The call `candidate->getRedshift()`. -/
def getRedshift (c : Candidate) : ℚ := c.redshift

/-- The call `candidate->setActive(b)`. -/
def setActive (c : Candidate) (b : Bool) : Candidate := { c with active := b }

/-- The call `candidate->getInteractionState(name, state)`: when a state is stored under `name`
it is copied into the out-parameter, otherwise the out-parameter keeps the value `state` it had.
The value returned here is the out-parameter after the call. -/
def getInteractionState (c : Candidate) (name : String) (state : InteractionState) :
    InteractionState :=
  match c.interactionStates.lookup name with
  | some stored => stored
  | none => state

/-- The call `candidate->setInteractionState(name, state)`: the slot of `name` is overwritten,
or created when there is none. -/
def setInteractionState (c : Candidate) (name : String) (state : InteractionState) :
    Candidate :=
  { c with interactionStates :=
      (name, state) :: c.interactionStates.filter (fun entry => entry.1 != name) }

/-- The call `candidate->clearInteractionStates()`. -/
def clearInteractionStates (c : Candidate) : Candidate := { c with interactionStates := [] }

/-- The call `candidate->addSecondary(id, energy)`: one more secondary, after the earlier ones. -/
def addSecondary (c : Candidate) (id : NucleusId) (energy : ℚ) : Candidate :=
  { c with secondaries := c.secondaries ++ [⟨id, energy⟩] }

end Candidate

/-- Modelled from the spec: the helper `digit(value, d)` is not among the source files. The spec
describes the channel code as "a packed integer" of six decimal "digit counts", and
`performInteraction` reads it with `digit(channel, 10^k)`; `digit value d` is the decimal digit
of `value` at the place `d`, computed as `(value % (d * 10)) / d` in `int` arithmetic. -/
def digit (value d : Int) : Int := (value.tmod (d * 10)).tdiv d

/-- The conversion of an `int` to `size_t` that the comparison `i < n` performs when `i` is a
`size_t` (64 bits): the value modulo `2^64`. -/
def sizeT (n : Int) : Nat := (n % 2 ^ 64).toNat

/-- The loop `for (size_t i = 0; i < n; i++) candidate->addSecondary(id, energy);` where `n` is
the `size_t` bound of the loop. -/
def addSecondaries (c : Candidate) (id : NucleusId) (energy : ℚ) : Nat → Candidate
  | 0 => c
  | n + 1 => addSecondaries (c.addSecondary id energy) id energy n

namespace PhotoDisintegration

/-- The six emission counts that `performInteraction` parses out of a channel code. -/
structure Emission where
  nNeutron : Int
  nProton : Int
  nH2 : Int
  nH3 : Int
  nHe3 : Int
  nHe4 : Int
deriving DecidableEq

/-- The block "parse disintegration channel" of `performInteraction` (source lines 131-137). -/
def parseChannel (channel : Int) : Emission :=
  { nNeutron := digit channel 100000
    nProton := digit channel 10000
    nH2 := digit channel 1000
    nH3 := digit channel 100
    nHe3 := digit channel 10
    nHe4 := digit channel 1 }

/-- The change of mass number, source line 139. -/
def Emission.dA (e : Emission) : Int :=
  -e.nNeutron - e.nProton - 2 * e.nH2 - 3 * e.nH3 - 3 * e.nHe3 - 4 * e.nHe4

/-- The change of charge number, source line 140. -/
def Emission.dZ (e : Emission) : Int :=
  -e.nProton - e.nH2 - e.nH3 - 2 * e.nHe3 - 2 * e.nHe4

/-- The six loops "create secondaries" of `performInteraction` (source lines 155-167), in source
order: neutrons, protons, deuterons, tritons, helium-3, helium-4. -/
def createSecondaries (c : Candidate) (e : Emission) (EpA : ℚ) : Candidate :=
  let c := addSecondaries c (getNucleusId 1 0) EpA (sizeT e.nNeutron)
  let c := addSecondaries c (getNucleusId 1 1) EpA (sizeT e.nProton)
  let c := addSecondaries c (getNucleusId 2 1) (EpA * 2) (sizeT e.nH2)
  let c := addSecondaries c (getNucleusId 3 1) (EpA * 3) (sizeT e.nH3)
  let c := addSecondaries c (getNucleusId 3 2) (EpA * 3) (sizeT e.nHe3)
  addSecondaries c (getNucleusId 4 2) (EpA * 4) (sizeT e.nHe4)

/-- The block "update particle" of `performInteraction` (source lines 146-153). -/
def updateParticle (c : Candidate) (A Z dA dZ : Int) (EpA : ℚ) : Candidate :=
  let nA := A + dA
  if nA > 0 then
    { c with current :=
        (c.current.setId (getNucleusId (A + dA) (Z + dZ))).setEnergy (EpA * ((A + dA : Int) : ℚ)) }
  else
    c.setActive false

/-- The method `PhotoDisintegration::performInteraction`. `description` is the value of
`getDescription()`, the key of this module in the candidate; `fresh` is the value of a
default-constructed `InteractionState` (its constructor is not among the source files), which is
what the out-parameter holds when the candidate has no state under `description`. -/
def performInteraction (description : String) (fresh : InteractionState)
    (candidate : Candidate) : Candidate :=
  let interaction := candidate.getInteractionState description fresh
  let candidate := candidate.clearInteractionStates
  let e := parseChannel interaction.channel
  let dA := e.dA
  let dZ := e.dZ
  let A := candidate.current.getMassNumber
  let Z := candidate.current.getChargeNumber
  let EpA := candidate.current.energy / ((A : Int) : ℚ)
  let candidate := updateParticle candidate A Z dA dZ EpA
  createSecondaries candidate e EpA

/-- The channel code that `performInteraction` commits for a candidate: the `channel` member of
the local `interaction` after the call of `getInteractionState` (source lines 127-128). -/
def committedChannel (description : String) (fresh : InteractionState)
    (candidate : Candidate) : Int :=
  (candidate.getInteractionState description fresh).channel

/-- The secondaries that a step from `before` to `after` has added to the candidate. -/
def spawned (before after : Candidate) : List ParticleState :=
  after.secondaries.drop before.secondaries.length

/-- Sum of the mass numbers of a list of particles. -/
def massSum (particles : List ParticleState) : Int :=
  (particles.map ParticleState.getMassNumber).sum

/-- Sum of the charge numbers of a list of particles. -/
def chargeSum (particles : List ParticleState) : Int :=
  (particles.map ParticleState.getChargeNumber).sum

/-- The remnant mass number of a candidate after a commit: its current mass number while it is
active, `0` once it is deactivated. -/
def remnantMass (after : Candidate) : Int :=
  if after.active then after.current.getMassNumber else 0

/-- The remnant charge number of a candidate after a commit: its current charge number while it
is active, `0` once it is deactivated. -/
def remnantCharge (after : Candidate) : Int :=
  if after.active then after.current.getChargeNumber else 0

/-- The secondaries that the six loops of `performInteraction` add for the counts `e`, in the
order of the `addSecondary` calls; `sizeT` is the `size_t` value of each loop bound. -/
def emitted (e : Emission) (EpA : ℚ) : List ParticleState :=
  List.replicate (sizeT e.nNeutron) ⟨getNucleusId 1 0, EpA⟩ ++
  List.replicate (sizeT e.nProton) ⟨getNucleusId 1 1, EpA⟩ ++
  List.replicate (sizeT e.nH2) ⟨getNucleusId 2 1, EpA * 2⟩ ++
  List.replicate (sizeT e.nH3) ⟨getNucleusId 3 1, EpA * 3⟩ ++
  List.replicate (sizeT e.nHe3) ⟨getNucleusId 3 2, EpA * 3⟩ ++
  List.replicate (sizeT e.nHe4) ⟨getNucleusId 4 2, EpA * 4⟩

/-- Six counts that are single decimal digits: each lies in `0..9`. -/
def Emission.SingleDigits (e : Emission) : Prop :=
  (0 ≤ e.nNeutron ∧ e.nNeutron ≤ 9) ∧ (0 ≤ e.nProton ∧ e.nProton ≤ 9) ∧
  (0 ≤ e.nH2 ∧ e.nH2 ≤ 9) ∧ (0 ≤ e.nH3 ∧ e.nH3 ≤ 9) ∧
  (0 ≤ e.nHe3 ∧ e.nHe3 ≤ 9) ∧ (0 ≤ e.nHe4 ∧ e.nHe4 ≤ 9)

/-- The encoder of the round-trip property, following the spec's words ("encoding six
non-negative single-digit counts"): the repository has no encoder, the codes come from the data
table. Each count is placed at the decimal place from which `performInteraction` reads it. -/
def packChannel (e : Emission) : Int :=
  e.nNeutron * 100000 + e.nProton * 10000 + e.nH2 * 1000 + e.nH3 * 100 + e.nHe3 * 10 + e.nHe4

/-- One entry `PDMode` of the disintegration table: the channel code and the rate spline.
`rate lg` is the value of `gsl_spline_eval(rate, lg, acc)`; the spline library is outside the
repository, so the evaluated spline is carried as a function. -/
structure PDMode where
  channel : Int
  rate : ℚ → ℚ

/-- The library calls made by `setNextInteraction` whose code is outside the repository:
`log` and `log10` of the C library, the successive values returned by
`Random::instance().rand()` during one call (`rand i` is the draw of loop iteration `i`), and
the getter `ParticleState::getLorentzFactor`. -/
structure Library where
  log : ℚ → ℚ
  log10 : ℚ → ℚ
  rand : Nat → ℚ
  getLorentzFactor : ParticleState → ℚ

/-- The constant `std::numeric_limits<double>::max()`, that is `(2 - 2^(-52)) * 2^1023`. -/
def DBL_MAX : ℚ := 2 ^ 1024 - 2 ^ 971

/-- The read `pdTable[index]` of the table (a vector of vectors of modes) at an `int` index;
`none` when the index is outside the vector. -/
def tableAt (pdTable : List (List PDMode)) (index : Int) : Option (List PDMode) :=
  if index < 0 then none else pdTable[index.toNat]?

/-- The random decay distance `d` drawn in iteration `i` of the loop of `setNextInteraction`
for the mode `mode` (source lines 111-112). -/
def drawDistance (lib : Library) (lg : ℚ) (mode : PDMode) (i : Nat) : ℚ :=
  -lib.log (lib.rand i) / mode.rate lg

/-- The loop "find channel with minimum random decay distance" of `setNextInteraction` (source
lines 110-117), started at iteration `i` over the remaining modes. -/
def findChannel (lib : Library) (lg : ℚ) :
    List PDMode → Nat → InteractionState → InteractionState
  | [], _, interaction => interaction
  | mode :: rest, i, interaction =>
    let d := drawDistance lib lg mode i
    if d > interaction.distance then
      findChannel lib lg rest (i + 1) interaction
    else
      findChannel lib lg rest (i + 1) { distance := d, channel := mode.channel }

/-- The value `lg` computed by `setNextInteraction` (source lines 101-102). -/
def lgOf (lib : Library) (candidate : Candidate) : ℚ :=
  let z := candidate.getRedshift
  lib.log10 (lib.getLorentzFactor candidate.current * (1 + z))

/-- The method `PhotoDisintegration::setNextInteraction`. The result is `none` when the table is
read outside its bounds; otherwise it is the returned `bool`, the candidate after the call and
the reference parameter `interaction` after the call. -/
def setNextInteraction (lib : Library) (pdTable : List (List PDMode)) (description : String)
    (candidate : Candidate) (interaction : InteractionState) :
    Option (Bool × Candidate × InteractionState) :=
  let A := candidate.current.getMassNumber
  let Z := candidate.current.getChargeNumber
  let N := A - Z
  match tableAt pdTable (Z * 31 + N) with
  | none => none
  | some pdModes =>
    if pdModes.length = 0 then
      some (false, candidate, interaction)
    else
      let z := candidate.getRedshift
      let lg := lgOf lib candidate
      if lg < 6 ∨ lg > 14 then
        some (false, candidate, interaction)
      else
        let interaction := { interaction with distance := DBL_MAX }
        let interaction := findChannel lib lg pdModes 0 interaction
        let interaction := { interaction with distance := interaction.distance / (1 + z) ^ 3 }
        some (true, candidate.setInteractionState description interaction, interaction)

/-- The constant `SAMPLE_COUNT` of the module. -/
def SAMPLE_COUNT : Nat := 200

/-- One data line of the disintegration table, by the numbers written on it: the charge number
`Z`, the neutron number `N`, the channel code, and the rates that follow on the line, in order.
A line may carry fewer than `SAMPLE_COUNT` rates; what it carries after the first
`SAMPLE_COUNT` rates is never read. -/
structure TableRow where
  Z : Int
  N : Int
  channel : Int
  rates : List ℚ

/-- What `init` takes from outside the repository sources: the unit constant `Mpc`, and the
linear spline of the GSL library, `spline x y` being the function that
`gsl_spline_eval` evaluates after `gsl_spline_init` with the axes `x` and `y` (the spline keeps
its own copy of the two axes). -/
structure SplineLibrary where
  Mpc : ℚ
  spline : List ℚ → List ℚ → ℚ → ℚ

/-- The x-axis of the splines built by `init` (source lines 45-47):
`x[i] = 6.0 + i * 8.0 / (SAMPLE_COUNT - 1)` for `i < 200`. -/
def splineAxis : List ℚ :=
  (List.range 200).map (fun i => 6 + (i : ℚ) * 8 / ((SAMPLE_COUNT : ℚ) - 1))

/-- The loop over the rates of one data line (source lines 69-72). The vector `y` is declared
before the loop over the lines (source line 49), so on entry it holds what the data line before
left in it. For every `i < SAMPLE_COUNT`, `lineStream >> y[i]` stores the `i`-th rate of the line
when the line has one, and leaves `y[i]` as it is when the line has ended; then `y[i]` is divided
by `Mpc`, in both cases. -/
def readRates (lib : SplineLibrary) (y : List ℚ) (row : TableRow) : List ℚ :=
  (List.range SAMPLE_COUNT).map (fun i =>
    (match row.rates[i]? with
      | some rate => rate
      | none => y.getD i 0) / lib.Mpc)

/-- The mode `pd` built from a data line (source lines 66-75), `y` being the vector as the data
line before left it. -/
def buildMode (lib : SplineLibrary) (y : List ℚ) (row : TableRow) : PDMode :=
  { channel := row.channel, rate := lib.spline splineAxis (readRates lib y row) }

/-- The index `Z * 31 + N` under which `init` stores a data line and `setNextInteraction` looks
a nuclide up. -/
def rowIndex (row : TableRow) : Int := row.Z * 31 + row.N

/-- The statement `pdTable[index].push_back(pd)`; `none` when the index is outside the table. -/
def pushBack (pdTable : List (List PDMode)) (index : Int) (pd : PDMode) :
    Option (List (List PDMode)) :=
  if index < 0 then none
  else
    match pdTable[index.toNat]? with
    | none => none
    | some modes => some (pdTable.set index.toNat (modes ++ [pd]))

/-- The loop over the data lines of `init(std::string)` (source lines 57-77), for the remaining
data lines, comment lines left out; `y` is the vector of source line 49 as the lines read so far
left it. -/
def initRows (lib : SplineLibrary) :
    List TableRow → List ℚ → List (List PDMode) → Option (List (List PDMode))
  | [], _, pdTable => some pdTable
  | row :: rest, y, pdTable =>
    match pushBack pdTable (rowIndex row) (buildMode lib y row) with
    | none => none
    | some pdTable => initRows lib rest (readRates lib y row) pdTable

/-- The method `PhotoDisintegration::init(std::string filename)`, for a file that can be opened:
the table is resized to `31 * 57` empty channel lists, `y` is created with `SAMPLE_COUNT`
zeros, and the table is filled from the data lines. -/
def init (lib : SplineLibrary) (rows : List TableRow) : Option (List (List PDMode)) :=
  initRows lib rows (List.replicate SAMPLE_COUNT 0) (List.replicate (31 * 57) [])

/-- The mode that a data line describes by itself: its channel code, and the spline through its
first `SAMPLE_COUNT` rates, each divided by `Mpc`. -/
def rowMode (lib : SplineLibrary) (row : TableRow) : PDMode :=
  { channel := row.channel
    rate := lib.spline splineAxis ((row.rates.take SAMPLE_COUNT).map (fun rate => rate / lib.Mpc)) }

/-- A sample of the outside library calls for the worked examples: `log` is the natural
logarithm to three decimals at the three draws used (`1/2`, `1/4` and `1/8`, drawn in this
order), `log10` is exact at `10^6` and `10^7` (and 0 elsewhere), and the Lorentz factor of
a particle is its energy. -/
def sampleLibrary : Library :=
  { log := fun u => if u = 1 / 2 then -693 / 1000 else if u = 1 / 4 then -1386 / 1000
      else -2079 / 1000
    log10 := fun x => if x = 1000000 then 6 else if x = 10000000 then 7 else 0
    rand := fun i => if i = 0 then 1 / 2 else if i = 1 then 1 / 4 else 1 / 8
    getLorentzFactor := fun p => p.energy }

/-- A sample candidate for the worked examples: an active helium-4 nucleus (`A = 4, Z = 2`) of
energy `5 * 10^6` at redshift 1, with no pending state and no secondaries. With the sample
library, `lg = log10(5 * 10^6 * (1 + 1)) = 7`. -/
def sampleHelium4 : Candidate :=
  { current := ⟨getNucleusId 4 2, 5000000⟩, redshift := 1, active := true,
    interactionStates := [], secondaries := [] }

/-- A second sample candidate: an active helium-4 nucleus of energy `5 * 10^5` at redshift 1.
With the sample library, `lg = log10(5 * 10^5 * (1 + 1)) = 6`, the lower end of the tabulated
range. -/
def sampleHelium4Low : Candidate :=
  { current := ⟨getNucleusId 4 2, 500000⟩, redshift := 1, active := true,
    interactionStates := [], secondaries := [] }

/-- A third sample candidate: an active manganese-58 nucleus (`A = 58, Z = 25`, so `N = 33`) of
energy `5 * 10^6` at redshift 1. -/
def sampleManganese58 : Candidate :=
  { current := ⟨getNucleusId 58 25, 5000000⟩, redshift := 1, active := true,
    interactionStates := [], secondaries := [] }

/-- A sample of the outside parts of `init` for the worked examples: `Mpc` is 2, and a spline
evaluates to the first value `y[0]` of its y-axis, which is what the linear spline gives at the
first node `lg = 6`. -/
def sampleSplineLibrary : SplineLibrary := { Mpc := 2, spline := fun _ y _ => y.getD 0 0 }

/-- A sample data line with all its rates: helium-4 (`Z = 2, N = 2`), channel `100000`, and 200
rates equal to 4. -/
def sampleLineHelium4 : TableRow := ⟨2, 2, 100000, List.replicate 200 4⟩

/-- A sample data line with all its rates: iron-56 (`Z = 26, N = 30`), channel `10000`, and 200
rates equal to 6. -/
def sampleLineIron56 : TableRow := ⟨26, 30, 10000, List.replicate 200 6⟩

/-- A sample data line that ends early: helium-3 (`Z = 2, N = 1`), channel `10000`, and one
rate, equal to 8. -/
def sampleLineShort : TableRow := ⟨2, 1, 10000, [8]⟩

/-- A sample data line with all its rates: `Z = 26, N = 2`, channel `100000`, and 200 rates
equal to 4. Its index `26 * 31 + 2` is also the index `25 * 31 + 33` of `Z = 25, N = 33`. -/
def sampleLineShifted : TableRow := ⟨26, 2, 100000, List.replicate 200 4⟩

end PhotoDisintegration

end mpc

namespace crpropa

/-- The ways a call can fail: a thrown `std::runtime_error` with its message, a read of a
vector or array outside its bounds, or the end of a non-void function reached without a `return`
(the last two are undefined behaviour in C++). -/
inductive Fault where
  | runtimeError (what : String)
  | outOfBounds
  | missingReturn
deriving DecidableEq

/-- The data members of `TabularPhotonField`. -/
structure TabularPhotonField where
  fieldName : String
  isRedshiftDependent : Bool
  photonEnergies : List ℚ
  photonDensity : List ℚ
  redshifts : List ℚ
  redshiftScalings : List ℚ
deriving DecidableEq

/-- The interpolation helpers `interpolate` and `interpolate2d`, whose code is not among the
source files; they are parameters of the functions that call them. -/
structure Interpolation where
  interpolate : ℚ → List ℚ → List ℚ → ℚ
  interpolate2d : ℚ → ℚ → List ℚ → List ℚ → List ℚ → ℚ

/-- A loop `for (int i = 0; i < v.size(); ++i) body(v[i]);` whose body may throw: the first
failure ends the loop. -/
def forEach (body : ℚ → Except Fault Unit) : List ℚ → Except Fault Unit
  | [] => .ok ()
  | x :: rest =>
    match body x with
    | .error fault => .error fault
    | .ok _ => forEach body rest

namespace TabularPhotonField

/-- The method `TabularPhotonField::getPhotonDensity`. -/
def getPhotonDensity (ip : Interpolation) (f : TabularPhotonField) (ePhoton z : ℚ) : ℚ :=
  if f.isRedshiftDependent then
    ip.interpolate2d ePhoton z f.photonEnergies f.redshifts f.photonDensity
  else
    ip.interpolate ePhoton f.photonEnergies f.photonDensity

/-- The size checks of `checkInputData` (source lines 104-110). -/
def checkSizes (f : TabularPhotonField) : Except Fault Unit :=
  if f.isRedshiftDependent then
    if f.photonDensity.length ≠ f.photonEnergies.length * f.redshifts.length then
      .error (.runtimeError "TabularPhotonField::checkInputData: length of photon density input is unequal to length of photon energy input times length of redshift input")
    else .ok ()
  else
    if f.photonEnergies.length ≠ f.photonDensity.length then
      .error (.runtimeError "TabularPhotonField::checkInputData: length of photon energy input is unequal to length of photon density input")
    else .ok ()

/-- The body of the photon-energy loop of `checkInputData` (source lines 113-119) for the
element `e`. The variable `ePrevious` is declared inside the loop body, so every iteration
starts with `ePrevious = 0`; the final assignment `ePrevious = e` writes a variable that goes
out of scope at the end of the iteration. -/
def checkEnergy (e : ℚ) : Except Fault Unit :=
  let ePrevious : ℚ := 0
  if e ≤ 0 then
    .error (.runtimeError "TabularPhotonField::checkInputData: a value in the photon energy input is not positive")
  else if e ≤ ePrevious then
    .error (.runtimeError "TabularPhotonField::checkInputData: photon energy values are not strictly increasing")
  else .ok ()

/-- The body of the photon-density loop of `checkInputData` (source lines 123-124). -/
def checkDensity (d : ℚ) : Except Fault Unit :=
  if d < 0 then
    .error (.runtimeError "TabularPhotonField::checkInputData: a value in the photon density input is negative")
  else .ok ()

/-- The body of the redshift loop of `checkInputData` (source lines 132-138) for the element
`z`. As in the energy loop, `zPrevious` is declared inside the loop body, so every iteration
starts with `zPrevious = -1`. -/
def checkRedshift (z : ℚ) : Except Fault Unit :=
  let zPrevious : ℚ := -1
  if z < 0 then
    .error (.runtimeError "TabularPhotonField::checkInputData: a value in the redshift input is negative")
  else if z ≤ zPrevious then
    .error (.runtimeError "TabularPhotonField::checkInputData: redshift values are not strictly increasing")
  else .ok ()

/-- The body of the scaling-factor loop of `checkInputData` (source lines 142-144). -/
def checkScaling (scalingFactor : ℚ) : Except Fault Unit :=
  if scalingFactor ≤ 0 then
    .error (.runtimeError "TabularPhotonField::checkInputData: initRedshiftScaling has created a non-positive scaling factor")
  else .ok ()

/-- The redshift block of `checkInputData` (source lines 127-146). The read `redshifts[0]` is
outside the vector when there is no redshift. -/
def checkRedshifts (f : TabularPhotonField) : Except Fault Unit :=
  if f.isRedshiftDependent then
    match f.redshifts with
    | [] => .error .outOfBounds
    | z0 :: _ =>
      if z0 ≠ 0 then
        .error (.runtimeError "TabularPhotonField::checkInputData: redshift input must start with zero")
      else
        match forEach checkRedshift f.redshifts with
        | .error fault => .error fault
        | .ok _ => forEach checkScaling f.redshiftScalings
  else .ok ()

/-- The method `TabularPhotonField::checkInputData`: `.ok ()` when it returns normally. -/
def checkInputData (f : TabularPhotonField) : Except Fault Unit :=
  match checkSizes f with
  | .error fault => .error fault
  | .ok _ =>
    match forEach checkEnergy f.photonEnergies with
    | .error fault => .error fault
    | .ok _ =>
      match forEach checkDensity f.photonDensity with
      | .error fault => .error fault
      | .ok _ => checkRedshifts f

/-- The inner loop of `initRedshiftScaling` (source lines 93-98) over the photon energies, for
the redshift `z`: the pair `(n0, n)` after the loop. -/
def sumDensities (ip : Interpolation) (f : TabularPhotonField) (z : ℚ) :
    List ℚ → ℚ × ℚ → ℚ × ℚ
  | [], acc => acc
  | e :: rest, (n0, n) =>
    let n0 := if z = 0 then n0 + getPhotonDensity ip f e z else n0
    sumDensities ip f z rest (n0, n + getPhotonDensity ip f e z)

/-- The outer loop of `initRedshiftScaling` (source lines 90-100) over the remaining redshifts,
with the running value of `n0`: the scaling factors pushed, in order. -/
def scalingLoop (ip : Interpolation) (f : TabularPhotonField) : List ℚ → ℚ → List ℚ
  | [], _ => []
  | z :: rest, n0 =>
    let r := sumDensities ip f z f.photonEnergies (n0, 0)
    (r.2 / r.1) :: scalingLoop ip f rest r.1

/-- The method `TabularPhotonField::initRedshiftScaling`. -/
def initRedshiftScaling (ip : Interpolation) (f : TabularPhotonField) : TabularPhotonField :=
  { f with redshiftScalings := f.redshiftScalings ++ scalingLoop ip f f.redshifts 0 }

/-- The constructor `TabularPhotonField::TabularPhotonField`. The three data files are given by
the numbers on their non-empty lines, in order (`std::stod` of each line); the redshift file is
read only for a redshift-dependent field. -/
def construct (ip : Interpolation) (fieldName : String) (isRedshiftDependent : Bool)
    (energyFile densityFile redshiftFile : List ℚ) : Except Fault TabularPhotonField :=
  let f : TabularPhotonField :=
    { fieldName := fieldName
      isRedshiftDependent := isRedshiftDependent
      photonEnergies := energyFile
      photonDensity := densityFile
      redshifts := if isRedshiftDependent then redshiftFile else []
      redshiftScalings := [] }
  match checkInputData f with
  | .error fault => .error fault
  | .ok _ => .ok (if isRedshiftDependent then initRedshiftScaling ip f else f)

/-- The scan of `interpolateFrom`: `(x0, y0)` is the last grid point passed (`x0 ≤ x`), the lists
are the grid points still ahead. The first grid value above `x` closes the bracket; past the last
grid point the last tabulated value is returned. -/
def interpolateFrom (x : ℚ) : ℚ → ℚ → List ℚ → List ℚ → ℚ
  | x0, y0, x1 :: X, y1 :: Y =>
    if x < x1 then y0 + (x - x0) * (y1 - y0) / (x1 - x0)
    else interpolateFrom x x1 y1 X Y
  | _, y0, _, _ => y0

/-- Modelled from the spec: the helper `interpolate(x, X, Y)` is not among the source files.
The spec calls it "1-D interpolation of the energy/density grid", with "linear interpolation"
between neighbouring grid points, such that "interpolated density at a grid point returns
exactly that point's tabulated value"; outside the grid the spec recommends to "clamp to
boundary value". So: below the first grid point the first tabulated value, above the last one
the last tabulated value, and between two neighbours the straight line through them. -/
def interpolate (x : ℚ) (X Y : List ℚ) : ℚ :=
  match X, Y with
  | x0 :: X, y0 :: Y => if x < x0 then y0 else interpolateFrom x x0 y0 X Y
  | _, _ => 0

/-- A sample of the interpolation helpers for the worked examples. The 1-D helper is
`interpolate`. The 2-D helper looks the point up on the grid: for a grid energy `X[i]` and a grid
redshift `Y[j]` it returns the tabulated density `Z[i * |Y| + j]`, elsewhere 0. (Every
interpolation returns the tabulated value at a grid point, and `initRedshiftScaling` asks for the
density at grid points only.) -/
def sampleInterpolation : Interpolation :=
  { interpolate := interpolate
    interpolate2d := fun x y X Y Z =>
      if x ∈ X ∧ y ∈ Y then Z.getD (X.indexOf x * Y.length + Y.indexOf y) 0 else 0 }

/-- The total of the photon density over all tabulated energies at the redshift `z`: the value
that the inner loop of `initRedshiftScaling` adds to `n` (and, for `z = 0`, to `n0`). -/
def densitySum (ip : Interpolation) (f : TabularPhotonField) (z : ℚ) : ℚ :=
  (f.photonEnergies.map (fun e => getPhotonDensity ip f e z)).sum

/-- The method `TabularPhotonField::getRedshiftScaling`. The calls `redshifts.back()` and
`redshifts.front()` are undefined on an empty vector: the result is `none` then. -/
def getRedshiftScaling (ip : Interpolation) (f : TabularPhotonField) (z : ℚ) : Option ℚ :=
  if f.isRedshiftDependent then
    match f.redshifts.getLast?, f.redshifts.head? with
    | some back, some front =>
      if z > back then some 0
      else if z < front then some 1
      else some (ip.interpolate z f.redshifts f.redshiftScalings)
    | _, _ => none
  else some 1

end TabularPhotonField

/-! ### Blackbody field, photon-field sampling and cross section

The definitions below are written over a number type `K` that stands for `double`: any linear
ordered field, so that they can be evaluated over `ℚ` and reasoned about over `ℝ`. -/

section Sampling

variable {K : Type} [LinearOrderedField K] [FloorRing K]

/-- The functions of the C and C++ libraries and the helper template `gaussInt` that the code
below calls and whose code is outside the repository sources. `gaussInt f a b` is the
fixed-order Gaussian quadrature of `f` over `[a, b]`; a failure of the integrand ends the
call. -/
structure MathLibrary (K : Type) where
  M_PI : K
  sqrt : K → K
  exp : K → K
  expm1 : K → K
  log : K → K
  log10 : K → K
  pow : K → K → K
  gaussInt : (K → Except Fault K) → K → K → Except Fault K

/-- The constants of `crpropa/Units.h` that the code below uses; the header is not among the
source files. -/
structure Units (K : Type) where
  h_planck : K
  c_light : K
  k_boltzmann : K
  eV : K

/-- The data members of `BlackbodyPhotonField`, set by its constructor. -/
structure BlackbodyPhotonField (K : Type) where
  fieldName : String
  blackbodyTemperature : K

/-- Modelled from the spec: the helper template `pow_integer<3>` is not among the source files;
the spec's formula has the third power `(E/(h·c))³` at its place. -/
def pow_integer3 (x : K) : K := x * x * x

/-- The method `BlackbodyPhotonField::getPhotonDensity`. -/
def BlackbodyPhotonField.getPhotonDensity (lib : MathLibrary K) (units : Units K)
    (f : BlackbodyPhotonField K) (ePhoton _z : K) : K :=
  8 * lib.M_PI * pow_integer3 (ePhoton / (units.h_planck * units.c_light)) /
    lib.expm1 (ePhoton / (units.k_boltzmann * f.blackbodyTemperature))

/-- The data member of `PhotonFieldSampling`. -/
structure PhotonFieldSampling where
  bgFlag : Int
deriving DecidableEq

/-- The constructor `PhotonFieldSampling::PhotonFieldSampling()`. -/
def PhotonFieldSampling.new : PhotonFieldSampling := { bgFlag := 0 }

/-- The constructor `PhotonFieldSampling::PhotonFieldSampling(int flag)`. -/
def PhotonFieldSampling.newWithFlag (flag : Int) : Except Fault PhotonFieldSampling :=
  if flag ≠ 1 ∧ flag ≠ 2 then
    .error (.runtimeError "error: incorrect background flag. Must be 1 (CMB) or 2 (IRB_Kneiske04).")
  else .ok { bgFlag := flag }

/-- The local `mass` of `sample_eps`, `prob_eps`, `crossection`, `breitwigner` and `functs`:
`onProton ? 0.93827 : 0.93947`, in GeV/c^2. -/
def nucleonMass (onProton : Bool) : K := if onProton then 0.93827 else 0.93947

/-- The method `PhotonFieldSampling::Ef`. -/
def Ef (x th w : K) : Except Fault K :=
  let wth := w + th
  if x ≤ th then .ok 0
  else if x > th ∧ x < wth then .ok ((x - th) / w)
  else if x ≥ wth then .ok 1
  else .error (.runtimeError "error in function Ef")

/-- The method `PhotonFieldSampling::Pl`. -/
def Pl (lib : MathLibrary K) (x xth xmax alpha : K) : K :=
  if xth > x then 0
  else
    let a := alpha * xmax / xth
    let prod1 := lib.pow ((x - xth) / (xmax - xth)) (a - alpha)
    let prod2 := lib.pow (x / xmax) (-a)
    prod1 * prod2

/-- The method `PhotonFieldSampling::breitwigner`. -/
def breitwigner (sigma_0 Gamma DMM epsPrime : K) (onProton : Bool) : K :=
  let mass : K := nucleonMass onProton
  let s := mass * mass + 2 * mass * epsPrime
  let gam2s := Gamma * Gamma * s
  sigma_0 * (s / epsPrime / epsPrime) * gam2s / ((s - DMM * DMM) * (s - DMM * DMM) + gam2s)

/-- The table `AMRES` of `crossection`: 9 proton values, then 9 neutron values. -/
def AMRES : List K :=
  [1.231, 1.440, 1.515, 1.525, 1.675, 1.680, 1.690, 1.895, 1.950,
   1.231, 1.440, 1.515, 1.525, 1.675, 1.675, 1.690, 1.895, 1.950]

/-- The table `BGAMMA` of `crossection`. -/
def BGAMMA : List K :=
  [5.6, 0.5, 4.6, 2.5, 1.0, 2.1, 2.0, 0.2, 1.0,
   6.1, 0.3, 4.0, 2.5, 0.0, 0.2, 2.0, 0.2, 1.0]

/-- The table `WIDTH` of `crossection`. -/
def WIDTH : List K :=
  [0.11, 0.35, 0.11, 0.1, 0.16, 0.125, 0.29, 0.35, 0.3,
   0.11, 0.35, 0.11, 0.1, 0.16, 0.150, 0.29, 0.35, 0.3]

/-- The table `RATIOJ` of `crossection`. -/
def RATIOJ : List K :=
  [1, 0.5, 1, 0.5, 0.5, 1.5, 1, 1.5, 2,
   1, 0.5, 1, 0.5, 0.5, 1.5, 1, 1.5, 2]

/-- The table `AM2` of `crossection`. -/
def AM2 : List K := [0.882792, 0.880351]

/-- The local `idx` of `crossection`: `onProton ? 0 : 9`. -/
def resonanceOffset (onProton : Bool) : Nat := if onProton then 0 else 9

/-- The entry `SIG0[i]` computed by the first loop of `crossection` (source lines 315-317);
`int(onProton)` is 1 for a proton and 0 for a neutron. Every table index used here and below is
within the table (`i < 9`, offset 0 or 9). -/
def SIG0 (onProton : Bool) (i : Nat) : K :=
  4.893089117 / (AM2 : List K).getD (if onProton then 1 else 0) 0 *
    (RATIOJ : List K).getD (i + resonanceOffset onProton) 0 *
    (BGAMMA : List K).getD (i + resonanceOffset onProton) 0

/-- The value `breitwigner(SIG0[i], WIDTH[i + idx], AMRES[i + idx], x, onProton)`. -/
def resonance (x : K) (onProton : Bool) (i : Nat) : K :=
  breitwigner (SIG0 onProton i) ((WIDTH : List K).getD (i + resonanceOffset onProton) 0)
    ((AMRES : List K).getD (i + resonanceOffset onProton) 0) x onProton

/-- The loop over `i = 1 .. 8` of `crossection` (source lines 321-324), for the remaining
indices, with the running value of `cross_res`. -/
def resonanceLoop (x : K) (onProton : Bool) : List Nat → K → Except Fault K
  | [], cross_res => .ok cross_res
  | i :: rest, cross_res =>
    match Ef x 0.15 0.38 with
    | .error fault => .error fault
    | .ok ef => resonanceLoop x onProton rest (cross_res + resonance x onProton i * ef)

/-- The local `cross_dir` of `crossection` inside `if (x <= 10.)` (source lines 326-334): the
direct channel, single plus double pion production. -/
def directTerm (lib : MathLibrary K) (x : K) : K :=
  let cross_dir1 :=
    if x > 0.1 ∧ x < 0.6 then
      92.7 * Pl lib x 0.152 0.25 2.0
        + 40 * lib.exp (-(x - 0.29) * (x - 0.29) / 0.002)
        - 15 * lib.exp (-(x - 0.37) * (x - 0.37) / 0.002)
    else 92.7 * Pl lib x 0.152 0.25 2.0
  let cross_dir2 := 37.7 * Pl lib x 0.4 0.6 2.0
  cross_dir1 + cross_dir2

/-- The local `cross_res` of `crossection` inside `if (x <= 10.)` (source lines 319-324): the
resonant term. -/
def resonantTerm (x : K) (onProton : Bool) : Except Fault K :=
  match Ef x 0.152 0.17 with
  | .error fault => .error fault
  | .ok ef => resonanceLoop x onProton [1, 2, 3, 4, 5, 6, 7, 8] (resonance x onProton 0 * ef)

/-- The block `if (x <= 10.)` of `crossection` (source lines 318-335): the pair
`(cross_res, cross_dir)` after it; both stay 0 for `x > 10`. -/
def lowEnergyTerms (lib : MathLibrary K) (x : K) (onProton : Bool) : Except Fault (K × K) :=
  if x ≤ 10 then
    match resonantTerm x onProton with
    | .error fault => .error fault
    | .ok cross_res => .ok (cross_res, directTerm lib x)
  else .ok (0, 0)

/-- The local `cross_frag2` of `crossection` before the block `if (x > 0.85)` (source lines
337-338), given the value `ef` of `Ef(x, 0.5, 0.1)`. -/
def fragmentation2 (lib : MathLibrary K) (s ef : K) (onProton : Bool) : K :=
  (if onProton then 80.3 else 60.2) * (ef * lib.pow s (-0.34))

/-- The block `if (x > 0.85)` of `crossection` (source lines 345-372): the pair
`(cs_multidiff, cross_frag2)` after it, from the value of `cross_frag2` before it. The first
assignments to `cross_diffr1` and `cross_diffr2` (source lines 352-353) are overwritten before
they are read and are left out. -/
def highEnergyTerms (lib : MathLibrary K) (x s : K) (onProton : Bool) (cross_frag2 : K) :
    K × K :=
  if x > 0.85 then
    let ss1 := (x - 0.85) / 0.69
    let ss2 := (if onProton then 29.3 else 26.4) * (lib.pow s (-0.34) + 59.3 * lib.pow s 0.095)
    let cs_multidiff := (1 - lib.exp (-ss1)) * ss2
    let cs_multi := 0.89 * cs_multidiff
    let cross_diffr := 0.11 * cs_multidiff
    let ss1 := lib.pow (x - 0.85) 0.75 / 0.64
    let ss2 := 74.1 * lib.pow x (-0.44) + 62 * lib.pow s 0.08
    let cs_tmp := 0.96 * (1 - lib.exp (-ss1)) * ss2
    let cross_diffr1 := 0.14 * cs_tmp
    let cross_diffr2 := 0.013 * cs_tmp
    let cs_delta := cross_frag2 - (cross_diffr1 + cross_diffr2 - cross_diffr)
    let cross_frag2 := if cs_delta < 0 then 0 else cs_delta
    let cs_multi := if cs_delta < 0 then cs_multi + cs_delta else cs_multi
    let cross_diffr := cross_diffr1 + cross_diffr2
    let cs_multidiff := cs_multi + cross_diffr
    (cs_multidiff, cross_frag2)
  else (0, cross_frag2)

/-- The method `PhotonFieldSampling::crossection`. -/
def crossection (lib : MathLibrary K) (x : K) (onProton : Bool) : Except Fault K :=
  let mass : K := nucleonMass onProton
  let sth : K := 1.1646
  let s := mass * mass + 2 * mass * x
  if s < sth then .ok 0
  else
    match lowEnergyTerms lib x onProton with
    | .error fault => .error fault
    | .ok (cross_res, cross_dir) =>
      match Ef x 0.5 0.1 with
      | .error fault => .error fault
      | .ok ef =>
        let r := highEnergyTerms lib x s onProton (fragmentation2 lib s ef onProton)
        .ok (cross_res + cross_dir + r.1 + r.2)

/-- The method `PhotonFieldSampling::functs`. -/
def functs (lib : MathLibrary K) (s : K) (onProton : Bool) : Except Fault K :=
  let mass : K := nucleonMass onProton
  let factor := s - mass * mass
  let epsPrime := factor / 2 / mass
  match crossection lib epsPrime onProton with
  | .error fault => .error fault
  | .ok sigma_pg => .ok (factor * sigma_pg)

/-- The table `XData` of `getPhotonDensity`, in log10(eV). -/
def XData : List K :=
  [-1.0, -0.75, -0.5, -0.25, 0.0, 0.25, 0.5, 0.75, 1.0, 1.25, 1.5, 1.75, 2.0, 2.25, 2.5]

/-- The table `YData` of `getPhotonDensity`, in log10(nW/m^2/sr). -/
def YData : List K :=
  [-0.214401, 0.349313, 0.720354, 0.890389, 1.16042, 1.24692, 1.06525, 0.668659, 0.536312,
   0.595859, 0.457456, 0.623521, 1.20208, 1.33657, 1.04461]

/-- The loop `do { index++; } while (XData[index] < std::log10(X));` of `getPhotonDensity`
(source lines 283-285), entered with the value `index`: the value of `index` after the loop, or
`none` when `XData` is read outside its 15 entries. The first argument bounds the number of
iterations; with the bound 15 the read outside the table comes first. -/
def searchIndex (lgX : K) : Nat → Nat → Option Nat
  | 0, _ => none
  | bound + 1, index =>
    match (XData : List K)[index + 1]? with
    | none => none
    | some xv => if xv < lgX then searchIndex lgX bound (index + 1) else some (index + 1)

/-- The branch `if (bgFlag == 2)` of `PhotonFieldSampling::getPhotonDensity` (source lines
263-291): the infrared background. -/
def irDensity (lib : MathLibrary K) (eps z_in : K) : Except Fault K :=
  let ZMAX_IR : K := 5
  if z_in > ZMAX_IR then .ok 0
  else
    let X := 1.2398 * (1 + z_in) / eps
    if X > 500 then .ok 0
    else if lib.log10 X ≤ (XData : List K).getD 0 0 then .ok 0
    else if lib.log10 X ≥ (XData : List K).getD 14 0 then
      let result := ((YData : List K).getD 14 0 - (YData : List K).getD 13 0) /
        ((XData : List K).getD 14 0 - (XData : List K).getD 13 0) *
          (lib.log10 X - (XData : List K).getD 13 0) + (YData : List K).getD 13 0
      .ok (lib.pow 10 result)
    else
      match searchIndex (lib.log10 X) 15 1 with
      | none => .error .outOfBounds
      | some index =>
        let result := ((YData : List K).getD index 0 - (YData : List K).getD (index - 1) 0) /
          ((XData : List K).getD index 0 - (XData : List K).getD (index - 1) 0) *
            (lib.log10 X - (XData : List K).getD (index - 1) 0) +
              (YData : List K).getD (index - 1) 0
        let result := lib.pow 10 result
        let fluxConversion : K := 3.82182e3
        .ok (result * lib.pow (1 + z_in) 4 / (eps * eps) / fluxConversion)

/-- The method `PhotonFieldSampling::getPhotonDensity`. For a flag other than 1 and 2 the end of
the function is reached without a `return`. -/
def PhotonFieldSampling.getPhotonDensity (lib : MathLibrary K) (sampler : PhotonFieldSampling)
    (eps z_in : K) : Except Fault K :=
  if sampler.bgFlag = 1 then
    .ok (1.318e13 * eps * eps / (lib.exp (eps / (8.619e-5 * 2.73)) - 1))
  else if sampler.bgFlag = 2 then irDensity lib eps z_in
  else .error .missingReturn

/-- The method `PhotonFieldSampling::prob_eps`. -/
def PhotonFieldSampling.prob_eps (lib : MathLibrary K) (sampler : PhotonFieldSampling)
    (eps : K) (onProton : Bool) (E_in z_in : K) : Except Fault K :=
  let mass : K := nucleonMass onProton
  let gamma := E_in / mass
  let beta := lib.sqrt (1 - 1 / gamma / gamma)
  match sampler.getPhotonDensity lib eps z_in with
  | .error fault => .error fault
  | .ok photonDensity =>
    if photonDensity ≠ 0 then
      let sMin : K := 1.1646
      let sMax := max sMin (mass * mass + 2 * eps / 1e9 * E_in * (1 + beta))
      match lib.gaussInt (fun s => functs lib s onProton) sMin sMax with
      | .error fault => .error fault
      | .ok sintegr =>
        .ok (photonDensity / eps / eps * sintegr / 8 / beta / E_in / E_in * 1e18 * 1e6)
    else .ok 0

/-- The local `P_in` of `sample_eps`: the momentum `sqrt(E_in^2 - mass^2)`, in GeV/c. -/
def momentum (lib : MathLibrary K) (onProton : Bool) (E_in : K) : K :=
  lib.sqrt (E_in * E_in - nucleonMass onProton * nucleonMass onProton)

/-- The local `epsMin` of the CMB branch of `sample_eps` (source line 179), in eV. -/
def epsMinCMB (lib : MathLibrary K) (onProton : Bool) (E_in : K) : K :=
  (1.1646 - nucleonMass onProton * nucleonMass onProton) / 2 /
    (E_in + momentum lib onProton E_in) * 1e9

/-- The local `epsMax` of the CMB branch of `sample_eps` (source lines 178 and 180), in eV. -/
def epsMaxCMB (z_in : K) : K :=
  let tbb := 2.73 * (1 + z_in)
  0.007 * tbb

/-- The local `epsMin` of the IRB branch of `sample_eps` (source line 204), in eV. -/
def epsMinIRB (lib : MathLibrary K) (onProton : Bool) (E_in : K) : K :=
  max 0.00395 (1e9 * (1.1646 - nucleonMass onProton * nucleonMass onProton) / 2 /
    (E_in + momentum lib onProton E_in))

/-- The local `epsMax` of the IRB branch of `sample_eps` (source line 205), in eV. -/
def epsMaxIRB : K := 12.2

/-- How a call of `sample_eps` ends, with the number of values it has taken from the random
generator. -/
inductive SampleOutcome (K : Type) where
  -- an exception, or undefined behaviour, ends the call
  | thrown (fault : Fault)
  -- the statement `return 0.;` after the test `epsMin > epsMax`; no random value was taken
  | forbidden
  -- the statement `return 0.;` after the test `i_rep >= 100000` of the IRB loop
  | exhausted (draws : Nat)
  -- the final statement `return eps * eV;`
  | finished (eps : K) (draws : Nat)
  -- the rejection loop of the CMB branch is still running after the given number of iterations
  | running

/-- The value returned by a call of `sample_eps` that returns. -/
def SampleOutcome.value (units : Units K) : SampleOutcome K → Option K
  | .forbidden => some 0
  | .exhausted _ => some 0
  | .finished eps _ => some (eps * units.eV)
  | .thrown _ => none
  | .running => none

/-- The number of random values taken by a call of `sample_eps` that returns. -/
def SampleOutcome.draws : SampleOutcome K → Option Nat
  | .forbidden => some 0
  | .exhausted draws => some draws
  | .finished _ draws => some draws
  | .thrown _ => none
  | .running => none

/-- The conversion `static_cast<int>(x)` of a `double`: truncation toward zero. -/
def truncToInt (x : K) : Int := if 0 ≤ x then ⌊x⌋ else ⌈x⌉

/-- The rejection loop of the CMB branch of `sample_eps` (source lines 196-199). The loop has
no bound of its own: the first argument is the number of iterations still allowed, the second
the number of random values taken so far. -/
def cmbLoop (lib : MathLibrary K) (sampler : PhotonFieldSampling) (rand : Nat → K)
    (onProton : Bool) (E_in z_in epsMin epsMax cnorm pMax : K) : Nat → Nat → SampleOutcome K
  | 0, _ => .running
  | fuel + 1, n =>
    let eps := epsMin + rand n * (epsMax - epsMin)
    match sampler.prob_eps lib eps onProton E_in z_in with
    | .error fault => .thrown fault
    | .ok p =>
      let peps := p / cnorm
      if rand (n + 1) * pMax > peps then
        cmbLoop lib sampler rand onProton E_in z_in epsMin epsMax cnorm pMax fuel (n + 2)
      else .finished eps (n + 2)

/-- The branch `if (bgFlag == 1)` of `sample_eps` (source lines 176-200); after it the function
returns `eps * eV`. `rand i` is the `i`-th value of `random.rand()` in this call. -/
def sampleCMB (lib : MathLibrary K) (sampler : PhotonFieldSampling) (rand : Nat → K)
    (fuel : Nat) (onProton : Bool) (E_in z_in : K) : SampleOutcome K :=
  let tbb := 2.73 * (1 + z_in)
  let epsMin := epsMinCMB lib onProton E_in
  let epsMax := epsMaxCMB z_in
  if epsMin > epsMax then .forbidden
  else
    match lib.gaussInt (fun e => sampler.prob_eps lib e onProton E_in z_in) epsMin epsMax with
    | .error fault => .thrown fault
    | .ok cnorm =>
      let epskt := 8.619e-5 * tbb
      let epspmax := (3e-3 * lib.pow (E_in * epskt * 1e-9) (-0.97) + 0.047) / 3.9e2 * tbb
      match sampler.prob_eps lib epspmax onProton E_in z_in with
      | .error fault => .thrown fault
      | .ok p =>
        let pmaxc := p / cnorm
        let facpmax : K := 1.6
        let pMax := facpmax * pmaxc
        cmbLoop lib sampler rand onProton E_in z_in epsMin epsMax cnorm pMax fuel 0

/-- The loop that bounds `eps^2 * density` in the IRB branch of `sample_eps` (source lines
215-220): the first argument is the number of iterations left, the second the loop variable `i`,
the third the running value of `rmax`. -/
def rmaxLoop (lib : MathLibrary K) (sampler : PhotonFieldSampling) (z_in epsMin de : K) :
    Nat → Nat → K → Except Fault K
  | 0, _, rmax => .ok rmax
  | left + 1, i, rmax =>
    let eps_dum := epsMin * lib.exp ((i : K) * de)
    match sampler.getPhotonDensity lib eps_dum z_in with
    | .error fault => .error fault
    | .ok density =>
      let dum := eps_dum * eps_dum * density
      rmaxLoop lib sampler z_in epsMin de left (i + 1) (if dum > rmax then dum else rmax)

/-- The proposal `std::pow(u * (e1 - e2) + e2, 1./(1. - beta))` of the IRB loop (source line
232) for the random value `u`. -/
def irbProposal (lib : MathLibrary K) (beta e1 e2 u : K) : K :=
  lib.pow (u * (e1 - e2) + e2) (1 / (1 - beta))

/-- The rejection loop of the IRB branch of `sample_eps` (source lines 227-236). The first
argument is `100000 - i_rep`, the number of proposals still allowed; the second the number of
random values taken so far. -/
def irbLoop (lib : MathLibrary K) (sampler : PhotonFieldSampling) (rand : Nat → K)
    (z_in beta e1 e2 rmax : K) : Nat → Nat → SampleOutcome K
  | 0, n => .exhausted n
  | budget + 1, n =>
    let eps := irbProposal lib beta e1 e2 (rand n)
    match sampler.getPhotonDensity lib eps z_in with
    | .error fault => .thrown fault
    | .ok density =>
      if rand (n + 1) < eps * eps * density / rmax then .finished eps (n + 2)
      else irbLoop lib sampler rand z_in beta e1 e2 rmax budget (n + 2)

/-- The acceptance test of the rejection loop of the IRB branch (source line 234) for the
proposal number `i`, counted from 0: the proposal is made from the random value `rand (2 * i)`
and tested against the random value `rand (2 * i + 1)`. -/
def irbAccepts (lib : MathLibrary K) (sampler : PhotonFieldSampling) (rand : Nat → K)
    (z_in beta e1 e2 rmax : K) (i : Nat) : Prop :=
  ∃ density,
    sampler.getPhotonDensity lib (irbProposal lib beta e1 e2 (rand (2 * i))) z_in =
      .ok density ∧
    rand (2 * i + 1) <
      irbProposal lib beta e1 e2 (rand (2 * i)) * irbProposal lib beta e1 e2 (rand (2 * i)) *
        density / rmax

/-- The local `rmax` of the IRB branch of `sample_eps` after the loop that bounds
`eps^2 * density` (source lines 210-220), for `epsMin ≤ epsMax`. The loop runs `i_max` times,
`i_max = static_cast<int>(10. * std::log(epsMax / epsMin)) + 1`. -/
def irbRmax (lib : MathLibrary K) (sampler : PhotonFieldSampling) (onProton : Bool)
    (E_in z_in : K) : Except Fault K :=
  let epsMin := epsMinIRB lib onProton E_in
  let epsMax : K := epsMaxIRB
  let i_max : Int := truncToInt (10 * lib.log (epsMax / epsMin)) + 1
  let de := lib.log (epsMax / epsMin) / (i_max : K)
  rmaxLoop lib sampler z_in epsMin de i_max.toNat 0 0

/-- The branch `if (bgFlag == 2)` of `sample_eps` (source lines 202-237); after it the function
returns `eps * eV`. -/
def sampleIRB (lib : MathLibrary K) (sampler : PhotonFieldSampling) (rand : Nat → K)
    (onProton : Bool) (E_in z_in : K) : SampleOutcome K :=
  let epsMin := epsMinIRB lib onProton E_in
  let epsMax : K := epsMaxIRB
  if epsMin > epsMax then .forbidden
  else
    match irbRmax lib sampler onProton E_in z_in with
    | .error fault => .thrown fault
    | .ok rmax =>
      let beta : K := 4
      let e1 := lib.pow epsMin (1 - beta)
      let e2 := lib.pow epsMax (1 - beta)
      irbLoop lib sampler rand z_in beta e1 e2 rmax 100000 0

/-- The method `PhotonFieldSampling::sample_eps`. `rand i` is the `i`-th value that
`random.rand()` returns during the call, `fuel` the number of iterations allowed to the CMB
loop, which has no bound of its own. A flag other than 0, 1 and 2 skips both branches and
returns `eps * eV` with `eps = 0`. -/
def PhotonFieldSampling.sample_eps (lib : MathLibrary K) (sampler : PhotonFieldSampling)
    (rand : Nat → K) (fuel : Nat) (onProton : Bool) (E_in z_in : K) : SampleOutcome K :=
  if sampler.bgFlag = 0 then
    .thrown (.runtimeError "error: select photon field first: 1 (CMB) or 2 (IRB_Kneiske04)")
  else if sampler.bgFlag = 1 then sampleCMB lib sampler rand fuel onProton E_in z_in
  else if sampler.bgFlag = 2 then sampleIRB lib sampler rand onProton E_in z_in
  else .finished 0 0

/-- A sample of the outside functions over `ℚ` for the worked examples: `M_PI` is 3, `sqrt`
returns 0, `exp` returns 2, `expm1` and `log` return 1, `log10` returns 0, `pow` returns 1 and
`gaussInt` returns the integrand at the lower limit. -/
def sampleMathLibrary : MathLibrary ℚ :=
  { M_PI := 3
    sqrt := fun _ => 0
    exp := fun _ => 2
    expm1 := fun _ => 1
    log := fun _ => 1
    log10 := fun _ => 0
    pow := fun _ _ => 1
    gaussInt := fun f a _ => f a }

end Sampling

end crpropa

/-! ## Part II: theorems -/

namespace mpc

/-- The loop of `addSecondary` calls appends `n` copies of the same secondary and changes
nothing else. -/
theorem addSecondaries_eq (c : Candidate) (id : NucleusId) (energy : ℚ) (n : Nat) :
    addSecondaries c id energy n =
      { c with secondaries := c.secondaries ++ List.replicate n ⟨id, energy⟩ } := by
  induction n generalizing c with
  | zero => simp [addSecondaries]
  | succ n ih =>
    simp [addSecondaries, ih, Candidate.addSecondary, List.replicate_succ]

/-- For a non-negative value and a positive place, the truncating `int` operations of `digit`
agree with the Euclidean ones. -/
theorem digit_eq_ediv (value d : Int) (hv : 0 ≤ value) (hd : 0 < d) :
    digit value d = value % (d * 10) / d := by
  unfold digit
  rw [Int.tmod_eq_emod hv (by omega),
    Int.tdiv_eq_ediv (Int.emod_nonneg _ (by omega)) (by omega)]

/-- A count in `0..9` is its own `size_t` conversion. -/
theorem sizeT_of_small (n : Int) (h0 : 0 ≤ n) (h9 : n ≤ 9) : sizeT n = n.toNat := by
  unfold sizeT
  congr 1
  omega

namespace PhotoDisintegration

/-- The six counts parsed from a non-negative channel code, as Euclidean quotients. -/
theorem parseChannel_of_nonneg (channel : Int) (h : 0 ≤ channel) :
    parseChannel channel =
      { nNeutron := channel / 100000 % 10
        nProton := channel / 10000 % 10
        nH2 := channel / 1000 % 10
        nH3 := channel / 100 % 10
        nHe3 := channel / 10 % 10
        nHe4 := channel % 10 } := by
  unfold parseChannel
  rw [digit_eq_ediv channel 100000 h (by norm_num), digit_eq_ediv channel 10000 h (by norm_num),
    digit_eq_ediv channel 1000 h (by norm_num), digit_eq_ediv channel 100 h (by norm_num),
    digit_eq_ediv channel 10 h (by norm_num), digit_eq_ediv channel 1 h (by norm_num)]
  simp only [Emission.mk.injEq]
  refine ⟨?_, ?_, ?_, ?_, ?_, ?_⟩ <;> omega

/-- The candidate after `createSecondaries`: only the list of secondaries grows, by the six
blocks in source order. -/
theorem createSecondaries_eq (c : Candidate) (e : Emission) (EpA : ℚ) :
    createSecondaries c e EpA = { c with secondaries := c.secondaries ++ emitted e EpA } := by
  simp [createSecondaries, emitted, addSecondaries_eq, List.append_assoc]

/-- The result of `performInteraction` when the surviving mass number is positive. -/
theorem performInteraction_of_pos (description : String) (fresh : InteractionState)
    (candidate : Candidate)
    (h : 0 < candidate.current.getMassNumber +
      (parseChannel (committedChannel description fresh candidate)).dA) :
    performInteraction description fresh candidate =
      { current :=
          ⟨getNucleusId
            (candidate.current.getMassNumber +
              (parseChannel (committedChannel description fresh candidate)).dA)
            (candidate.current.getChargeNumber +
              (parseChannel (committedChannel description fresh candidate)).dZ),
           candidate.current.energy / (candidate.current.getMassNumber : ℚ) *
            ((candidate.current.getMassNumber +
              (parseChannel (committedChannel description fresh candidate)).dA : Int) : ℚ)⟩
        redshift := candidate.redshift
        active := candidate.active
        interactionStates := []
        secondaries := candidate.secondaries ++
          emitted (parseChannel (committedChannel description fresh candidate))
            (candidate.current.energy / (candidate.current.getMassNumber : ℚ)) } := by
  simp only [performInteraction, createSecondaries_eq, updateParticle,
    Candidate.clearInteractionStates, committedChannel] at h ⊢
  rw [if_pos h]
  simp [ParticleState.setId, ParticleState.setEnergy]

/-- The result of `performInteraction` when the surviving mass number is not positive. -/
theorem performInteraction_of_nonpos (description : String) (fresh : InteractionState)
    (candidate : Candidate)
    (h : candidate.current.getMassNumber +
      (parseChannel (committedChannel description fresh candidate)).dA ≤ 0) :
    performInteraction description fresh candidate =
      { current := candidate.current
        redshift := candidate.redshift
        active := false
        interactionStates := []
        secondaries := candidate.secondaries ++
          emitted (parseChannel (committedChannel description fresh candidate))
            (candidate.current.energy / (candidate.current.getMassNumber : ℚ)) } := by
  have h2 : ¬ (candidate.current.getMassNumber +
      (parseChannel (committedChannel description fresh candidate)).dA > 0) := by omega
  simp only [performInteraction, createSecondaries_eq, updateParticle,
    Candidate.clearInteractionStates, committedChannel] at h2 ⊢
  rw [if_neg h2]
  simp [Candidate.setActive]

/-- The secondaries added by `performInteraction` are the emitted ones, whatever the branch. -/
theorem spawned_performInteraction (description : String) (fresh : InteractionState)
    (candidate : Candidate) :
    spawned candidate (performInteraction description fresh candidate) =
      emitted (parseChannel (committedChannel description fresh candidate))
        (candidate.current.energy / (candidate.current.getMassNumber : ℚ)) := by
  unfold spawned
  rcases Int.lt_or_le 0 (candidate.current.getMassNumber +
      (parseChannel (committedChannel description fresh candidate)).dA) with h | h
  · rw [performInteraction_of_pos description fresh candidate h]
    simp
  · rw [performInteraction_of_nonpos description fresh candidate h]
    simp

/-- The counts parsed from a non-negative channel code are single decimal digits. -/
theorem parseChannel_singleDigits (channel : Int) (h : 0 ≤ channel) :
    (parseChannel channel).SingleDigits := by
  rw [parseChannel_of_nonneg channel h]
  simp only [Emission.SingleDigits]
  omega

/-- For single-digit counts every loop bound is the count itself. -/
theorem emitted_of_singleDigits (e : Emission) (EpA : ℚ) (h : e.SingleDigits) :
    emitted e EpA =
      List.replicate e.nNeutron.toNat ⟨getNucleusId 1 0, EpA⟩ ++
      List.replicate e.nProton.toNat ⟨getNucleusId 1 1, EpA⟩ ++
      List.replicate e.nH2.toNat ⟨getNucleusId 2 1, EpA * 2⟩ ++
      List.replicate e.nH3.toNat ⟨getNucleusId 3 1, EpA * 3⟩ ++
      List.replicate e.nHe3.toNat ⟨getNucleusId 3 2, EpA * 3⟩ ++
      List.replicate e.nHe4.toNat ⟨getNucleusId 4 2, EpA * 4⟩ := by
  obtain ⟨⟨a1, a2⟩, ⟨b1, b2⟩, ⟨c1, c2⟩, ⟨d1, d2⟩, ⟨f1, f2⟩, ⟨g1, g2⟩⟩ := h
  simp only [emitted, sizeT_of_small _ a1 a2, sizeT_of_small _ b1 b2, sizeT_of_small _ c1 c2,
    sizeT_of_small _ d1 d2, sizeT_of_small _ f1 f2, sizeT_of_small _ g1 g2]

/-- The emitted secondaries carry exactly the mass number that the parent loses. -/
theorem massSum_emitted (e : Emission) (EpA : ℚ) (h : e.SingleDigits) :
    massSum (emitted e EpA) = -e.dA := by
  rw [emitted_of_singleDigits e EpA h]
  obtain ⟨⟨a1, a2⟩, ⟨b1, b2⟩, ⟨c1, c2⟩, ⟨d1, d2⟩, ⟨f1, f2⟩, ⟨g1, g2⟩⟩ := h
  simp only [massSum, List.map_append, List.map_replicate, List.sum_append, List.sum_replicate,
    ParticleState.getMassNumber, getNucleusId, Emission.dA, smul_eq_mul, nsmul_eq_mul]
  rw [Int.toNat_of_nonneg a1, Int.toNat_of_nonneg b1, Int.toNat_of_nonneg c1,
    Int.toNat_of_nonneg d1, Int.toNat_of_nonneg f1, Int.toNat_of_nonneg g1]
  ring

/-- The emitted secondaries carry exactly the charge number that the parent loses. -/
theorem chargeSum_emitted (e : Emission) (EpA : ℚ) (h : e.SingleDigits) :
    chargeSum (emitted e EpA) = -e.dZ := by
  rw [emitted_of_singleDigits e EpA h]
  obtain ⟨⟨a1, a2⟩, ⟨b1, b2⟩, ⟨c1, c2⟩, ⟨d1, d2⟩, ⟨f1, f2⟩, ⟨g1, g2⟩⟩ := h
  simp only [chargeSum, List.map_append, List.map_replicate, List.sum_append, List.sum_replicate,
    ParticleState.getChargeNumber, getNucleusId, Emission.dZ, smul_eq_mul, nsmul_eq_mul]
  rw [Int.toNat_of_nonneg a1, Int.toNat_of_nonneg b1, Int.toNat_of_nonneg c1,
    Int.toNat_of_nonneg d1, Int.toNat_of_nonneg f1, Int.toNat_of_nonneg g1]
  ring

/-- C1 (as amended): for a candidate with mass number 8, charge number 6 and energy `E` whose
pending channel for this module is `000001` (one helium-4), `performInteraction` leaves the
active flag as it was, turns the candidate into the nuclide `A = 4, Z = 4` with energy
`(E / 8) * 4`, and adds exactly one secondary, of mass number 4 and charge number 2, with energy
`(E / 8) * 4`. -/
theorem performInteraction_A8_Z6_He4 (description : String) (fresh stored : InteractionState)
    (candidate : Candidate) (E : ℚ)
    (hcur : candidate.current = ⟨getNucleusId 8 6, E⟩)
    (hpending : candidate.interactionStates.lookup description = some stored)
    (hch : stored.channel = 1) :
    (performInteraction description fresh candidate).active = candidate.active ∧
    (performInteraction description fresh candidate).current = ⟨getNucleusId 4 4, E / 8 * 4⟩ ∧
    (performInteraction description fresh candidate).secondaries =
      candidate.secondaries ++ [⟨getNucleusId 4 2, E / 8 * 4⟩] := by
  have hc : committedChannel description fresh candidate = 1 := by
    simp [committedChannel, Candidate.getInteractionState, hpending, hch]
  have hp : parseChannel 1 = ⟨0, 0, 0, 0, 0, 1⟩ := by decide
  have hpos : 0 < candidate.current.getMassNumber +
      (parseChannel (committedChannel description fresh candidate)).dA := by
    rw [hc, hp, hcur]
    simp [ParticleState.getMassNumber, getNucleusId, Emission.dA]
  rw [performInteraction_of_pos description fresh candidate hpos, hc, hp, hcur]
  have h0 : sizeT 0 = 0 := by decide
  have h1 : sizeT 1 = 1 := by decide
  refine ⟨rfl, ?_, ?_⟩
  · simp [ParticleState.getMassNumber, ParticleState.getChargeNumber, getNucleusId,
      Emission.dA, Emission.dZ]
  · simp [emitted, h0, h1, ParticleState.getMassNumber, getNucleusId]

/-- Witness of C1 (as amended): an active carbon-8 candidate of energy 16 with the pending
channel `000001` stays active, becomes `A = 4, Z = 4` and gets one helium-4 secondary. -/
theorem performInteraction_A8_Z6_He4_witness :
    (performInteraction "PhotoDisintegration:CMB" ⟨0, 0⟩
      ⟨⟨getNucleusId 8 6, 16⟩, 0, true, [("PhotoDisintegration:CMB", ⟨1, 1⟩)], []⟩).active = true ∧
    (performInteraction "PhotoDisintegration:CMB" ⟨0, 0⟩
      ⟨⟨getNucleusId 8 6, 16⟩, 0, true, [("PhotoDisintegration:CMB", ⟨1, 1⟩)], []⟩).current =
        ⟨getNucleusId 4 4, 16 / 8 * 4⟩ ∧
    (performInteraction "PhotoDisintegration:CMB" ⟨0, 0⟩
      ⟨⟨getNucleusId 8 6, 16⟩, 0, true, [("PhotoDisintegration:CMB", ⟨1, 1⟩)], []⟩).secondaries =
        [⟨getNucleusId 4 2, 16 / 8 * 4⟩] :=
  performInteraction_A8_Z6_He4 "PhotoDisintegration:CMB" ⟨0, 0⟩ ⟨1, 1⟩
    ⟨⟨getNucleusId 8 6, 16⟩, 0, true, [("PhotoDisintegration:CMB", ⟨1, 1⟩)], []⟩ 16 rfl rfl rfl

/-- Counterexample to C1 as stated: the active candidate `A = 8, Z = 6` with the pending channel
`000001` is not left terminal with remaining mass number 0 (it stays active, with mass number
4). -/
theorem performInteraction_A8_Z6_He4_not_terminal :
    ¬ ((performInteraction "PhotoDisintegration:CMB" ⟨0, 0⟩
        ⟨⟨getNucleusId 8 6, 16⟩, 0, true, [("PhotoDisintegration:CMB", ⟨1, 1⟩)], []⟩).active = false ∧
      remnantMass (performInteraction "PhotoDisintegration:CMB" ⟨0, 0⟩
        ⟨⟨getNucleusId 8 6, 16⟩, 0, true, [("PhotoDisintegration:CMB", ⟨1, 1⟩)], []⟩) = 0) := by
  decide

/-- C2 (as amended): for every active candidate with nuclide `(A, Z)` and every non-negative
channel code committed by `performInteraction`, the mass numbers of the spawned secondaries plus
the remnant mass number give the original `A` exactly when `A + dA ≥ 0`, and the charge numbers
of the spawned secondaries plus the remnant charge number give the original `Z` exactly when
`A + dA > 0` (the candidate stays active) or `Z + dZ = 0`. In particular both are conserved
whenever the candidate stays active. -/
theorem performInteraction_conservation (description : String) (fresh : InteractionState)
    (candidate : Candidate) (hactive : candidate.active = true)
    (hchannel : 0 ≤ committedChannel description fresh candidate) :
    (massSum (spawned candidate (performInteraction description fresh candidate)) +
        remnantMass (performInteraction description fresh candidate) =
          candidate.current.getMassNumber ↔
      0 ≤ candidate.current.getMassNumber +
        (parseChannel (committedChannel description fresh candidate)).dA) ∧
    (chargeSum (spawned candidate (performInteraction description fresh candidate)) +
        remnantCharge (performInteraction description fresh candidate) =
          candidate.current.getChargeNumber ↔
      (0 < candidate.current.getMassNumber +
          (parseChannel (committedChannel description fresh candidate)).dA ∨
        candidate.current.getChargeNumber +
          (parseChannel (committedChannel description fresh candidate)).dZ = 0)) := by
  have hd := parseChannel_singleDigits _ hchannel
  rw [spawned_performInteraction, massSum_emitted _ _ hd, chargeSum_emitted _ _ hd]
  rcases Int.lt_or_le 0 (candidate.current.getMassNumber +
      (parseChannel (committedChannel description fresh candidate)).dA) with h | h
  · rw [performInteraction_of_pos description fresh candidate h]
    simp only [remnantMass, remnantCharge, hactive, if_true, ParticleState.getMassNumber,
      ParticleState.getChargeNumber, getNucleusId] at h ⊢
    constructor <;> constructor <;> intro _ <;> omega
  · rw [performInteraction_of_nonpos description fresh candidate h]
    simp only [remnantMass, remnantCharge, ParticleState.getMassNumber,
      ParticleState.getChargeNumber] at h ⊢
    simp only [Bool.false_eq_true, if_false]
    constructor <;> constructor <;> intro _ <;> omega

/-- Witness of C2 (as amended): an active helium-4 candidate with the pending channel `000001`
ends with `A + dA = 0` and `Z + dZ = 0`; mass and charge are both conserved. -/
theorem performInteraction_conservation_witness :
    (massSum (spawned ⟨⟨getNucleusId 4 2, 4⟩, 0, true, [("PD", ⟨1, 1⟩)], []⟩
        (performInteraction "PD" ⟨0, 0⟩ ⟨⟨getNucleusId 4 2, 4⟩, 0, true, [("PD", ⟨1, 1⟩)], []⟩)) +
      remnantMass
        (performInteraction "PD" ⟨0, 0⟩ ⟨⟨getNucleusId 4 2, 4⟩, 0, true, [("PD", ⟨1, 1⟩)], []⟩) =
      4) ∧
    (chargeSum (spawned ⟨⟨getNucleusId 4 2, 4⟩, 0, true, [("PD", ⟨1, 1⟩)], []⟩
        (performInteraction "PD" ⟨0, 0⟩ ⟨⟨getNucleusId 4 2, 4⟩, 0, true, [("PD", ⟨1, 1⟩)], []⟩)) +
      remnantCharge
        (performInteraction "PD" ⟨0, 0⟩ ⟨⟨getNucleusId 4 2, 4⟩, 0, true, [("PD", ⟨1, 1⟩)], []⟩) =
      2) :=
  ⟨(performInteraction_conservation "PD" ⟨0, 0⟩
      ⟨⟨getNucleusId 4 2, 4⟩, 0, true, [("PD", ⟨1, 1⟩)], []⟩ rfl (by decide)).1.2 (by decide),
   (performInteraction_conservation "PD" ⟨0, 0⟩
      ⟨⟨getNucleusId 4 2, 4⟩, 0, true, [("PD", ⟨1, 1⟩)], []⟩ rfl (by decide)).2.2
        (Or.inr (by decide))⟩

/-- Counterexample to C2 as stated: an active helium-3 candidate (`A = 3, Z = 2`) with the
pending channel `000001` (one helium-4) is deactivated and spawns one secondary of mass number
4, so secondaries plus remnant give mass number 4, not 3. -/
theorem performInteraction_mass_not_conserved :
    ¬ (massSum (spawned ⟨⟨getNucleusId 3 2, 3⟩, 0, true, [("PD", ⟨1, 1⟩)], []⟩
        (performInteraction "PD" ⟨0, 0⟩ ⟨⟨getNucleusId 3 2, 3⟩, 0, true, [("PD", ⟨1, 1⟩)], []⟩)) +
      remnantMass
        (performInteraction "PD" ⟨0, 0⟩ ⟨⟨getNucleusId 3 2, 3⟩, 0, true, [("PD", ⟨1, 1⟩)], []⟩) =
      3) := by
  decide

/-- C3: for every candidate with `A > 0` and energy `E` and every (non-negative) channel code
with `A + dA > 0`, `performInteraction` turns the candidate into the nuclide
`(A + dA, Z + dZ)` with energy `(E / A) * (A + dA)`, and spawns, in this order, one neutron per
counted neutron, one proton per counted proton, then the deuterons, tritons, helium-3 and
helium-4 nuclei, each with energy `(E / A)` times its own mass number (1, 1, 2, 3, 3, 4); the
number of secondaries is the sum of the six counts. The hypothesis `A > 0` of the claim is where
the exact quotient `E / A` and the `double` quotient of the source mean the same. -/
theorem performInteraction_energy_per_nucleon (description : String) (fresh : InteractionState)
    (candidate : Candidate)
    (hchannel : 0 ≤ committedChannel description fresh candidate)
    (_hA : 0 < candidate.current.getMassNumber)
    (hnA : 0 < candidate.current.getMassNumber +
      (parseChannel (committedChannel description fresh candidate)).dA) :
    (performInteraction description fresh candidate).current =
      ⟨getNucleusId
        (candidate.current.getMassNumber +
          (parseChannel (committedChannel description fresh candidate)).dA)
        (candidate.current.getChargeNumber +
          (parseChannel (committedChannel description fresh candidate)).dZ),
       candidate.current.energy / (candidate.current.getMassNumber : ℚ) *
        ((candidate.current.getMassNumber +
          (parseChannel (committedChannel description fresh candidate)).dA : Int) : ℚ)⟩ ∧
    spawned candidate (performInteraction description fresh candidate) =
      List.replicate (parseChannel (committedChannel description fresh candidate)).nNeutron.toNat
        ⟨getNucleusId 1 0, candidate.current.energy / (candidate.current.getMassNumber : ℚ) * 1⟩ ++
      List.replicate (parseChannel (committedChannel description fresh candidate)).nProton.toNat
        ⟨getNucleusId 1 1, candidate.current.energy / (candidate.current.getMassNumber : ℚ) * 1⟩ ++
      List.replicate (parseChannel (committedChannel description fresh candidate)).nH2.toNat
        ⟨getNucleusId 2 1, candidate.current.energy / (candidate.current.getMassNumber : ℚ) * 2⟩ ++
      List.replicate (parseChannel (committedChannel description fresh candidate)).nH3.toNat
        ⟨getNucleusId 3 1, candidate.current.energy / (candidate.current.getMassNumber : ℚ) * 3⟩ ++
      List.replicate (parseChannel (committedChannel description fresh candidate)).nHe3.toNat
        ⟨getNucleusId 3 2, candidate.current.energy / (candidate.current.getMassNumber : ℚ) * 3⟩ ++
      List.replicate (parseChannel (committedChannel description fresh candidate)).nHe4.toNat
        ⟨getNucleusId 4 2, candidate.current.energy / (candidate.current.getMassNumber : ℚ) * 4⟩ ∧
    (∀ s ∈ spawned candidate (performInteraction description fresh candidate),
      s.energy = candidate.current.energy / (candidate.current.getMassNumber : ℚ) *
        (s.getMassNumber : ℚ)) ∧
    (((spawned candidate (performInteraction description fresh candidate)).length : Int) =
      (parseChannel (committedChannel description fresh candidate)).nNeutron +
      (parseChannel (committedChannel description fresh candidate)).nProton +
      (parseChannel (committedChannel description fresh candidate)).nH2 +
      (parseChannel (committedChannel description fresh candidate)).nH3 +
      (parseChannel (committedChannel description fresh candidate)).nHe3 +
      (parseChannel (committedChannel description fresh candidate)).nHe4) := by
  have hd := parseChannel_singleDigits _ hchannel
  rw [spawned_performInteraction, emitted_of_singleDigits _ _ hd]
  obtain ⟨⟨a1, a2⟩, ⟨b1, b2⟩, ⟨c1, c2⟩, ⟨d1, d2⟩, ⟨f1, f2⟩, ⟨g1, g2⟩⟩ := hd
  refine ⟨?_, ?_, ?_, ?_⟩
  · rw [performInteraction_of_pos description fresh candidate hnA]
  · simp only [mul_one]
  · intro s hs
    simp only [List.mem_append, List.mem_replicate] at hs
    rcases hs with ((((⟨_, rfl⟩ | ⟨_, rfl⟩) | ⟨_, rfl⟩) | ⟨_, rfl⟩) | ⟨_, rfl⟩) | ⟨_, rfl⟩ <;>
      simp [ParticleState.getMassNumber, getNucleusId]
  · simp only [List.length_append, List.length_replicate]
    push_cast
    rw [Int.toNat_of_nonneg a1, Int.toNat_of_nonneg b1, Int.toNat_of_nonneg c1,
      Int.toNat_of_nonneg d1, Int.toNat_of_nonneg f1, Int.toNat_of_nonneg g1]

/-- Witness of C3: the carbon-8 candidate of energy 16 with the pending channel `000001`
satisfies the three hypotheses; it becomes `A = 4, Z = 4` with energy `(16 / 8) * 4` and spawns
one helium-4 with energy `(16 / 8) * 4`. -/
theorem performInteraction_energy_per_nucleon_witness :
    (0 ≤ committedChannel "PD" ⟨0, 0⟩ ⟨⟨getNucleusId 8 6, 16⟩, 0, true, [("PD", ⟨1, 1⟩)], []⟩ ∧
      0 < (8 : Int) ∧
      0 < (8 : Int) + (parseChannel (committedChannel "PD" ⟨0, 0⟩
        ⟨⟨getNucleusId 8 6, 16⟩, 0, true, [("PD", ⟨1, 1⟩)], []⟩)).dA) ∧
    (performInteraction "PD" ⟨0, 0⟩
      ⟨⟨getNucleusId 8 6, 16⟩, 0, true, [("PD", ⟨1, 1⟩)], []⟩).current =
        ⟨getNucleusId 4 4, 16 / 8 * 4⟩ ∧
    spawned ⟨⟨getNucleusId 8 6, 16⟩, 0, true, [("PD", ⟨1, 1⟩)], []⟩
      (performInteraction "PD" ⟨0, 0⟩
        ⟨⟨getNucleusId 8 6, 16⟩, 0, true, [("PD", ⟨1, 1⟩)], []⟩) =
        [⟨getNucleusId 4 2, 16 / 8 * 4⟩] := by
  have h := performInteraction_energy_per_nucleon "PD" ⟨0, 0⟩
    ⟨⟨getNucleusId 8 6, 16⟩, 0, true, [("PD", ⟨1, 1⟩)], []⟩ (by decide) (by decide) (by decide)
  have hp : parseChannel (committedChannel "PD" ⟨0, 0⟩
      ⟨⟨getNucleusId 8 6, 16⟩, 0, true, [("PD", ⟨1, 1⟩)], []⟩) = ⟨0, 0, 0, 0, 0, 1⟩ := by decide
  rw [hp] at h
  refine ⟨⟨by decide, by decide, by decide⟩, ?_, ?_⟩
  · rw [h.1]
    simp [ParticleState.getMassNumber, ParticleState.getChargeNumber, getNucleusId,
      Emission.dA, Emission.dZ]
  · rw [h.2.1]
    simp [ParticleState.getMassNumber, getNucleusId]

/-- C4: in `performInteraction`, if the surviving mass number `A + dA` is at most 0 the candidate
is deactivated and its current nuclide id and energy are left unchanged; if `A + dA > 0` the
active flag keeps its value and the nuclide id and energy are updated to `(A + dA, Z + dZ)` and
`(E / A) * (A + dA)`. -/
theorem performInteraction_active_current (description : String) (fresh : InteractionState)
    (candidate : Candidate) :
    (candidate.current.getMassNumber +
        (parseChannel (committedChannel description fresh candidate)).dA ≤ 0 →
      (performInteraction description fresh candidate).active = false ∧
      (performInteraction description fresh candidate).current = candidate.current) ∧
    (0 < candidate.current.getMassNumber +
        (parseChannel (committedChannel description fresh candidate)).dA →
      (performInteraction description fresh candidate).active = candidate.active ∧
      (performInteraction description fresh candidate).current =
        ⟨getNucleusId
          (candidate.current.getMassNumber +
            (parseChannel (committedChannel description fresh candidate)).dA)
          (candidate.current.getChargeNumber +
            (parseChannel (committedChannel description fresh candidate)).dZ),
         candidate.current.energy / (candidate.current.getMassNumber : ℚ) *
          ((candidate.current.getMassNumber +
            (parseChannel (committedChannel description fresh candidate)).dA : Int) : ℚ)⟩) := by
  constructor
  · intro h
    rw [performInteraction_of_nonpos description fresh candidate h]
    exact ⟨rfl, rfl⟩
  · intro h
    rw [performInteraction_of_pos description fresh candidate h]
    exact ⟨rfl, rfl⟩

/-- Witness of C4, one input per branch: an active helium-4 candidate with the pending channel
`000001` (`A + dA = 0`) is deactivated and keeps its particle state; an inactive carbon-8
candidate with the same channel (`A + dA = 4`) stays inactive and its particle state is
updated. -/
theorem performInteraction_active_current_witness :
    ((performInteraction "PD" ⟨0, 0⟩
        ⟨⟨getNucleusId 4 2, 4⟩, 0, true, [("PD", ⟨1, 1⟩)], []⟩).active = false ∧
      (performInteraction "PD" ⟨0, 0⟩
        ⟨⟨getNucleusId 4 2, 4⟩, 0, true, [("PD", ⟨1, 1⟩)], []⟩).current =
          ⟨getNucleusId 4 2, 4⟩) ∧
    ((performInteraction "PD" ⟨0, 0⟩
        ⟨⟨getNucleusId 8 6, 16⟩, 0, false, [("PD", ⟨1, 1⟩)], []⟩).active = false ∧
      (performInteraction "PD" ⟨0, 0⟩
        ⟨⟨getNucleusId 8 6, 16⟩, 0, false, [("PD", ⟨1, 1⟩)], []⟩).current.id =
          getNucleusId 4 4) :=
  ⟨(performInteraction_active_current "PD" ⟨0, 0⟩
      ⟨⟨getNucleusId 4 2, 4⟩, 0, true, [("PD", ⟨1, 1⟩)], []⟩).1 (by decide),
   ((performInteraction_active_current "PD" ⟨0, 0⟩
      ⟨⟨getNucleusId 8 6, 16⟩, 0, false, [("PD", ⟨1, 1⟩)], []⟩).2 (by decide)).1,
   congrArg ParticleState.id ((performInteraction_active_current "PD" ⟨0, 0⟩
      ⟨⟨getNucleusId 8 6, 16⟩, 0, false, [("PD", ⟨1, 1⟩)], []⟩).2 (by decide)).2⟩

/-- C5 (as amended): the channel code packs the six emission counts with the most significant
decimal digit first. For every non-negative channel code, the neutron count decoded by
`performInteraction` is the `10^5` digit, the proton count the `10^4` digit, the deuteron count
the `10^3` digit, the triton count the `10^2` digit, the helium-3 count the `10^1` digit and the
helium-4 count the units (`10^0`) digit. -/
theorem parseChannel_digit_order (channel : Int) (h : 0 ≤ channel) :
    (parseChannel channel).nNeutron = channel / 10 ^ 5 % 10 ∧
    (parseChannel channel).nProton = channel / 10 ^ 4 % 10 ∧
    (parseChannel channel).nH2 = channel / 10 ^ 3 % 10 ∧
    (parseChannel channel).nH3 = channel / 10 ^ 2 % 10 ∧
    (parseChannel channel).nHe3 = channel / 10 ^ 1 % 10 ∧
    (parseChannel channel).nHe4 = channel / 10 ^ 0 % 10 := by
  rw [parseChannel_of_nonneg channel h]
  norm_num

/-- Witness of C5 (as amended): the code `123456` decodes to 1 neutron, 2 protons, 3 deuterons,
4 tritons, 5 helium-3 and 6 helium-4. -/
theorem parseChannel_digit_order_witness :
    (0 : Int) ≤ 123456 ∧ parseChannel 123456 = ⟨1, 2, 3, 4, 5, 6⟩ ∧
    (parseChannel 123456).nNeutron = 123456 / 10 ^ 5 % 10 :=
  ⟨by decide, by decide, (parseChannel_digit_order 123456 (by decide)).1⟩

/-- Counterexample to C5 as stated (least significant digit first): for the channel code
`000001`, the code of the spec's own scenario "emit one He-4", the decoded neutron count is not
the units digit and the decoded helium-4 count is not the `10^5` digit. -/
theorem parseChannel_not_least_significant_first :
    ¬ ((parseChannel 1).nNeutron = 1 / 10 ^ 0 % 10 ∧
      (parseChannel 1).nProton = 1 / 10 ^ 1 % 10 ∧
      (parseChannel 1).nH2 = 1 / 10 ^ 2 % 10 ∧
      (parseChannel 1).nH3 = 1 / 10 ^ 3 % 10 ∧
      (parseChannel 1).nHe3 = 1 / 10 ^ 4 % 10 ∧
      (parseChannel 1).nHe4 = 1 / 10 ^ 5 % 10) := by
  decide

/-- C6: channel-code packing and unpacking round-trip. For every six counts, each in `0..9`,
packing them as the six decimal digits of an integer and decoding that integer with the six
`digit(channel, 10^k)` extractions of `performInteraction` returns the same six counts. -/
theorem parseChannel_packChannel (e : Emission) (h : e.SingleDigits) :
    parseChannel (packChannel e) = e := by
  obtain ⟨n, p, d, t, h3, h4⟩ := e
  simp only [Emission.SingleDigits] at h
  have hnonneg : 0 ≤ packChannel ⟨n, p, d, t, h3, h4⟩ := by
    simp only [packChannel]
    omega
  rw [parseChannel_of_nonneg _ hnonneg]
  simp only [packChannel, Emission.mk.injEq]
  refine ⟨?_, ?_, ?_, ?_, ?_, ?_⟩ <;> omega

/-- Witness of C6: the counts `(1, 0, 2, 0, 0, 3)` are single digits, pack to `102003` and
decode to themselves. -/
theorem parseChannel_packChannel_witness :
    Emission.SingleDigits ⟨1, 0, 2, 0, 0, 3⟩ ∧ packChannel ⟨1, 0, 2, 0, 0, 3⟩ = 102003 ∧
    parseChannel (packChannel ⟨1, 0, 2, 0, 0, 3⟩) = ⟨1, 0, 2, 0, 0, 3⟩ :=
  ⟨by simp [Emission.SingleDigits], by decide,
    parseChannel_packChannel ⟨1, 0, 2, 0, 0, 3⟩ (by simp [Emission.SingleDigits])⟩

/-- The slot written by `setInteractionState` is the one read back under the same key. -/
theorem lookup_setInteractionState (c : Candidate) (name : String) (state : InteractionState) :
    (c.setInteractionState name state).interactionStates.lookup name = some state := by
  simp [Candidate.setInteractionState, List.lookup]

/-- A data line that carries all its rates leaves in `y` its own rates divided by `Mpc`,
whatever `y` held before. -/
theorem readRates_full (lib : SplineLibrary) (y : List ℚ) (row : TableRow)
    (hfull : SAMPLE_COUNT ≤ row.rates.length) :
    readRates lib y row = (row.rates.take SAMPLE_COUNT).map (fun rate => rate / lib.Mpc) := by
  apply List.ext_getElem
  · simp only [readRates, List.length_map, List.length_range, List.length_take]
    omega
  · intro i h1 h2
    simp only [readRates, List.length_map, List.length_range] at h1
    have hi : i < row.rates.length := by omega
    simp [readRates, List.getElem?_eq_getElem hi]

/-- The mode built from a data line that carries all its rates is the mode the line describes
by itself. -/
theorem buildMode_full (lib : SplineLibrary) (y : List ℚ) (row : TableRow)
    (hfull : SAMPLE_COUNT ≤ row.rates.length) :
    buildMode lib y row = rowMode lib row := by
  simp only [buildMode, rowMode, readRates_full lib y row hfull]

/-- The value left in `y[i]` by a data line, for `i < SAMPLE_COUNT`: the rate of the line
divided by `Mpc` when the line has one at place `i`, and otherwise the value that `y[i]` had,
divided by `Mpc`. -/
theorem readRates_getD (lib : SplineLibrary) (y : List ℚ) (row : TableRow) (i : Nat)
    (hi : i < SAMPLE_COUNT) :
    (readRates lib y row).getD i 0 = (row.rates[i]?).getD (y.getD i 0) / lib.Mpc := by
  simp only [readRates, List.getD_eq_getElem?_getD, List.getElem?_map,
    List.getElem?_range hi, Option.map_some', Option.getD_some]
  cases row.rates[i]? <;> rfl

/-- A data line that ends early keeps, past its last rate, what the data line before left in
`y`, divided by `Mpc` once more: after the sample line of iron-56 (rates 6, `Mpc = 2`) the
sample short line leaves `8 / 2 = 4` at index 0 and `(6 / 2) / 2 = 3 / 2` at index 1. -/
theorem readRates_short_line :
    (readRates sampleSplineLibrary (List.replicate SAMPLE_COUNT 0) sampleLineIron56).getD 1 0
      = 3 ∧
    (readRates sampleSplineLibrary
      (readRates sampleSplineLibrary (List.replicate SAMPLE_COUNT 0) sampleLineIron56)
      sampleLineShort).getD 0 0 = 4 ∧
    (readRates sampleSplineLibrary
      (readRates sampleSplineLibrary (List.replicate SAMPLE_COUNT 0) sampleLineIron56)
      sampleLineShort).getD 1 0 = 3 / 2 := by
  have h1 : (1 : Nat) < SAMPLE_COUNT := by decide
  have h0 : (0 : Nat) < SAMPLE_COUNT := by decide
  have hiron : sampleLineIron56.rates[1]? = some 6 := by
    simp only [sampleLineIron56, List.getElem?_replicate]
    rfl
  have hshort0 : sampleLineShort.rates[0]? = some 8 := rfl
  have hshort1 : sampleLineShort.rates[1]? = none := rfl
  have hMpc : sampleSplineLibrary.Mpc = 2 := rfl
  have hy : (readRates sampleSplineLibrary (List.replicate SAMPLE_COUNT 0)
      sampleLineIron56).getD 1 0 = 3 := by
    rw [readRates_getD _ _ _ 1 h1, hiron, hMpc]
    norm_num
  refine ⟨hy, ?_, ?_⟩
  · rw [readRates_getD _ _ _ 0 h0, hshort0, hMpc]
    norm_num
  · rw [readRates_getD _ _ _ 1 h1, hshort1, hMpc, Option.getD_none, hy]

/-- The relation between the data lines stored under one index and the modes built for them:
same length, the channel code of each line, and for a line that carries all its rates the mode
the line describes by itself. -/
theorem forall₂_channels (lib : SplineLibrary) (lines : List TableRow) (modes : List PDMode)
    (h : List.Forall₂ (fun (r : TableRow) (m : PDMode) => m.channel = r.channel ∧
      (SAMPLE_COUNT ≤ r.rates.length → m = rowMode lib r)) lines modes) :
    modes.map (fun m => m.channel) = lines.map (fun r => r.channel) ∧
    ((∀ r ∈ lines, SAMPLE_COUNT ≤ r.rates.length) → modes = lines.map (rowMode lib)) := by
  induction h with
  | nil => simp
  | cons hhead _ ih =>
    refine ⟨by simp [hhead.1, ih.1], ?_⟩
    intro hfull
    simp only [List.map_cons, List.cons.injEq]
    exact ⟨hhead.2 (hfull _ (List.mem_cons_self _ _)),
      ih.2 (fun r hr => hfull r (List.mem_cons_of_mem _ hr))⟩
/-- The loop of `init` over data lines whose indices are inside the table: it ends with a table
of the same size in which every slot holds what it held before, followed by one mode for each
data line stored under its index, in file order; the mode has the channel code of its line, and
is the mode the line describes by itself when the line carries all its rates. -/
theorem initRows_spec (lib : SplineLibrary) (rows : List TableRow) :
    ∀ (y : List ℚ) (pdTable : List (List PDMode)),
      (∀ r ∈ rows, 0 ≤ rowIndex r ∧ rowIndex r < (pdTable.length : Int)) →
      ∃ result, initRows lib rows y pdTable = some result ∧
        result.length = pdTable.length ∧
        ∀ i : Nat, i < pdTable.length →
          ∃ added, result[i]? = some (pdTable.getD i [] ++ added) ∧
            List.Forall₂ (fun (r : TableRow) (m : PDMode) => m.channel = r.channel ∧
              (SAMPLE_COUNT ≤ r.rates.length → m = rowMode lib r))
              (rows.filter (fun r => decide (rowIndex r = (i : Int)))) added := by
  induction rows with
  | nil =>
    intro y pdTable _
    refine ⟨pdTable, rfl, rfl, ?_⟩
    intro i hi
    exact ⟨[], by simp [List.getD_eq_getElem?_getD, List.getElem?_eq_getElem hi],
      List.Forall₂.nil⟩
  | cons row rest ih =>
    intro y pdTable hrows
    obtain ⟨h0, hlt⟩ := hrows row (List.mem_cons_self _ _)
    have hk : (rowIndex row).toNat < pdTable.length := by omega
    have hget : pdTable[(rowIndex row).toNat]? = some (pdTable[(rowIndex row).toNat]) :=
      List.getElem?_eq_getElem hk
    have hpush : pushBack pdTable (rowIndex row) (buildMode lib y row) =
        some (pdTable.set (rowIndex row).toNat
          (pdTable[(rowIndex row).toNat] ++ [buildMode lib y row])) := by
      simp [pushBack, not_lt.mpr h0, hget]
    have hlen : (pdTable.set (rowIndex row).toNat
        (pdTable[(rowIndex row).toNat] ++ [buildMode lib y row])).length = pdTable.length :=
      List.length_set _ _ _
    obtain ⟨result, hres, hrlen, hall⟩ := ih (readRates lib y row)
      (pdTable.set (rowIndex row).toNat (pdTable[(rowIndex row).toNat] ++ [buildMode lib y row]))
      (fun r hr => by
        rw [hlen]
        exact hrows r (List.mem_cons_of_mem _ hr))
    refine ⟨result, by rw [initRows, hpush]; exact hres, by rw [hrlen, hlen], ?_⟩
    intro i hi
    obtain ⟨added, hadded, hrel⟩ := hall i (by rw [hlen]; exact hi)
    by_cases heq : rowIndex row = (i : Int)
    · have hik : (rowIndex row).toNat = i := by omega
      have hgetD : (pdTable.set (rowIndex row).toNat
          (pdTable[(rowIndex row).toNat] ++ [buildMode lib y row])).getD i [] =
          pdTable.getD i [] ++ [buildMode lib y row] := by
        subst hik
        simp [List.getD_eq_getElem?_getD, List.getElem?_set, hk, List.getElem?_eq_getElem hk]
      refine ⟨buildMode lib y row :: added, ?_, ?_⟩
      · rw [hadded, hgetD, List.append_assoc, List.singleton_append]
      · rw [List.filter_cons_of_pos (by simpa using heq)]
        exact List.Forall₂.cons ⟨rfl, fun hfull => buildMode_full lib y row hfull⟩ hrel
    · have hik : (rowIndex row).toNat ≠ i := by omega
      have hgetD : (pdTable.set (rowIndex row).toNat
          (pdTable[(rowIndex row).toNat] ++ [buildMode lib y row])).getD i [] =
          pdTable.getD i [] := by
        simp [List.getD_eq_getElem?_getD, List.getElem?_set, hik]
      refine ⟨added, ?_, ?_⟩
      · rw [hadded, hgetD]
      · rw [List.filter_cons_of_neg (by simpa using heq)]
        exact hrel

/-- The table built by `init` from data lines whose indices `Z * 31 + N` are inside it holds,
at every index of the table, one mode for each data line with that index, in file order: the
channel codes are those of the data lines, and when these data lines carry all their rates the
modes are the modes the lines describe. -/
theorem init_lookup (lib : SplineLibrary) (rows : List TableRow)
    (hrows : ∀ r ∈ rows, 0 ≤ rowIndex r ∧ rowIndex r < 31 * 57) (index : Int)
    (hindex : 0 ≤ index ∧ index < 31 * 57) :
    ∃ pdTable pdModes, init lib rows = some pdTable ∧
      tableAt pdTable index = some pdModes ∧
      pdModes.map (fun m => m.channel) =
        (rows.filter (fun r => decide (rowIndex r = index))).map (fun r => r.channel) ∧
      ((∀ r ∈ rows.filter (fun r => decide (rowIndex r = index)),
          SAMPLE_COUNT ≤ r.rates.length) →
        pdModes = (rows.filter (fun r => decide (rowIndex r = index))).map (rowMode lib)) := by
  obtain ⟨result, hres, -, hall⟩ := initRows_spec lib rows (List.replicate SAMPLE_COUNT 0)
    (List.replicate (31 * 57) [])
    (fun r hr => by
      rw [List.length_replicate]
      exact hrows r hr)
  have hi : index.toNat < (List.replicate (31 * 57) ([] : List PDMode)).length := by
    rw [List.length_replicate]
    omega
  have hcast : ((index.toNat : Nat) : Int) = index := Int.toNat_of_nonneg hindex.1
  obtain ⟨added, hval, hrel⟩ := hall index.toNat hi
  rw [hcast] at hrel
  have hempty : (List.replicate (31 * 57) ([] : List PDMode)).getD index.toNat [] = [] := by
    rw [List.getD_eq_getElem?_getD, List.getElem?_eq_getElem hi, Option.getD_some]
    exact List.getElem_replicate ..
  rw [hempty, List.nil_append] at hval
  obtain ⟨hchannels, hmodes⟩ := forall₂_channels lib _ _ hrel
  refine ⟨result, added, hres, ?_, hchannels, hmodes⟩
  simp only [tableAt, not_lt.mpr hindex.1, if_false]
  exact hval

/-- For data lines and a nuclide with `0 ≤ Z ≤ 56` and `0 ≤ N ≤ 30`, the data lines stored under
the index `Z * 31 + N` of the nuclide are the data lines with the `(Z, N)` of the nuclide. -/
theorem filter_rowIndex (rows : List TableRow)
    (hrows : ∀ r ∈ rows, (0 ≤ r.Z ∧ r.Z ≤ 56) ∧ (0 ≤ r.N ∧ r.N ≤ 30)) (Z N : Int)
    (hN : 0 ≤ N ∧ N ≤ 30) :
    rows.filter (fun r => decide (rowIndex r = Z * 31 + N)) =
      rows.filter (fun r => decide (r.Z = Z ∧ r.N = N)) := by
  apply List.filter_congr
  intro r hr
  obtain ⟨⟨h1, h2⟩, h3, h4⟩ := hrows r hr
  simp only [rowIndex, decide_eq_decide]
  constructor
  · intro h
    constructor <;> omega
  · rintro ⟨h5, h6⟩
    rw [h5, h6]

/-- What `setNextInteraction` returns when the channel list it reads is empty, or `lg` is
outside `[6, 14]`: false, the candidate and the out-parameter as they were. -/
theorem setNextInteraction_false (lib : Library) (pdTable : List (List PDMode))
    (description : String) (candidate : Candidate) (interaction : InteractionState)
    (pdModes : List PDMode)
    (htable : tableAt pdTable (candidate.current.getChargeNumber * 31 +
      (candidate.current.getMassNumber - candidate.current.getChargeNumber)) = some pdModes)
    (h : pdModes = [] ∨ lgOf lib candidate < 6 ∨ 14 < lgOf lib candidate) :
    setNextInteraction lib pdTable description candidate interaction =
      some (false, candidate, interaction) := by
  unfold setNextInteraction
  simp only [htable]
  rcases h with h | h
  · simp [h]
  · by_cases hempty : pdModes.length = 0
    · simp [hempty]
    · have hlg : lgOf lib candidate < 6 ∨ lgOf lib candidate > 14 := h
      simp [hempty, hlg]

/-- What `setNextInteraction` returns when the channel list it reads is not empty and `lg` is
inside `[6, 14]`: true, with the state found by the channel search, its distance divided by
`(1 + z)^3`, stored on the candidate under the description of the module. -/
theorem setNextInteraction_true (lib : Library) (pdTable : List (List PDMode))
    (description : String) (candidate : Candidate) (interaction : InteractionState)
    (pdModes : List PDMode)
    (htable : tableAt pdTable (candidate.current.getChargeNumber * 31 +
      (candidate.current.getMassNumber - candidate.current.getChargeNumber)) = some pdModes)
    (hmodes : pdModes ≠ [])
    (hlg : 6 ≤ lgOf lib candidate ∧ lgOf lib candidate ≤ 14) :
    setNextInteraction lib pdTable description candidate interaction =
      some (true,
        candidate.setInteractionState description
          { findChannel lib (lgOf lib candidate) pdModes 0
              { interaction with distance := DBL_MAX } with
            distance := (findChannel lib (lgOf lib candidate) pdModes 0
              { interaction with distance := DBL_MAX }).distance /
                (1 + candidate.getRedshift) ^ 3 },
        { findChannel lib (lgOf lib candidate) pdModes 0
            { interaction with distance := DBL_MAX } with
          distance := (findChannel lib (lgOf lib candidate) pdModes 0
            { interaction with distance := DBL_MAX }).distance /
              (1 + candidate.getRedshift) ^ 3 }) := by
  have hlen : ¬ pdModes.length = 0 := fun h => hmodes (List.length_eq_zero.mp h)
  have hrange : ¬ (lgOf lib candidate < 6 ∨ lgOf lib candidate > 14) := by
    rintro (h | h)
    · exact absurd hlg.1 (not_le.mpr h)
    · exact absurd hlg.2 (not_le.mpr h)
  unfold setNextInteraction
  simp only [htable, hlen, hrange, if_false]
/-- A read of the table outside its bounds: when the index `Z * 31 + N` of the candidate is
negative or not below the size of the table, `setNextInteraction` reads `pdTable[Z * 31 + N]`
outside the vector. -/
theorem setNextInteraction_outside_table (lib : Library) (pdTable : List (List PDMode))
    (description : String) (candidate : Candidate) (interaction : InteractionState)
    (hindex : candidate.current.id.chargeNumber * 31 +
        (candidate.current.id.massNumber - candidate.current.id.chargeNumber) < 0 ∨
      (pdTable.length : Int) ≤ candidate.current.id.chargeNumber * 31 +
        (candidate.current.id.massNumber - candidate.current.id.chargeNumber)) :
    setNextInteraction lib pdTable description candidate interaction = none := by
  have hnone : tableAt pdTable (candidate.current.getChargeNumber * 31 +
      (candidate.current.getMassNumber - candidate.current.getChargeNumber)) = none := by
    simp only [tableAt, ParticleState.getChargeNumber, ParticleState.getMassNumber]
    rcases hindex with h | h
    · simp [h]
    · have h0 : ¬ candidate.current.id.chargeNumber * 31 +
          (candidate.current.id.massNumber - candidate.current.id.chargeNumber) < 0 := by omega
      simp only [h0, if_false]
      apply List.getElem?_eq_none
      omega
  unfold setNextInteraction
  simp only [hnone]

/-- C7 (as amended): for a table loaded by `init` from data lines with `0 ≤ Z ≤ 56` and
`0 ≤ N ≤ 30`, and a candidate whose `Z` and `N = A − Z` are in the same ranges,
`setNextInteraction` returns false, leaving the candidate and the out-parameter as they were,
exactly when no data line has the candidate's `(Z, N)` or
`lg = log10(LorentzFactor · (1 + z))` lies outside the closed interval `[6, 14]` (`lg = 6` and
`lg = 14` are accepted); in every other case it stores the resulting (channel, distance) state
under this module's key and returns true. -/
theorem setNextInteraction_returns (slib : SplineLibrary) (rows : List TableRow)
    (hrows : ∀ r ∈ rows, (0 ≤ r.Z ∧ r.Z ≤ 56) ∧ (0 ≤ r.N ∧ r.N ≤ 30))
    (lib : Library) (description : String) (candidate : Candidate)
    (interaction : InteractionState)
    (hZ : 0 ≤ candidate.current.id.chargeNumber ∧ candidate.current.id.chargeNumber ≤ 56)
    (hN : 0 ≤ candidate.current.id.massNumber - candidate.current.id.chargeNumber ∧
      candidate.current.id.massNumber - candidate.current.id.chargeNumber ≤ 30) :
    ∃ pdTable ret after state,
      init slib rows = some pdTable ∧
      setNextInteraction lib pdTable description candidate interaction =
        some (ret, after, state) ∧
      (ret = false ↔
        ((∀ r ∈ rows, ¬ (r.Z = candidate.current.id.chargeNumber ∧
            r.N = candidate.current.id.massNumber - candidate.current.id.chargeNumber)) ∨
          lib.log10 (lib.getLorentzFactor candidate.current * (1 + candidate.redshift)) < 6 ∨
          14 < lib.log10 (lib.getLorentzFactor candidate.current * (1 + candidate.redshift)))) ∧
      (ret = false → after = candidate ∧ state = interaction) ∧
      (ret = true → after = candidate.setInteractionState description state ∧
        after.interactionStates.lookup description = some state) := by
  obtain ⟨pdTable, pdModes, hinit, htable, hchannels, -⟩ := init_lookup slib rows
    (fun r hr => by
      obtain ⟨⟨h1, h2⟩, h3, h4⟩ := hrows r hr
      simp only [rowIndex]
      constructor <;> omega)
    (candidate.current.id.chargeNumber * 31 +
      (candidate.current.id.massNumber - candidate.current.id.chargeNumber))
    (by constructor <;> omega)
  rw [filter_rowIndex rows hrows _ _ hN] at hchannels
  have hnil : pdModes = [] ↔ ∀ r ∈ rows, ¬ (r.Z = candidate.current.id.chargeNumber ∧
      r.N = candidate.current.id.massNumber - candidate.current.id.chargeNumber) := by
    have hlen := congrArg List.length hchannels
    simp only [List.length_map] at hlen
    rw [← List.length_eq_zero, hlen, List.length_eq_zero, List.filter_eq_nil_iff]
    simp only [decide_eq_true_eq]
  have hlgOf : lgOf lib candidate =
      lib.log10 (lib.getLorentzFactor candidate.current * (1 + candidate.redshift)) := rfl
  rw [← hlgOf, ← hnil]
  by_cases h : pdModes = [] ∨ lgOf lib candidate < 6 ∨ 14 < lgOf lib candidate
  · refine ⟨pdTable, false, candidate, interaction, hinit,
      setNextInteraction_false lib pdTable description candidate interaction pdModes htable h,
      by simp [h], fun _ => ⟨rfl, rfl⟩, by simp⟩
  · have hmodes : pdModes ≠ [] := fun hm => h (Or.inl hm)
    have hlg : 6 ≤ lgOf lib candidate ∧ lgOf lib candidate ≤ 14 :=
      ⟨not_lt.mp (fun h6 => h (Or.inr (Or.inl h6))),
        not_lt.mp (fun h14 => h (Or.inr (Or.inr h14)))⟩
    refine ⟨pdTable, true, _, _, hinit,
      setNextInteraction_true lib pdTable description candidate interaction pdModes htable
        hmodes hlg, by simp [h], by simp, fun _ => ⟨rfl, lookup_setInteractionState _ _ _⟩⟩
/-- With the sample spline library, the rate of the mode described by a data line is the first
rate of the line divided by `Mpc = 2`, at every `lg`. -/
theorem rowMode_sample_rate (Z N channel : Int) (first : ℚ) (rest : List ℚ) (lg : ℚ) :
    (rowMode sampleSplineLibrary ⟨Z, N, channel, first :: rest⟩).rate lg = first / 2 := rfl

/-- What `setNextInteraction` returns when the channel list it reads holds one mode, `lg` is
inside `[6, 14]` and the drawn distance is a finite `double`: true, with the channel of the mode
and the drawn distance divided by `(1 + z)^3`. -/
theorem setNextInteraction_single (lib : Library) (pdTable : List (List PDMode))
    (description : String) (candidate : Candidate) (interaction : InteractionState)
    (mode : PDMode)
    (htable : tableAt pdTable (candidate.current.getChargeNumber * 31 +
      (candidate.current.getMassNumber - candidate.current.getChargeNumber)) = some [mode])
    (hlg : 6 ≤ lgOf lib candidate ∧ lgOf lib candidate ≤ 14)
    (hfinite : drawDistance lib (lgOf lib candidate) mode 0 ≤ DBL_MAX) :
    setNextInteraction lib pdTable description candidate interaction =
      some (true,
        candidate.setInteractionState description
          ⟨drawDistance lib (lgOf lib candidate) mode 0 / (1 + candidate.getRedshift) ^ 3,
            mode.channel⟩,
        ⟨drawDistance lib (lgOf lib candidate) mode 0 / (1 + candidate.getRedshift) ^ 3,
          mode.channel⟩) := by
  rw [setNextInteraction_true lib pdTable description candidate interaction [mode] htable
    (by simp) hlg]
  have hfind : findChannel lib (lgOf lib candidate) [mode] 0
      { interaction with distance := DBL_MAX } =
      ⟨drawDistance lib (lgOf lib candidate) mode 0, mode.channel⟩ := by
    simp only [findChannel, not_lt.mpr hfinite, gt_iff_lt, if_false]
  rw [hfind]

/-- The table loaded by `init` from data lines inside the table, read at an index under which
exactly one data line is stored, that line carrying all its rates: the channel list holds the
mode that the line describes. -/
theorem init_single (lib : SplineLibrary) (rows : List TableRow)
    (hrows : ∀ r ∈ rows, 0 ≤ rowIndex r ∧ rowIndex r < 31 * 57) (index : Int)
    (hindex : 0 ≤ index ∧ index < 31 * 57) (row : TableRow)
    (hfilter : rows.filter (fun r => decide (rowIndex r = index)) = [row])
    (hfull : SAMPLE_COUNT ≤ row.rates.length) :
    ∃ pdTable, init lib rows = some pdTable ∧ tableAt pdTable index = some [rowMode lib row] := by
  obtain ⟨pdTable, pdModes, hinit, htable, -, hmodes⟩ := init_lookup lib rows hrows index hindex
  rw [hfilter] at hmodes
  have hpdModes : pdModes = [rowMode lib row] :=
    hmodes (fun r hr => by
      simp only [List.mem_singleton] at hr
      subst hr
      exact hfull)
  subst hpdModes
  exact ⟨pdTable, hinit, htable⟩

/-- The sample data lines with 200 rates carry all their rates. -/
theorem sampleLines_full :
    SAMPLE_COUNT ≤ sampleLineHelium4.rates.length ∧
    SAMPLE_COUNT ≤ sampleLineIron56.rates.length ∧
    SAMPLE_COUNT ≤ sampleLineShifted.rates.length := by
  refine ⟨?_, ?_, ?_⟩
  · show SAMPLE_COUNT ≤ (List.replicate 200 (4 : ℚ)).length
    rw [List.length_replicate]
    decide
  · show SAMPLE_COUNT ≤ (List.replicate 200 (6 : ℚ)).length
    rw [List.length_replicate]
    decide
  · show SAMPLE_COUNT ≤ (List.replicate 200 (4 : ℚ)).length
    rw [List.length_replicate]
    decide

/-- Witness of C7 (as amended): the table is loaded from the sample data lines of helium-4 and
iron-56, and the candidate is the helium-4 nucleus with `lg = 6`, the lower end of the range.
A data line has the candidate's `(Z, N)` and `lg = 6` is accepted, so the call returns true, with
the state (channel `100000`, distance `(0.693 / 2) / (1 + 1)^3`) stored under the key of the
module. -/
theorem setNextInteraction_returns_witness :
    ((∀ r ∈ [sampleLineHelium4, sampleLineIron56],
        (0 ≤ r.Z ∧ r.Z ≤ 56) ∧ (0 ≤ r.N ∧ r.N ≤ 30)) ∧
      (0 ≤ sampleHelium4Low.current.id.chargeNumber ∧
        sampleHelium4Low.current.id.chargeNumber ≤ 56) ∧
      (0 ≤ sampleHelium4Low.current.id.massNumber - sampleHelium4Low.current.id.chargeNumber ∧
        sampleHelium4Low.current.id.massNumber - sampleHelium4Low.current.id.chargeNumber
          ≤ 30)) ∧
    sampleLibrary.log10 (sampleLibrary.getLorentzFactor sampleHelium4Low.current *
      (1 + sampleHelium4Low.redshift)) = 6 ∧
    ∃ pdTable,
      init sampleSplineLibrary [sampleLineHelium4, sampleLineIron56] = some pdTable ∧
      setNextInteraction sampleLibrary pdTable "PhotoDisintegration:CMB" sampleHelium4Low
          ⟨0, 0⟩ =
        some (true,
          sampleHelium4Low.setInteractionState "PhotoDisintegration:CMB"
            ⟨693 / 16000, 100000⟩,
          ⟨693 / 16000, 100000⟩) ∧
      (sampleHelium4Low.setInteractionState "PhotoDisintegration:CMB"
        ⟨693 / 16000, 100000⟩).interactionStates.lookup "PhotoDisintegration:CMB" =
          some ⟨693 / 16000, 100000⟩ := by
  have hrows : ∀ r ∈ [sampleLineHelium4, sampleLineIron56],
      (0 ≤ r.Z ∧ r.Z ≤ 56) ∧ (0 ≤ r.N ∧ r.N ≤ 30) := by
    intro r hr
    simp only [List.mem_cons, List.mem_singleton, List.not_mem_nil, or_false] at hr
    rcases hr with h | h <;> subst h <;> decide
  have hlg : sampleLibrary.log10 (sampleLibrary.getLorentzFactor sampleHelium4Low.current *
      (1 + sampleHelium4Low.redshift)) = 6 := by
    norm_num [sampleLibrary, sampleHelium4Low]
  obtain ⟨pdTable, ret, after, state, hinit, hrun, hiff, -, htrue⟩ :=
    setNextInteraction_returns sampleSplineLibrary [sampleLineHelium4, sampleLineIron56] hrows
      sampleLibrary "PhotoDisintegration:CMB" sampleHelium4Low ⟨0, 0⟩ (by decide) (by decide)
  have hret : ret = true := by
    cases ret with
    | true => rfl
    | false =>
      exfalso
      rw [hlg] at hiff
      rcases hiff.mp rfl with h | h | h
      · exact h sampleLineHelium4 (List.mem_cons_self _ _) (by decide)
      · norm_num at h
      · norm_num at h
  subst hret
  obtain ⟨pdTable2, hinit2, htable⟩ := init_single sampleSplineLibrary
    [sampleLineHelium4, sampleLineIron56]
    (fun r hr => by
      obtain ⟨⟨h1, h2⟩, h3, h4⟩ := hrows r hr
      simp only [rowIndex]
      constructor <;> omega)
    (sampleHelium4Low.current.getChargeNumber * 31 +
      (sampleHelium4Low.current.getMassNumber - sampleHelium4Low.current.getChargeNumber))
    (by decide) sampleLineHelium4 (by rfl) sampleLines_full.1
  have hsame : pdTable2 = pdTable := Option.some.inj (hinit2.symm.trans hinit)
  subst hsame
  have hlgOf : lgOf sampleLibrary sampleHelium4Low = 6 := hlg
  have hdraw : drawDistance sampleLibrary 6 (rowMode sampleSplineLibrary sampleLineHelium4) 0 =
      693 / 2000 := by
    have hrate : (rowMode sampleSplineLibrary sampleLineHelium4).rate 6 = 4 / 2 :=
      rowMode_sample_rate 2 2 100000 4 (List.replicate 199 4) 6
    rw [drawDistance, hrate]
    norm_num [sampleLibrary]
  have hvalue := setNextInteraction_single sampleLibrary pdTable2 "PhotoDisintegration:CMB"
    sampleHelium4Low ⟨0, 0⟩ _ htable (by rw [hlgOf]; norm_num)
    (by rw [hlgOf, hdraw]; norm_num [DBL_MAX])
  have hdist : (693 / 2000 : ℚ) / (1 + sampleHelium4Low.getRedshift) ^ 3 = 693 / 16000 := by
    norm_num [sampleHelium4Low, Candidate.getRedshift]
  rw [hlgOf, hdraw, hdist] at hvalue
  have hboth := Option.some.inj (hrun.symm.trans hvalue)
  simp only [Prod.mk.injEq, true_and] at hboth
  obtain ⟨hafter, hstate⟩ := hboth
  have hlookup := (htrue rfl).2
  rw [hafter] at hrun hlookup
  rw [hstate] at hrun hlookup
  exact ⟨⟨hrows, by decide, by decide⟩, hlg, pdTable2, hinit, hrun, hlookup⟩

/-- Counterexample to C7 as stated: the table is loaded from the one sample data line
`Z = 26, N = 2`, and the candidate is manganese-58 (`Z = 25`, `N = 33`) with `lg = 7`. No data
line has the candidate's `(Z, N)`, so the candidate has no disintegration channels, yet the call
returns true and stores a state with the channel `100000` of the line `(26, 2)`, whose index
`26 * 31 + 2` is the index `25 * 31 + 33` of the candidate. -/
theorem setNextInteraction_true_without_channels :
    (∀ r ∈ [sampleLineShifted], ¬ (r.Z = sampleManganese58.current.id.chargeNumber ∧
      r.N = sampleManganese58.current.id.massNumber -
        sampleManganese58.current.id.chargeNumber)) ∧
    sampleLibrary.log10 (sampleLibrary.getLorentzFactor sampleManganese58.current *
      (1 + sampleManganese58.redshift)) = 7 ∧
    ∃ pdTable,
      init sampleSplineLibrary [sampleLineShifted] = some pdTable ∧
      setNextInteraction sampleLibrary pdTable "PhotoDisintegration:CMB" sampleManganese58
          ⟨0, 0⟩ =
        some (true,
          sampleManganese58.setInteractionState "PhotoDisintegration:CMB"
            ⟨693 / 16000, 100000⟩,
          ⟨693 / 16000, 100000⟩) := by
  have hlg : sampleLibrary.log10 (sampleLibrary.getLorentzFactor sampleManganese58.current *
      (1 + sampleManganese58.redshift)) = 7 := by
    norm_num [sampleLibrary, sampleManganese58]
  have hlgOf : lgOf sampleLibrary sampleManganese58 = 7 := hlg
  obtain ⟨pdTable, hinit, htable⟩ := init_single sampleSplineLibrary [sampleLineShifted]
    (fun r hr => by
      simp only [List.mem_singleton] at hr
      subst hr
      decide)
    (sampleManganese58.current.getChargeNumber * 31 +
      (sampleManganese58.current.getMassNumber - sampleManganese58.current.getChargeNumber))
    (by decide) sampleLineShifted (by rfl) sampleLines_full.2.2
  have hdraw : drawDistance sampleLibrary 7 (rowMode sampleSplineLibrary sampleLineShifted) 0 =
      693 / 2000 := by
    have hrate : (rowMode sampleSplineLibrary sampleLineShifted).rate 7 = 4 / 2 :=
      rowMode_sample_rate 26 2 100000 4 (List.replicate 199 4) 7
    rw [drawDistance, hrate]
    norm_num [sampleLibrary]
  have hvalue := setNextInteraction_single sampleLibrary pdTable "PhotoDisintegration:CMB"
    sampleManganese58 ⟨0, 0⟩ _ htable (by rw [hlgOf]; norm_num)
    (by rw [hlgOf, hdraw]; norm_num [DBL_MAX])
  have hdist : (693 / 2000 : ℚ) / (1 + sampleManganese58.getRedshift) ^ 3 = 693 / 16000 := by
    norm_num [sampleManganese58, Candidate.getRedshift]
  rw [hlgOf, hdraw, hdist] at hvalue
  refine ⟨?_, hlg, pdTable, hinit, hvalue⟩
  intro r hr
  simp only [List.mem_singleton] at hr
  subst hr
  decide
/-- C23 (as amended): disintegration channels are kept per index `Z * 31 + N`, which tells the
nuclides apart as long as `0 ≤ N ≤ 30`. For every table loaded from data lines with
`0 ≤ Z ≤ 56` and `0 ≤ N ≤ 30` and every candidate nuclide with charge `Z` and neutron number
`N = A − Z` in the same ranges, the channel list that `setNextInteraction` reads (at
`pdTable[Z * 31 + N]`) holds one channel for each data line whose `(Z, N)` equals the
candidate's, in file order, and no other: the channel codes are those of these data lines, and
when these data lines carry all their `SAMPLE_COUNT` rates, the channels are the ones the lines
describe (channel code, and the spline through the rates of the line divided by `Mpc`). When
there is no such data line, `setNextInteraction` returns false. -/
theorem init_channels_per_nuclide (lib : SplineLibrary) (rows : List TableRow)
    (hrows : ∀ r ∈ rows, (0 ≤ r.Z ∧ r.Z ≤ 56) ∧ (0 ≤ r.N ∧ r.N ≤ 30))
    (candidate : Candidate)
    (hZ : 0 ≤ candidate.current.id.chargeNumber ∧ candidate.current.id.chargeNumber ≤ 56)
    (hN : 0 ≤ candidate.current.id.massNumber - candidate.current.id.chargeNumber ∧
      candidate.current.id.massNumber - candidate.current.id.chargeNumber ≤ 30) :
    ∃ pdTable pdModes, init lib rows = some pdTable ∧
      tableAt pdTable (candidate.current.id.chargeNumber * 31 +
          (candidate.current.id.massNumber - candidate.current.id.chargeNumber)) =
        some pdModes ∧
      pdModes.map (fun m => m.channel) =
        (rows.filter (fun r => decide (r.Z = candidate.current.id.chargeNumber ∧
          r.N = candidate.current.id.massNumber - candidate.current.id.chargeNumber))).map
            (fun r => r.channel) ∧
      ((∀ r ∈ rows, r.Z = candidate.current.id.chargeNumber ∧
          r.N = candidate.current.id.massNumber - candidate.current.id.chargeNumber →
            SAMPLE_COUNT ≤ r.rates.length) →
        pdModes = (rows.filter (fun r => decide (r.Z = candidate.current.id.chargeNumber ∧
          r.N = candidate.current.id.massNumber - candidate.current.id.chargeNumber))).map
            (rowMode lib)) ∧
      ((∀ r ∈ rows, ¬ (r.Z = candidate.current.id.chargeNumber ∧
          r.N = candidate.current.id.massNumber - candidate.current.id.chargeNumber)) →
        ∀ (library : Library) (description : String) (interaction : InteractionState),
          setNextInteraction library pdTable description candidate interaction =
            some (false, candidate, interaction)) := by
  obtain ⟨pdTable, pdModes, hinit, htable, hchannels, hmodes⟩ := init_lookup lib rows
    (fun r hr => by
      obtain ⟨⟨h1, h2⟩, h3, h4⟩ := hrows r hr
      simp only [rowIndex]
      constructor <;> omega)
    (candidate.current.id.chargeNumber * 31 +
      (candidate.current.id.massNumber - candidate.current.id.chargeNumber))
    (by constructor <;> omega)
  rw [filter_rowIndex rows hrows _ _ hN] at hchannels hmodes
  refine ⟨pdTable, pdModes, hinit, htable, hchannels, ?_, ?_⟩
  · intro hfull
    apply hmodes
    intro r hr
    rw [List.mem_filter, decide_eq_true_eq] at hr
    exact hfull r hr.1 hr.2
  · intro hnone library description interaction
    have hfilter : rows.filter (fun r => decide (r.Z = candidate.current.id.chargeNumber ∧
        r.N = candidate.current.id.massNumber - candidate.current.id.chargeNumber)) = [] := by
      rw [List.filter_eq_nil_iff]
      intro r hr
      rw [decide_eq_true_eq]
      exact hnone r hr
    rw [hfilter, List.map_nil, List.map_eq_nil_iff] at hchannels
    exact setNextInteraction_false library pdTable description candidate interaction pdModes
      htable (Or.inl hchannels)

/-- Witness of C23 (as amended): the table is loaded from the sample data lines of helium-4
(all rates), of helium-3 (a line that ends after one rate) and of iron-56 (all rates), and the
candidate is the sample helium-4 nucleus: the channel list read for it holds the channel
described by the helium-4 line, and nothing else. -/
theorem init_channels_per_nuclide_witness :
    ((∀ r ∈ [sampleLineHelium4, sampleLineShort, sampleLineIron56],
        (0 ≤ r.Z ∧ r.Z ≤ 56) ∧ (0 ≤ r.N ∧ r.N ≤ 30)) ∧
      (0 ≤ sampleHelium4.current.id.chargeNumber ∧
        sampleHelium4.current.id.chargeNumber ≤ 56) ∧
      (0 ≤ sampleHelium4.current.id.massNumber - sampleHelium4.current.id.chargeNumber ∧
        sampleHelium4.current.id.massNumber - sampleHelium4.current.id.chargeNumber ≤ 30)) ∧
    ∃ pdTable,
      init sampleSplineLibrary [sampleLineHelium4, sampleLineShort, sampleLineIron56] =
        some pdTable ∧
      tableAt pdTable (sampleHelium4.current.id.chargeNumber * 31 +
          (sampleHelium4.current.id.massNumber - sampleHelium4.current.id.chargeNumber)) =
        some [rowMode sampleSplineLibrary sampleLineHelium4] ∧
      (rowMode sampleSplineLibrary sampleLineHelium4).channel = 100000 ∧
      (rowMode sampleSplineLibrary sampleLineHelium4).rate 6 = 2 := by
  have hrows : ∀ r ∈ [sampleLineHelium4, sampleLineShort, sampleLineIron56],
      (0 ≤ r.Z ∧ r.Z ≤ 56) ∧ (0 ≤ r.N ∧ r.N ≤ 30) := by
    intro r hr
    simp only [List.mem_cons, List.mem_singleton, List.not_mem_nil, or_false] at hr
    rcases hr with h | h | h <;> subst h <;> decide
  obtain ⟨pdTable, pdModes, hinit, htable, -, hmodes, -⟩ :=
    init_channels_per_nuclide sampleSplineLibrary
      [sampleLineHelium4, sampleLineShort, sampleLineIron56] hrows sampleHelium4
      (by decide) (by decide)
  have hpdModes : pdModes = [rowMode sampleSplineLibrary sampleLineHelium4] := by
    apply hmodes
    intro r hr hmatch
    simp only [List.mem_cons, List.mem_singleton, List.not_mem_nil, or_false] at hr
    rcases hr with h | h | h <;> subst h
    · exact sampleLines_full.1
    · exact absurd hmatch (by decide)
    · exact absurd hmatch (by decide)
  rw [hpdModes] at htable
  refine ⟨⟨hrows, by decide, by decide⟩, pdTable, hinit, htable, rfl, ?_⟩
  rw [show (rowMode sampleSplineLibrary sampleLineHelium4).rate 6 = 4 / 2 from
    rowMode_sample_rate 2 2 100000 4 (List.replicate 199 4) 6]
  norm_num

/-- Counterexample to C23 as stated: the table is loaded from the one sample data line
`Z = 26, N = 2`, and the candidate is manganese-58 (`A = 58, Z = 25`, so `N = 33`). No data line
has the candidate's `(Z, N)`, yet the channel list that `setNextInteraction` reads for the
candidate holds the channel of the line `(26, 2)`: both have the index
`25 * 31 + 33 = 26 * 31 + 2`. -/
theorem init_channels_of_other_nuclide :
    ∃ pdTable,
      init sampleSplineLibrary [sampleLineShifted] = some pdTable ∧
      tableAt pdTable (sampleManganese58.current.id.chargeNumber * 31 +
          (sampleManganese58.current.id.massNumber -
            sampleManganese58.current.id.chargeNumber)) =
        some [rowMode sampleSplineLibrary sampleLineShifted] ∧
      (rowMode sampleSplineLibrary sampleLineShifted).channel = 100000 ∧
      (sampleLineShifted.Z = 26 ∧ sampleLineShifted.N = 2) ∧
      (sampleManganese58.current.id.chargeNumber = 25 ∧
        sampleManganese58.current.id.massNumber -
          sampleManganese58.current.id.chargeNumber = 33) ∧
      [sampleLineShifted].filter
        (fun r => decide (r.Z = sampleManganese58.current.id.chargeNumber ∧
          r.N = sampleManganese58.current.id.massNumber -
            sampleManganese58.current.id.chargeNumber)) = [] := by
  obtain ⟨pdTable, hinit, htable⟩ := init_single sampleSplineLibrary [sampleLineShifted]
    (fun r hr => by
      simp only [List.mem_singleton] at hr
      subst hr
      decide)
    (sampleManganese58.current.id.chargeNumber * 31 +
      (sampleManganese58.current.id.massNumber - sampleManganese58.current.id.chargeNumber))
    (by decide) sampleLineShifted (by rfl) sampleLines_full.2.2
  exact ⟨pdTable, hinit, htable, rfl, ⟨rfl, rfl⟩, ⟨rfl, rfl⟩, rfl⟩
end PhotoDisintegration

end mpc

namespace crpropa

namespace TabularPhotonField

/-- The energy loop of `checkInputData` accepts a grid exactly when every value is positive: the
comparison with `ePrevious` never fails, because `ePrevious` is `0` in every iteration. -/
theorem forEach_checkEnergy_ok_iff (energies : List ℚ) :
    forEach checkEnergy energies = .ok () ↔ ∀ e ∈ energies, 0 < e := by
  induction energies with
  | nil => simp [forEach]
  | cons e rest ih =>
    by_cases he : e ≤ 0
    · simp only [forEach, checkEnergy, he, if_true, List.mem_cons, forall_eq_or_imp]
      constructor
      · intro h
        cases h
      · intro h
        exact absurd h.1 (not_lt.mpr he)
    · simp only [forEach, checkEnergy, he, if_false, List.mem_cons, forall_eq_or_imp, ih]
      constructor
      · intro h
        exact ⟨not_le.mp he, h⟩
      · intro h
        exact h.2

/-- The redshift loop of `checkInputData` accepts a grid exactly when no value is negative: the
comparison with `zPrevious` never fails, because `zPrevious` is `-1` in every iteration. -/
theorem forEach_checkRedshift_ok_iff (redshifts : List ℚ) :
    forEach checkRedshift redshifts = .ok () ↔ ∀ z ∈ redshifts, 0 ≤ z := by
  induction redshifts with
  | nil => simp [forEach]
  | cons z rest ih =>
    by_cases hz : z < 0
    · simp only [forEach, checkRedshift, hz, if_true, List.mem_cons, forall_eq_or_imp]
      constructor
      · intro h
        cases h
      · intro h
        exact absurd h.1 (not_le.mpr hz)
    · have hz1 : ¬ z ≤ -1 := by
        intro h
        apply hz
        linarith
      simp only [forEach, checkRedshift, hz, hz1, if_false, List.mem_cons, forall_eq_or_imp, ih]
      constructor
      · intro h
        exact ⟨not_lt.mp hz, h⟩
      · intro h
        exact h.2

/-- C9, the code at the failing input: the photon-energy grid `[2, 1]` is not strictly
increasing, yet `checkInputData` returns normally for a redshift-independent field with this
grid, and the constructor builds the field. -/
theorem checkInputData_accepts_decreasing_energies :
    ¬ List.Pairwise (fun a b : ℚ => a < b) [2, 1] ∧
    checkInputData ⟨"IRB", false, [2, 1], [5, 5], [], []⟩ = .ok () ∧
    ∀ ip : Interpolation,
      construct ip "IRB" false [2, 1] [5, 5] [] = .ok ⟨"IRB", false, [2, 1], [5, 5], [], []⟩ := by
  refine ⟨by norm_num, rfl, fun ip => rfl⟩

/-- C10, the code at the failing input: the redshift grid `[0, 2, 1]` starts at 0 but is not
strictly increasing, yet `checkInputData` returns normally for a redshift-dependent field with
this grid, and the constructor builds a field. -/
theorem checkInputData_accepts_decreasing_redshifts :
    ¬ List.Pairwise (fun a b : ℚ => a < b) [0, 2, 1] ∧
    checkInputData ⟨"IRB", true, [1], [5, 5, 5], [0, 2, 1], []⟩ = .ok () ∧
    ∀ ip : Interpolation, ∃ field,
      construct ip "IRB" true [1] [5, 5, 5] [0, 2, 1] = .ok field ∧
      field.redshifts = [0, 2, 1] := by
  refine ⟨by norm_num, rfl, fun ip => ⟨_, rfl, rfl⟩⟩

/-- What the constructor guarantees about a field it has built. The grids are the ones read
from the files; for a redshift-dependent field the redshift grid starts with 0, has no negative
value, and the scaling factors are those pushed by `initRedshiftScaling`. -/
theorem construct_ok (ip : Interpolation) (name : String) (isRD : Bool)
    (energyFile densityFile redshiftFile : List ℚ) (f : TabularPhotonField)
    (h : construct ip name isRD energyFile densityFile redshiftFile = .ok f) :
    f.isRedshiftDependent = isRD ∧ f.photonEnergies = energyFile ∧
    f.photonDensity = densityFile ∧
    (isRD = false → f.redshifts = [] ∧ f.redshiftScalings = []) ∧
    (isRD = true → f.redshifts = redshiftFile ∧
      (∃ rest, redshiftFile = 0 :: rest) ∧ (∀ z ∈ redshiftFile, 0 ≤ z) ∧
      f.redshiftScalings =
        scalingLoop ip ⟨name, true, energyFile, densityFile, redshiftFile, []⟩ redshiftFile 0) := by
  unfold construct at h
  cases isRD with
  | false =>
    simp only [Bool.false_eq_true, if_false] at h
    split at h
    · cases h
    · simp only [Except.ok.injEq] at h
      subst h
      simp
  | true =>
    simp only [if_true] at h
    split at h
    · cases h
    · rename_i hcheck
      simp only [Except.ok.injEq] at h
      subst h
      refine ⟨rfl, rfl, rfl, by simp, fun _ => ⟨rfl, ?_, ?_, by simp [initRedshiftScaling]⟩⟩
      · unfold checkInputData at hcheck
        split at hcheck
        · cases hcheck
        · split at hcheck
          · cases hcheck
          · split at hcheck
            · cases hcheck
            · simp only [checkRedshifts, if_true] at hcheck
              cases redshiftFile with
              | nil => simp at hcheck
              | cons z0 rest =>
                simp only at hcheck
                by_cases hz : z0 = 0
                · exact ⟨rest, by rw [hz]⟩
                · simp [hz] at hcheck
      · unfold checkInputData at hcheck
        split at hcheck
        · cases hcheck
        · split at hcheck
          · cases hcheck
          · split at hcheck
            · cases hcheck
            · simp only [checkRedshifts, if_true] at hcheck
              cases redshiftFile with
              | nil => simp at hcheck
              | cons z0 rest =>
                simp only at hcheck
                by_cases hz : z0 = 0
                · simp only [hz, ne_eq, not_true_eq_false, if_false] at hcheck
                  split at hcheck
                  · cases hcheck
                  · rename_i hloop
                    rw [← hz] at hloop
                    exact (forEach_checkRedshift_ok_iff _).mp hloop
                · simp [hz] at hcheck

/-- C11: for every field built by the constructor, `getRedshiftScaling` returns exactly 0 for
every `z` greater than the last tabulated redshift and exactly 1 for every `z` smaller than the
first tabulated redshift when the table is redshift-dependent, and exactly 1 for every `z` when
the table is redshift-independent. -/
theorem getRedshiftScaling_outside_grid (ip : Interpolation) (name : String) (isRD : Bool)
    (energyFile densityFile redshiftFile : List ℚ) (f : TabularPhotonField)
    (h : construct ip name isRD energyFile densityFile redshiftFile = .ok f) :
    (isRD = true → ∃ first last,
      f.redshifts.head? = some first ∧ f.redshifts.getLast? = some last ∧
      (∀ z, last < z → getRedshiftScaling ip f z = some 0) ∧
      (∀ z, z < first → getRedshiftScaling ip f z = some 1)) ∧
    (isRD = false → ∀ z, getRedshiftScaling ip f z = some 1) := by
  obtain ⟨hflag, -, -, -, hrd⟩ := construct_ok ip name isRD energyFile densityFile redshiftFile f h
  constructor
  · intro htrue
    obtain ⟨hred, ⟨rest, hrest⟩, hnonneg, -⟩ := hrd htrue
    have hlast : (0 :: rest).getLast? = some ((0 :: rest).getLast (by simp)) :=
      List.getLast?_eq_getLast _ _
    have hmem : (0 :: rest).getLast (by simp) ∈ redshiftFile := by
      rw [hrest]
      exact List.getLast_mem _
    have h0 : 0 ≤ (0 :: rest).getLast (by simp) := hnonneg _ hmem
    refine ⟨0, (0 :: rest).getLast (by simp), by rw [hred, hrest]; rfl,
      by rw [hred, hrest]; exact hlast, ?_, ?_⟩
    · intro z hz
      simp only [getRedshiftScaling, hflag, htrue, if_true, hred, hrest, hlast, List.head?_cons]
      rw [if_pos hz]
    · intro z hz
      simp only [getRedshiftScaling, hflag, htrue, if_true, hred, hrest, hlast, List.head?_cons]
      rw [if_neg (by linarith), if_pos hz]
  · intro hfalse z
    simp [getRedshiftScaling, hflag, hfalse]

/-- Witness of C11: the constructor accepts the redshift-dependent table with energies `[1, 2]`,
densities `[1, 2, 3, 5]` and redshifts `[0, 1]`; the scaling of the field it builds is 0 at
`z = 2` and 1 at `z = -1`. -/
theorem getRedshiftScaling_outside_grid_witness :
    ∃ f, construct sampleInterpolation "IRB" true [1, 2] [1, 2, 3, 5] [0, 1] = .ok f ∧
      getRedshiftScaling sampleInterpolation f 2 = some 0 ∧
      getRedshiftScaling sampleInterpolation f (-1) = some 1 := by
  refine ⟨_, rfl, ?_⟩
  obtain ⟨first, last, hfirst, hlast, hab, hbe⟩ :=
    (getRedshiftScaling_outside_grid sampleInterpolation "IRB" true [1, 2] [1, 2, 3, 5] [0, 1]
      _ rfl).1 rfl
  have h1 : first = 0 := by
    have : some (0 : ℚ) = some first := hfirst
    exact (Option.some.inj this).symm
  have h2 : last = 1 := by
    have : some (1 : ℚ) = some last := hlast
    exact (Option.some.inj this).symm
  exact ⟨hab 2 (by rw [h2]; norm_num), hbe (-1) (by rw [h1]; norm_num)⟩

/-- The photon density does not read the scaling factors: two fields with the same flag and
grids have the same density sums. -/
theorem densitySum_congr (ip : Interpolation) (f g : TabularPhotonField) (z : ℚ)
    (hflag : f.isRedshiftDependent = g.isRedshiftDependent)
    (henergies : f.photonEnergies = g.photonEnergies)
    (hdensity : f.photonDensity = g.photonDensity) (hredshifts : f.redshifts = g.redshifts) :
    densitySum ip f z = densitySum ip g z := by
  simp only [densitySum, getPhotonDensity, hflag, henergies, hdensity, hredshifts]

/-- The inner loop of `initRedshiftScaling` adds the density of every remaining energy to `n`,
and to `n0` as well when `z = 0`. -/
theorem sumDensities_eq (ip : Interpolation) (f : TabularPhotonField) (z : ℚ)
    (energies : List ℚ) (n0 n : ℚ) :
    sumDensities ip f z energies (n0, n) =
      ((if z = 0 then n0 + (energies.map (fun e => getPhotonDensity ip f e z)).sum else n0),
        n + (energies.map (fun e => getPhotonDensity ip f e z)).sum) := by
  induction energies generalizing n0 n with
  | nil => simp [sumDensities]
  | cons e rest ih =>
    simp only [sumDensities, ih, List.map_cons, List.sum_cons]
    by_cases hz : z = 0
    · simp only [hz, if_true, Prod.mk.injEq]
      constructor <;> ring
    · simp only [hz, if_false, Prod.mk.injEq, true_and]
      ring

/-- The first scaling factor pushed by `initRedshiftScaling` for a grid that starts with the
redshift 0 is the quotient of the density sum at redshift 0 by itself. -/
theorem scalingLoop_zero_cons (ip : Interpolation) (f : TabularPhotonField) (rest : List ℚ) :
    scalingLoop ip f (0 :: rest) 0 =
      (densitySum ip f 0 / densitySum ip f 0) :: scalingLoop ip f rest (densitySum ip f 0) := by
  rw [scalingLoop, sumDensities_eq]
  simp [densitySum]

/-- The loop of `initRedshiftScaling` pushes one scaling factor per redshift. -/
theorem length_scalingLoop (ip : Interpolation) (f : TabularPhotonField) (redshifts : List ℚ) :
    ∀ n0, (scalingLoop ip f redshifts n0).length = redshifts.length := by
  induction redshifts with
  | nil => intro n0; simp [scalingLoop]
  | cons z rest ih => intro n0; simp [scalingLoop, ih]

/-- The modelled interpolation is exact at the grid points of a strictly increasing grid (scan
form): started at the grid point `(x0, y0)`, the scan returns at the `k`-th grid value the `k`-th
tabulated value. -/
theorem interpolateFrom_grid (X : List ℚ) :
    ∀ (Y : List ℚ) (x0 y0 : ℚ) (k : Nat) (e d : ℚ),
      List.Pairwise (fun a b => a < b) (x0 :: X) → X.length = Y.length →
      (x0 :: X)[k]? = some e → (y0 :: Y)[k]? = some d →
      interpolateFrom e x0 y0 X Y = d := by
  induction X with
  | nil =>
    intro Y x0 y0 k e d _ hlen he hd
    have hY : Y = [] := List.length_eq_zero.mp hlen.symm
    subst hY
    cases k with
    | zero =>
      simp only [List.getElem?_cons_zero, Option.some.injEq] at he hd
      subst hd
      simp [interpolateFrom]
    | succ k => simp at he
  | cons x1 X ih =>
    intro Y x0 y0 k e d hsorted hlen he hd
    cases Y with
    | nil => simp at hlen
    | cons y1 Y =>
      have hlen2 : X.length = Y.length := by simpa using hlen
      have hs := List.pairwise_cons.mp hsorted
      cases k with
      | zero =>
        simp only [List.getElem?_cons_zero, Option.some.injEq] at he hd
        subst he hd
        have hlt : x0 < x1 := hs.1 x1 (by simp)
        simp [interpolateFrom, hlt]
      | succ k =>
        simp only [List.getElem?_cons_succ] at he hd
        have hmem : e ∈ x1 :: X := List.getElem?_mem he
        have hge : ¬ e < x1 := by
          rcases List.mem_cons.mp hmem with h1 | h1
          · rw [h1]; exact lt_irrefl _
          · exact not_lt.mpr (le_of_lt ((List.pairwise_cons.mp hs.2).1 e h1))
        simp only [interpolateFrom, hge, if_false]
        exact ih Y x1 y1 k e d hs.2 hlen2 he hd

/-- The modelled interpolation is exact at the grid points of a strictly increasing grid. -/
theorem interpolate_grid (X Y : List ℚ) (k : Nat) (e d : ℚ)
    (hsorted : List.Pairwise (fun a b => a < b) X) (hlen : X.length = Y.length)
    (he : X[k]? = some e) (hd : Y[k]? = some d) :
    interpolate e X Y = d := by
  cases X with
  | nil => simp at he
  | cons x0 X =>
    cases Y with
    | nil => simp at hlen
    | cons y0 Y =>
      have hmem : e ∈ x0 :: X := List.getElem?_mem he
      have hge : ¬ e < x0 := by
        rcases List.mem_cons.mp hmem with h1 | h1
        · rw [h1]; exact lt_irrefl _
        · exact not_lt.mpr (le_of_lt ((List.pairwise_cons.mp hsorted).1 e h1))
      simp only [interpolate, hge, if_false]
      exact interpolateFrom_grid X Y x0 y0 k e d hsorted (by simpa using hlen) he hd

/-- C12 (as amended): for every redshift-dependent field that the constructor accepts and whose
photon densities at redshift 0 do not add up to zero, the scaling factor derived by
`initRedshiftScaling` for the first redshift (`z = 0`) is exactly 1; if moreover the redshift
grid is strictly increasing (and the 1-D helper is the modelled `interpolate`),
`getRedshiftScaling(0)` returns 1. -/
theorem initRedshiftScaling_first_is_one (ip : Interpolation) (name : String)
    (energyFile densityFile redshiftFile : List ℚ) (f : TabularPhotonField)
    (h : construct ip name true energyFile densityFile redshiftFile = .ok f)
    (hsum : densitySum ip f 0 ≠ 0) :
    f.redshiftScalings.head? = some 1 ∧
    (ip.interpolate = interpolate → List.Pairwise (fun a b => a < b) f.redshifts →
      getRedshiftScaling ip f 0 = some 1) := by
  obtain ⟨hflag, hen, hde, -, hrd⟩ :=
    construct_ok ip name true energyFile densityFile redshiftFile f h
  obtain ⟨hred, ⟨rest, hrest⟩, hnonneg, hscal⟩ := hrd rfl
  subst hrest
  have hsum0 : densitySum ip ⟨name, true, energyFile, densityFile, 0 :: rest, []⟩ 0 =
      densitySum ip f 0 :=
    densitySum_congr ip _ f 0 hflag.symm hen.symm hde.symm hred.symm
  rw [scalingLoop_zero_cons, hsum0, div_self hsum] at hscal
  constructor
  · rw [hscal]
    rfl
  · intro hip hsorted
    have hlast : (0 :: rest).getLast? = some ((0 :: rest).getLast (by simp)) :=
      List.getLast?_eq_getLast _ _
    have h0 : 0 ≤ (0 :: rest).getLast (by simp) := hnonneg _ (List.getLast_mem _)
    have hlen : (0 :: rest).length = ((1 : ℚ) :: scalingLoop ip
        ⟨name, true, energyFile, densityFile, 0 :: rest, []⟩ rest (densitySum ip f 0)).length := by
      simp [length_scalingLoop]
    rw [hred] at hsorted
    simp only [getRedshiftScaling, hflag, if_true, hred, hlast, List.head?_cons, hscal, hip]
    rw [if_neg (not_lt.mpr h0), if_neg (lt_irrefl _)]
    rw [interpolate_grid (0 :: rest) _ 0 0 1 hsorted hlen (by simp) (by simp)]

/-- Witness of C12 (as amended): the redshift-dependent table with energies `[1, 2]`, densities
`[1, 2, 3, 5]` and redshifts `[0, 1]` is accepted, its densities at redshift 0 add up to 4, its
first scaling factor is 1 and `getRedshiftScaling(0)` is 1. -/
theorem initRedshiftScaling_first_is_one_witness :
    ∃ f, construct sampleInterpolation "IRB" true [1, 2] [1, 2, 3, 5] [0, 1] = .ok f ∧
      densitySum sampleInterpolation f 0 ≠ 0 ∧
      f.redshiftScalings.head? = some 1 ∧
      getRedshiftScaling sampleInterpolation f 0 = some 1 := by
  have hsum : densitySum sampleInterpolation
      (initRedshiftScaling sampleInterpolation ⟨"IRB", true, [1, 2], [1, 2, 3, 5], [0, 1], []⟩)
      0 ≠ 0 := by
    simp [densitySum, getPhotonDensity, initRedshiftScaling, sampleInterpolation]
    norm_num
  have hthm := initRedshiftScaling_first_is_one sampleInterpolation "IRB" [1, 2] [1, 2, 3, 5]
    [0, 1] _ rfl hsum
  exact ⟨_, rfl, hsum, hthm.1, hthm.2 rfl (by simp [initRedshiftScaling])⟩

/-- Counterexample to C12 as stated: the constructor accepts the redshift-dependent table with
energy `[1]`, density `[0]` and redshift `[0]`. Its densities at redshift 0 add up to 0, so the
first scaling factor is the quotient `0 / 0` (not a number in `double` arithmetic, 0 in exact
arithmetic), which is not 1, and `getRedshiftScaling(0)` does not return 1. -/
theorem initRedshiftScaling_first_not_one :
    ∃ f, construct sampleInterpolation "IRB" true [1] [0] [0] = .ok f ∧
      densitySum sampleInterpolation f 0 = 0 ∧
      ¬ f.redshiftScalings.head? = some 1 ∧
      ¬ getRedshiftScaling sampleInterpolation f 0 = some 1 := by
  refine ⟨_, rfl, ?_, ?_, ?_⟩
  · simp [densitySum, getPhotonDensity, initRedshiftScaling, sampleInterpolation]
  · simp [initRedshiftScaling, scalingLoop, sumDensities, getPhotonDensity, sampleInterpolation]
  · simp [getRedshiftScaling, initRedshiftScaling, scalingLoop, sumDensities, getPhotonDensity,
      sampleInterpolation, interpolate, interpolateFrom]

/-- C13, the code at the failing input: the redshift-dependent table with energy `[1]`,
densities `[5, 0]` and redshifts `[0, 1]` has an all-zero density row at redshift 1. The
constructor accepts it and the field it builds holds the scaling factors `[1, 0]`, although
`checkInputData`, run on the built field, rejects the scaling factor 0: the constructor runs the
check before `initRedshiftScaling` has derived any scaling factor. -/
theorem construct_accepts_zero_scaling :
    ∃ f, construct sampleInterpolation "IRB" true [1] [5, 0] [0, 1] = .ok f ∧
      f.redshiftScalings = [1, 0] ∧
      checkInputData f = .error (.runtimeError
        "TabularPhotonField::checkInputData: initRedshiftScaling has created a non-positive scaling factor") := by
  have hs : (initRedshiftScaling sampleInterpolation
      ⟨"IRB", true, [1], [5, 0], [0, 1], []⟩).redshiftScalings = [1, 0] := by
    simp [initRedshiftScaling, scalingLoop, sumDensities, getPhotonDensity, sampleInterpolation]
  refine ⟨_, rfl, hs, ?_⟩
  have hf : initRedshiftScaling sampleInterpolation ⟨"IRB", true, [1], [5, 0], [0, 1], []⟩ =
      ⟨"IRB", true, [1], [5, 0], [0, 1], [1, 0]⟩ := by
    have h0 : initRedshiftScaling sampleInterpolation ⟨"IRB", true, [1], [5, 0], [0, 1], []⟩ =
      ⟨"IRB", true, [1], [5, 0], [0, 1], (initRedshiftScaling sampleInterpolation
        ⟨"IRB", true, [1], [5, 0], [0, 1], []⟩).redshiftScalings⟩ := rfl
    rw [h0, hs]
  show checkInputData (initRedshiftScaling sampleInterpolation
    ⟨"IRB", true, [1], [5, 0], [0, 1], []⟩) = _
  rw [hf]
  rfl

/-- Between two neighbouring grid points the modelled interpolation is the straight line
through them (scan form). -/
theorem interpolateFrom_between (X : List ℚ) :
    ∀ (Y : List ℚ) (x0 y0 : ℚ) (k : Nat) (a b ya yb x : ℚ),
      List.Pairwise (fun a b => a < b) (x0 :: X) →
      (x0 :: X)[k]? = some a → (x0 :: X)[k + 1]? = some b →
      (y0 :: Y)[k]? = some ya → (y0 :: Y)[k + 1]? = some yb →
      a ≤ x → x < b →
      interpolateFrom x x0 y0 X Y = ya + (x - a) * (yb - ya) / (b - a) := by
  induction X with
  | nil =>
    intro Y x0 y0 k a b ya yb x _ _ hb
    simp at hb
  | cons x1 X ih =>
    intro Y x0 y0 k a b ya yb x hsorted ha hb hya hyb hax hxb
    cases Y with
    | nil => simp at hyb
    | cons y1 Y =>
      have hs := List.pairwise_cons.mp hsorted
      cases k with
      | zero =>
        simp only [List.getElem?_cons_zero, List.getElem?_cons_succ, zero_add,
          Option.some.injEq] at ha hb hya hyb
        subst ha hb hya hyb
        simp [interpolateFrom, hxb]
      | succ k =>
        rw [List.getElem?_cons_succ] at ha hb hya hyb
        have hmem : a ∈ x1 :: X := List.getElem?_mem ha
        have hge : x1 ≤ a := by
          rcases List.mem_cons.mp hmem with h1 | h1
          · rw [h1]
          · exact le_of_lt ((List.pairwise_cons.mp hs.2).1 a h1)
        have hnot : ¬ x < x1 := not_lt.mpr (le_trans hge hax)
        simp only [interpolateFrom, hnot, if_false]
        exact ih Y x1 y1 k a b ya yb x hs.2 ha hb hya hyb hax hxb

/-- Between two neighbouring grid points of a strictly increasing grid the modelled
interpolation is the straight line through them. -/
theorem interpolate_between (X Y : List ℚ) (k : Nat) (a b ya yb x : ℚ)
    (hsorted : List.Pairwise (fun a b => a < b) X)
    (ha : X[k]? = some a) (hb : X[k + 1]? = some b)
    (hya : Y[k]? = some ya) (hyb : Y[k + 1]? = some yb) (hax : a ≤ x) (hxb : x < b) :
    interpolate x X Y = ya + (x - a) * (yb - ya) / (b - a) := by
  cases X with
  | nil => simp at ha
  | cons x0 X =>
    cases Y with
    | nil => simp at hya
    | cons y0 Y =>
      have hmem : a ∈ x0 :: X := List.getElem?_mem ha
      have hge : x0 ≤ a := by
        rcases List.mem_cons.mp hmem with h1 | h1
        · rw [h1]
        · exact le_of_lt ((List.pairwise_cons.mp hsorted).1 a h1)
      have hnot : ¬ x < x0 := not_lt.mpr (le_trans hge hax)
      simp only [interpolate, hnot, if_false]
      exact interpolateFrom_between X Y x0 y0 k a b ya yb x hsorted ha hb hya hyb hax hxb

/-- C14: for every redshift-independent field with a strictly increasing positive energy grid
(and as many densities as energies), `getPhotonDensity(e, z)` does not depend on `z`, whatever
the interpolation helper is; with the modelled helper it is the 1-D linear interpolation of the
density grid over the energy grid: at every grid energy it returns exactly the tabulated density
of that point, and between two neighbouring grid energies the value on the straight line through
the two tabulated points. -/
theorem getPhotonDensity_redshift_independent
    (interpolate2d : ℚ → ℚ → List ℚ → List ℚ → List ℚ → ℚ) (f : TabularPhotonField)
    (hflag : f.isRedshiftDependent = false)
    (hsorted : List.Pairwise (fun a b => a < b) f.photonEnergies)
    (_hpositive : ∀ e ∈ f.photonEnergies, 0 < e)
    (hlen : f.photonEnergies.length = f.photonDensity.length) :
    (∀ (ip : Interpolation) (e z z' : ℚ),
      getPhotonDensity ip f e z = getPhotonDensity ip f e z') ∧
    (∀ e z : ℚ, getPhotonDensity ⟨interpolate, interpolate2d⟩ f e z =
      interpolate e f.photonEnergies f.photonDensity) ∧
    (∀ (k : Nat) (e d z : ℚ), f.photonEnergies[k]? = some e → f.photonDensity[k]? = some d →
      getPhotonDensity ⟨interpolate, interpolate2d⟩ f e z = d) ∧
    (∀ (k : Nat) (a b ya yb x z : ℚ),
      f.photonEnergies[k]? = some a → f.photonEnergies[k + 1]? = some b →
      f.photonDensity[k]? = some ya → f.photonDensity[k + 1]? = some yb →
      a ≤ x → x < b →
      getPhotonDensity ⟨interpolate, interpolate2d⟩ f x z =
        ya + (x - a) * (yb - ya) / (b - a)) := by
  refine ⟨?_, ?_, ?_, ?_⟩
  · intro ip e z z'
    simp [getPhotonDensity, hflag]
  · intro e z
    simp [getPhotonDensity, hflag]
  · intro k e d z he hd
    simp only [getPhotonDensity, hflag, Bool.false_eq_true, if_false]
    exact interpolate_grid _ _ k e d hsorted hlen he hd
  · intro k a b ya yb x z ha hb hya hyb hax hxb
    simp only [getPhotonDensity, hflag, Bool.false_eq_true, if_false]
    exact interpolate_between _ _ k a b ya yb x hsorted ha hb hya hyb hax hxb

/-- Witness of C14: the redshift-independent table with energies `[1, 2, 3]` and densities
`[10, 20, 10]` satisfies the hypotheses; the density at the energy `1.5` is 15 at the redshifts
0 and 7, and the density at the grid energy 2 is the tabulated 20. -/
theorem getPhotonDensity_redshift_independent_witness :
    (List.Pairwise (fun a b : ℚ => a < b) [1, 2, 3] ∧ (∀ e ∈ ([1, 2, 3] : List ℚ), 0 < e)) ∧
    getPhotonDensity sampleInterpolation ⟨"IRB", false, [1, 2, 3], [10, 20, 10], [], []⟩
      (3 / 2) 0 = 15 ∧
    getPhotonDensity sampleInterpolation ⟨"IRB", false, [1, 2, 3], [10, 20, 10], [], []⟩
      (3 / 2) 7 = 15 ∧
    getPhotonDensity sampleInterpolation ⟨"IRB", false, [1, 2, 3], [10, 20, 10], [], []⟩
      2 0 = 20 := by
  have hsorted : List.Pairwise (fun a b : ℚ => a < b) [1, 2, 3] := by norm_num
  have hpositive : ∀ e ∈ ([1, 2, 3] : List ℚ), 0 < e := by
    intro e he
    simp only [List.mem_cons, List.mem_singleton, List.not_mem_nil, or_false] at he
    rcases he with h | h | h <;> rw [h] <;> norm_num
  have hthm := getPhotonDensity_redshift_independent sampleInterpolation.interpolate2d
    ⟨"IRB", false, [1, 2, 3], [10, 20, 10], [], []⟩ rfl hsorted hpositive rfl
  refine ⟨⟨hsorted, hpositive⟩, ?_, ?_, ?_⟩
  · have h := hthm.2.2.2 0 1 2 10 20 (3 / 2) 0 rfl rfl rfl rfl (by norm_num) (by norm_num)
    rw [show (15 : ℚ) = 10 + (3 / 2 - 1) * (20 - 10) / (2 - 1) by norm_num]
    exact h
  · have h := hthm.2.2.2 0 1 2 10 20 (3 / 2) 7 rfl rfl rfl rfl (by norm_num) (by norm_num)
    rw [show (15 : ℚ) = 10 + (3 / 2 - 1) * (20 - 10) / (2 - 1) by norm_num]
    exact h
  · exact hthm.2.2.1 1 2 20 0 rfl rfl

end TabularPhotonField

/-- C15: in real arithmetic (with `M_PI` the number `π` and `expm1(x) = exp(x) - 1`),
`BlackbodyPhotonField::getPhotonDensity(E, z)` equals
`8π·(E/(h·c))³ / (exp(E/(k·T)) − 1)` for the temperature `T` fixed at construction, for every
`E` and `z`; its value is the same for any two redshift arguments. -/
theorem blackbody_getPhotonDensity (lib : MathLibrary ℝ) (units : Units ℝ)
    (f : BlackbodyPhotonField ℝ) (hpi : lib.M_PI = Real.pi)
    (hexpm1 : ∀ x, lib.expm1 x = Real.exp x - 1) (E z : ℝ) :
    f.getPhotonDensity lib units E z =
      8 * Real.pi * (E / (units.h_planck * units.c_light)) ^ 3 /
        (Real.exp (E / (units.k_boltzmann * f.blackbodyTemperature)) - 1) ∧
    ∀ z' : ℝ, f.getPhotonDensity lib units E z = f.getPhotonDensity lib units E z' := by
  refine ⟨?_, fun z' => rfl⟩
  simp only [BlackbodyPhotonField.getPhotonDensity, pow_integer3, hpi, hexpm1]
  ring

/-- Witness of C15: a library over the reals whose `M_PI` is `π` and whose `expm1` is
`exp - 1`, units all equal to 1, and the field of temperature 2.73 at the energy 1. -/
theorem blackbody_getPhotonDensity_witness :
    BlackbodyPhotonField.getPhotonDensity
        ⟨Real.pi, Real.sqrt, Real.exp, fun x => Real.exp x - 1, Real.log, Real.log,
          fun x y => x ^ y, fun g a _ => g a⟩
        ⟨1, 1, 1, 1⟩ ⟨"CMB", 2.73⟩ 1 0 =
      8 * Real.pi * (1 / (1 * 1)) ^ 3 / (Real.exp (1 / (1 * 2.73)) - 1) :=
  (blackbody_getPhotonDensity
    ⟨Real.pi, Real.sqrt, Real.exp, fun x => Real.exp x - 1, Real.log, Real.log,
      fun x y => x ^ y, fun g a _ => g a⟩
    ⟨1, 1, 1, 1⟩ ⟨"CMB", 2.73⟩ rfl (fun _ => rfl) 1 0).1

/-- C16: constructing `PhotonFieldSampling` with a flag fails if and only if the flag is neither
1 nor 2, and `sample_eps` on a default-constructed sampler (`bgFlag = 0`) throws for every
argument triple, every random stream and every library. -/
theorem photonFieldSampling_configuration {K : Type} [LinearOrderedField K] [FloorRing K] :
    (∀ flag : Int, (∃ fault, PhotonFieldSampling.newWithFlag flag = .error fault) ↔
      (flag ≠ 1 ∧ flag ≠ 2)) ∧
    (∀ flag : Int, (flag = 1 ∨ flag = 2) →
      PhotonFieldSampling.newWithFlag flag = .ok { bgFlag := flag }) ∧
    (∀ (lib : MathLibrary K) (units : Units K) (rand : Nat → K) (fuel : Nat)
        (onProton : Bool) (E_in z_in : K),
      PhotonFieldSampling.new.sample_eps lib rand fuel onProton E_in z_in =
        .thrown (.runtimeError
          "error: select photon field first: 1 (CMB) or 2 (IRB_Kneiske04)") ∧
      (PhotonFieldSampling.new.sample_eps lib rand fuel onProton E_in z_in).value units =
        none) := by
  refine ⟨?_, ?_, ?_⟩
  · intro flag
    unfold PhotonFieldSampling.newWithFlag
    by_cases h : flag ≠ 1 ∧ flag ≠ 2
    · simp [h]
    · simp only [h, if_false, iff_false]
      rintro ⟨fault, hf⟩
      cases hf
  · intro flag h
    unfold PhotonFieldSampling.newWithFlag
    have : ¬ (flag ≠ 1 ∧ flag ≠ 2) := by omega
    simp [this]
  · intro lib units rand fuel onProton E_in z_in
    simp [PhotonFieldSampling.sample_eps, PhotonFieldSampling.new, SampleOutcome.value]

/-- Witness of C16: the flags 1 and 2 are accepted, the flags 0 and 3 are refused. -/
theorem photonFieldSampling_configuration_witness :
    PhotonFieldSampling.newWithFlag 1 = .ok { bgFlag := 1 } ∧
    PhotonFieldSampling.newWithFlag 2 = .ok { bgFlag := 2 } ∧
    (∃ fault, PhotonFieldSampling.newWithFlag 0 = .error fault) ∧
    (∃ fault, PhotonFieldSampling.newWithFlag 3 = .error fault) :=
  ⟨(@photonFieldSampling_configuration ℚ _ _).2.1 1 (Or.inl rfl),
   (@photonFieldSampling_configuration ℚ _ _).2.1 2 (Or.inr rfl),
   ((@photonFieldSampling_configuration ℚ _ _).1 0).mpr (by decide),
   ((@photonFieldSampling_configuration ℚ _ _).1 3).mpr (by decide)⟩

/-- C17: for both configurations of `PhotonFieldSampling` and every `(onProton, E_in, z_in)`
whose kinematic bounds satisfy `epsMin > epsMax`, `sample_eps` returns exactly 0 through the
early `return 0.`, for every random stream and without taking any random value. In particular
the CMB sampler returns 0 at redshift 0 for every nucleon energy below the pion-production
threshold, that is whenever the largest invariant energy `m² + 2·epsMax·(E + P)` reachable with
a photon of energy `epsMax` (in GeV) stays below `1.1646`. The hypotheses `E + P ≠ 0` are where
the exact quotient by `E + P` and the `double` quotient of the source mean the same. -/
theorem sample_eps_forbidden {K : Type} [LinearOrderedField K] [FloorRing K]
    (lib : MathLibrary K) (units : Units K) (sampler : PhotonFieldSampling) (rand : Nat → K)
    (fuel : Nat) (onProton : Bool) (E_in z_in : K) :
    (sampler.bgFlag = 1 → E_in + momentum lib onProton E_in ≠ 0 →
      epsMinCMB lib onProton E_in > epsMaxCMB z_in →
      sampler.sample_eps lib rand fuel onProton E_in z_in = .forbidden) ∧
    (sampler.bgFlag = 2 → E_in + momentum lib onProton E_in ≠ 0 →
      epsMinIRB lib onProton E_in > epsMaxIRB →
      sampler.sample_eps lib rand fuel onProton E_in z_in = .forbidden) ∧
    (sampler.bgFlag = 1 → 0 < E_in + momentum lib onProton E_in →
      nucleonMass onProton * nucleonMass onProton +
        2 * (epsMaxCMB (0 : K) * 1e-9) * (E_in + momentum lib onProton E_in) < 1.1646 →
      sampler.sample_eps lib rand fuel onProton E_in 0 = .forbidden) ∧
    (SampleOutcome.forbidden : SampleOutcome K).value units = some 0 ∧
    (SampleOutcome.forbidden : SampleOutcome K).draws = some 0 := by
  have hcmb : ∀ z : K, sampler.bgFlag = 1 → epsMinCMB lib onProton E_in > epsMaxCMB z →
      sampler.sample_eps lib rand fuel onProton E_in z = .forbidden := by
    intro z h1 hgt
    simp [PhotonFieldSampling.sample_eps, h1, sampleCMB, hgt]
  refine ⟨fun h1 _ hgt => hcmb z_in h1 hgt, ?_, ?_, rfl, rfl⟩
  · intro h2 _ hgt
    simp [PhotonFieldSampling.sample_eps, h2, sampleIRB, hgt]
  · intro h1 hpos hbelow
    apply hcmb 0 h1
    unfold epsMinCMB
    generalize E_in + momentum lib onProton E_in = S at hpos hbelow ⊢
    generalize (nucleonMass onProton : K) * nucleonMass onProton = m2 at hbelow ⊢
    generalize epsMaxCMB (0 : K) = e at hbelow ⊢
    rw [gt_iff_lt, div_div, div_mul_eq_mul_div, lt_div_iff₀ (by positivity)]
    have h9 : (1e-9 : K) * 1e9 = 1 := by norm_num
    have hb : (m2 + 2 * (e * 1e-9) * S) * 1e9 < 1.1646 * 1e9 :=
      mul_lt_mul_of_pos_right hbelow (by norm_num)
    have hexp : (m2 + 2 * (e * 1e-9) * S) * 1e9 = m2 * 1e9 + 2 * e * S * (1e-9 * 1e9) := by
      ring
    rw [hexp, h9] at hb
    linarith

/-- Witness of C17: a proton of energy 1 GeV (with the sample library, momentum 0) is below the
threshold at redshift 0; both samplers return through the early `return 0.`. -/
theorem sample_eps_forbidden_witness :
    (epsMinCMB sampleMathLibrary true 1 > epsMaxCMB 0 ∧
      epsMinIRB sampleMathLibrary true 1 > epsMaxIRB) ∧
    PhotonFieldSampling.sample_eps sampleMathLibrary ⟨1⟩ (fun _ => 1 / 2) 10 true 1 0 =
      .forbidden ∧
    PhotonFieldSampling.sample_eps sampleMathLibrary ⟨2⟩ (fun _ => 1 / 2) 10 true 1 0 =
      .forbidden ∧
    (nucleonMass true * nucleonMass true +
        2 * (epsMaxCMB (0 : ℚ) * 1e-9) * (1 + momentum sampleMathLibrary true 1) < 1.1646 ∧
      PhotonFieldSampling.sample_eps sampleMathLibrary ⟨1⟩ (fun _ => 1 / 3) 5 true 1 0 =
        .forbidden) := by
  have hP : (1 : ℚ) + momentum sampleMathLibrary true 1 = 1 := by
    simp [momentum, sampleMathLibrary]
  have h1 : epsMinCMB sampleMathLibrary true 1 > epsMaxCMB 0 := by
    unfold epsMinCMB epsMaxCMB
    rw [hP]
    norm_num [nucleonMass]
  have h2 : epsMinIRB sampleMathLibrary true 1 > epsMaxIRB := by
    unfold epsMinIRB epsMaxIRB
    rw [hP]
    apply lt_max_of_lt_right
    norm_num [nucleonMass]
  have hne : (1 : ℚ) + momentum sampleMathLibrary true 1 ≠ 0 := by
    rw [hP]
    norm_num
  have hs : nucleonMass true * nucleonMass true +
      2 * (epsMaxCMB (0 : ℚ) * 1e-9) * (1 + momentum sampleMathLibrary true 1) < 1.1646 := by
    rw [hP]
    norm_num [nucleonMass, epsMaxCMB]
  exact ⟨⟨h1, h2⟩,
    (sample_eps_forbidden sampleMathLibrary ⟨1, 1, 1, 1⟩ ⟨1⟩ (fun _ => 1 / 2) 10 true 1 0).1
      rfl hne h1,
    (sample_eps_forbidden sampleMathLibrary ⟨1, 1, 1, 1⟩ ⟨2⟩ (fun _ => 1 / 2) 10 true 1 0).2.1
      rfl hne h2,
    hs,
    (sample_eps_forbidden sampleMathLibrary ⟨1, 1, 1, 1⟩ ⟨1⟩ (fun _ => 1 / 3) 5 true 1 0).2.2.1
      rfl (by rw [hP]; norm_num) hs⟩

/-- C20: `crossection(x, onProton)` returns exactly 0 for every `x` whose invariant energy
`s = m² + 2·m·x` (`m` the proton or neutron mass) is below the pion-production threshold
`1.1646` GeV², for both target types. -/
theorem crossection_below_threshold {K : Type} [LinearOrderedField K] [FloorRing K]
    (lib : MathLibrary K) (x : K) (onProton : Bool)
    (h : nucleonMass onProton * nucleonMass onProton + 2 * nucleonMass onProton * x <
      (1.1646 : K)) :
    crossection lib x onProton = .ok 0 := by
  unfold crossection
  simp only [h, if_true]

/-- Witness of C20: at `x = 0.1` GeV the invariant energy is below the threshold for a proton
and for a neutron, and the cross section is 0. -/
theorem crossection_below_threshold_witness :
    ((nucleonMass true : ℚ) * nucleonMass true + 2 * nucleonMass true * (1 / 10) < 1.1646 ∧
      (nucleonMass false : ℚ) * nucleonMass false + 2 * nucleonMass false * (1 / 10) < 1.1646) ∧
    crossection sampleMathLibrary (1 / 10) true = .ok 0 ∧
    crossection sampleMathLibrary (1 / 10) false = .ok 0 :=
  ⟨⟨by norm_num [nucleonMass], by norm_num [nucleonMass]⟩,
    crossection_below_threshold sampleMathLibrary (1 / 10) true (by norm_num [nucleonMass]),
    crossection_below_threshold sampleMathLibrary (1 / 10) false (by norm_num [nucleonMass])⟩

/-- The index search of the infrared density stays inside the 15-entry table whenever the
argument is below the last abscissa `XData[14] = 2.5`: entered with an index of at most 13 and
enough iterations left, it returns an index above the entry index and at most 14. -/
theorem searchIndex_some {K : Type} [LinearOrderedField K] [FloorRing K] (lgX : K)
    (h : lgX < 2.5) :
    ∀ (bound index : Nat), index ≤ 13 → 14 ≤ index + bound →
      ∃ r, searchIndex lgX bound index = some r ∧ index + 1 ≤ r ∧ r ≤ 14 := by
  intro bound
  induction bound with
  | zero =>
    intro index h13 h14
    omega
  | succ bound ih =>
    intro index h13 h14
    have hlen : index + 1 < (XData : List K).length := by
      have : (XData : List K).length = 15 := rfl
      omega
    have hget : (XData : List K)[index + 1]? = some ((XData : List K)[index + 1]) :=
      List.getElem?_eq_getElem hlen
    rw [searchIndex, hget]
    by_cases hlt : (XData : List K)[index + 1] < lgX
    · simp only [hlt, if_true]
      have hne : index + 1 ≤ 13 := by
        by_contra hcon
        have h14' : index = 13 := by omega
        subst h14'
        have hx : (XData : List K)[13 + 1] = 2.5 := rfl
        rw [hx] at hlt
        exact absurd h (not_lt.mpr (le_of_lt hlt))
      obtain ⟨r, hr, hr1, hr2⟩ := ih (index + 1) hne (by omega)
      exact ⟨r, hr, by omega, hr2⟩
    · simp only [hlt, if_false]
      exact ⟨index + 1, rfl, le_refl _, by omega⟩

/-- The infrared branch of `getPhotonDensity` always returns a value: its table reads stay
inside the tables. -/
theorem irDensity_ok {K : Type} [LinearOrderedField K] [FloorRing K] (lib : MathLibrary K)
    (eps z_in : K) : ∃ density, irDensity lib eps z_in = .ok density := by
  unfold irDensity
  simp only
  split_ifs with h1 h2 h3 h4
  · exact ⟨_, rfl⟩
  · exact ⟨_, rfl⟩
  · exact ⟨_, rfl⟩
  · exact ⟨_, rfl⟩
  · have hx : (XData : List K).getD 14 0 = 2.5 := rfl
    rw [hx] at h4
    obtain ⟨r, hr, -, -⟩ := searchIndex_some (lib.log10 (1.2398 * (1 + z_in) / eps))
      (not_le.mp h4) 15 1 (by norm_num) (by norm_num)
    rw [hr]
    exact ⟨_, rfl⟩

/-- With the flag 2, `getPhotonDensity` always returns a value. -/
theorem getPhotonDensity_ok_of_flag_two {K : Type} [LinearOrderedField K] [FloorRing K]
    (lib : MathLibrary K) (sampler : PhotonFieldSampling) (h2 : sampler.bgFlag = 2)
    (eps z_in : K) : ∃ density, sampler.getPhotonDensity lib eps z_in = .ok density := by
  unfold PhotonFieldSampling.getPhotonDensity
  simp only [h2]
  exact irDensity_ok lib eps z_in

/-- With the flag 2, the loop that bounds `eps^2 * density` always returns a value. -/
theorem rmaxLoop_ok_of_flag_two {K : Type} [LinearOrderedField K] [FloorRing K]
    (lib : MathLibrary K) (sampler : PhotonFieldSampling) (h2 : sampler.bgFlag = 2)
    (z_in epsMin de : K) :
    ∀ (left i : Nat) (rmax : K),
      ∃ r, rmaxLoop lib sampler z_in epsMin de left i rmax = .ok r := by
  intro left
  induction left with
  | zero => intro i rmax; exact ⟨rmax, rfl⟩
  | succ left ih =>
    intro i rmax
    obtain ⟨density, hd⟩ := getPhotonDensity_ok_of_flag_two lib sampler h2
      (epsMin * lib.exp ((i : K) * de)) z_in
    simp only [rmaxLoop, hd]
    exact ih _ _

/-- Every energy that the CMB loop accepts is a proposal `epsMin + u * (epsMax - epsMin)` made
from one of the random values. -/
theorem cmbLoop_finished {K : Type} [LinearOrderedField K] [FloorRing K]
    (lib : MathLibrary K) (sampler : PhotonFieldSampling) (rand : Nat → K) (onProton : Bool)
    (E_in z_in epsMin epsMax cnorm pMax : K) :
    ∀ (fuel n : Nat) (eps : K) (draws : Nat),
      cmbLoop lib sampler rand onProton E_in z_in epsMin epsMax cnorm pMax fuel n =
        .finished eps draws →
      ∃ m, eps = epsMin + rand m * (epsMax - epsMin) := by
  intro fuel
  induction fuel with
  | zero =>
    intro n eps draws h
    simp [cmbLoop] at h
  | succ fuel ih =>
    intro n eps draws h
    rw [cmbLoop] at h
    split at h
    · cases h
    · simp only at h
      split_ifs at h with hrej
      · exact ih _ _ _ h
      · simp only [SampleOutcome.finished.injEq] at h
        exact ⟨n, h.1.symm⟩

/-- The IRB loop with the flag 2, entered with `budget` proposals left after `j` proposals:
either none of the next `budget` proposals is accepted and the loop ends with `return 0.` after
`2 * (j + budget)` random values, or it returns the first accepted proposal. -/
theorem irbLoop_spec {K : Type} [LinearOrderedField K] [FloorRing K]
    (lib : MathLibrary K) (sampler : PhotonFieldSampling) (h2 : sampler.bgFlag = 2)
    (rand : Nat → K) (z_in beta e1 e2 rmax : K) :
    ∀ (budget j : Nat),
      (irbLoop lib sampler rand z_in beta e1 e2 rmax budget (2 * j) =
          .exhausted (2 * (j + budget)) ∧
        ∀ i, i < budget → ¬ irbAccepts lib sampler rand z_in beta e1 e2 rmax (j + i)) ∨
      (∃ i, i < budget ∧ irbAccepts lib sampler rand z_in beta e1 e2 rmax (j + i) ∧
        irbLoop lib sampler rand z_in beta e1 e2 rmax budget (2 * j) =
          .finished (irbProposal lib beta e1 e2 (rand (2 * (j + i)))) (2 * (j + i) + 2)) := by
  intro budget
  induction budget with
  | zero =>
    intro j
    left
    exact ⟨rfl, fun i hi => absurd hi (Nat.not_lt_zero i)⟩
  | succ budget ih =>
    intro j
    obtain ⟨density, hd⟩ := getPhotonDensity_ok_of_flag_two lib sampler h2
      (irbProposal lib beta e1 e2 (rand (2 * j))) z_in
    rw [irbLoop]
    simp only [hd]
    by_cases hacc : rand (2 * j + 1) <
        irbProposal lib beta e1 e2 (rand (2 * j)) * irbProposal lib beta e1 e2 (rand (2 * j)) *
          density / rmax
    · right
      refine ⟨0, Nat.succ_pos _, ⟨density, hd, hacc⟩, ?_⟩
      simp [hacc]
    · have hnot : ¬ irbAccepts lib sampler rand z_in beta e1 e2 rmax (j + 0) := by
        rintro ⟨density', hd', hacc'⟩
        simp only [Nat.add_zero] at hd' hacc'
        rw [hd] at hd'
        cases hd'
        exact hacc hacc'
      simp only [hacc, if_false]
      have hstep : 2 * j + 2 = 2 * (j + 1) := by ring
      rw [hstep]
      rcases ih (j + 1) with ⟨hex, hall⟩ | ⟨i, hi, hacc', hfin⟩
      · left
        refine ⟨by rw [hex]; congr 1; ring, ?_⟩
        intro i hi
        cases i with
        | zero => exact hnot
        | succ i =>
          have := hall i (by omega)
          rwa [show j + 1 + i = j + (i + 1) by ring] at this
      · right
        refine ⟨i + 1, by omega, ?_, ?_⟩
        · rwa [show j + 1 + i = j + (i + 1) by ring] at hacc'
        · rw [hfin, show j + 1 + i = j + (i + 1) by ring]

/-- With the flag 2, the bound `rmax` of the IRB branch is always computed. -/
theorem irbRmax_ok_of_flag_two {K : Type} [LinearOrderedField K] [FloorRing K]
    (lib : MathLibrary K) (sampler : PhotonFieldSampling) (h2 : sampler.bgFlag = 2)
    (onProton : Bool) (E_in z_in : K) :
    ∃ rmax, irbRmax lib sampler onProton E_in z_in = .ok rmax := by
  unfold irbRmax
  exact rmaxLoop_ok_of_flag_two lib sampler h2 _ _ _ _ _ _

/-- C19: in the tabulated-IR configuration (`bgFlag = 2`) `sample_eps` returns for every stream
of random values, whatever bound is given to the CMB loop: it never throws, and it ends either
by the early `return 0.`, or by `return 0.` after 100000 proposals (200000 random values), or
with an accepted proposal after at most 100000 proposals. When none of the first 100000
proposals is accepted, the call returns exactly 0. -/
theorem sample_eps_IRB_terminates {K : Type} [LinearOrderedField K] [FloorRing K]
    (lib : MathLibrary K) (units : Units K) (sampler : PhotonFieldSampling) (rand : Nat → K)
    (fuel : Nat) (onProton : Bool) (E_in z_in : K) (h2 : sampler.bgFlag = 2) :
    (sampler.sample_eps lib rand fuel onProton E_in z_in = .forbidden ∨
      sampler.sample_eps lib rand fuel onProton E_in z_in = .exhausted 200000 ∨
      ∃ eps draws, sampler.sample_eps lib rand fuel onProton E_in z_in = .finished eps draws ∧
        draws ≤ 200000) ∧
    (∀ rmax : K, ¬ epsMinIRB lib onProton E_in > epsMaxIRB →
      irbRmax lib sampler onProton E_in z_in = .ok rmax →
      (∀ i, i < 100000 → ¬ irbAccepts lib sampler rand z_in 4
        (lib.pow (epsMinIRB lib onProton E_in) (1 - 4)) (lib.pow epsMaxIRB (1 - 4)) rmax i) →
      sampler.sample_eps lib rand fuel onProton E_in z_in = .exhausted 200000 ∧
      (sampler.sample_eps lib rand fuel onProton E_in z_in).value units = some 0) := by
  have hflag : sampler.sample_eps lib rand fuel onProton E_in z_in =
      sampleIRB lib sampler rand onProton E_in z_in := by
    simp [PhotonFieldSampling.sample_eps, h2]
  rw [hflag]
  obtain ⟨rmax, hrmax⟩ := irbRmax_ok_of_flag_two lib sampler h2 onProton E_in z_in
  have hloop := irbLoop_spec lib sampler h2 rand z_in 4
    (lib.pow (epsMinIRB lib onProton E_in) (1 - 4)) (lib.pow epsMaxIRB (1 - 4)) rmax 100000 0
  simp only [Nat.mul_zero, Nat.zero_add] at hloop
  constructor
  · by_cases hgt : epsMinIRB lib onProton E_in > epsMaxIRB
    · left
      simp [sampleIRB, hgt]
    · right
      have hrun : sampleIRB lib sampler rand onProton E_in z_in =
          irbLoop lib sampler rand z_in 4 (lib.pow (epsMinIRB lib onProton E_in) (1 - 4))
            (lib.pow epsMaxIRB (1 - 4)) rmax 100000 0 := by
        simp [sampleIRB, hgt, hrmax]
      rw [hrun]
      rcases hloop with ⟨hex, -⟩ | ⟨i, hi, -, hfin⟩
      · left
        exact hex
      · right
        exact ⟨_, _, hfin, by omega⟩
  · intro rmax' hgt hrmax' hnone
    rw [hrmax] at hrmax'
    cases hrmax'
    have hrun : sampleIRB lib sampler rand onProton E_in z_in =
        irbLoop lib sampler rand z_in 4 (lib.pow (epsMinIRB lib onProton E_in) (1 - 4))
          (lib.pow epsMaxIRB (1 - 4)) rmax 100000 0 := by
      simp [sampleIRB, hgt, hrmax]
    rw [hrun]
    rcases hloop with ⟨hex, -⟩ | ⟨i, hi, hacc, -⟩
    · rw [hex]
      exact ⟨rfl, rfl⟩
    · exact absurd hacc (hnone i hi)

/-- Witness of C19: the IR sampler at redshift 6, above the largest redshift of the infrared
model, where the photon density is 0 and no proposal can be accepted: for a proton of energy
`10^8` GeV and the constant random stream `1/2` the call ends after 100000 proposals and
returns 0. -/
theorem sample_eps_IRB_terminates_witness :
    ¬ epsMinIRB sampleMathLibrary true 100000000 > epsMaxIRB ∧
    PhotonFieldSampling.sample_eps sampleMathLibrary ⟨2⟩ (fun _ => 1 / 2) 0 true 100000000 6 =
      .exhausted 200000 ∧
    (PhotonFieldSampling.sample_eps sampleMathLibrary ⟨2⟩ (fun _ => 1 / 2) 0 true 100000000
      6).value ⟨1, 1, 1, 1⟩ = some 0 := by
  have hbounds : ¬ epsMinIRB sampleMathLibrary true 100000000 > epsMaxIRB := by
    unfold epsMinIRB epsMaxIRB
    have hP : (100000000 : ℚ) + momentum sampleMathLibrary true 100000000 = 100000000 := by
      simp [momentum, sampleMathLibrary]
    rw [hP, not_lt]
    apply max_le <;> norm_num [nucleonMass]
  obtain ⟨rmax, hrmax⟩ := irbRmax_ok_of_flag_two sampleMathLibrary ⟨2⟩ rfl true 100000000 6
  have hdensity : ∀ eps : ℚ,
      PhotonFieldSampling.getPhotonDensity sampleMathLibrary ⟨2⟩ eps 6 = .ok 0 := by
    intro eps
    simp only [PhotonFieldSampling.getPhotonDensity, irDensity]
    norm_num
  have hnone : ∀ i, i < 100000 → ¬ irbAccepts sampleMathLibrary ⟨2⟩ (fun _ => 1 / 2) 6 4
      (sampleMathLibrary.pow (epsMinIRB sampleMathLibrary true 100000000) (1 - 4))
      (sampleMathLibrary.pow epsMaxIRB (1 - 4)) rmax i := by
    rintro i - ⟨density, hd, hlt⟩
    rw [hdensity] at hd
    cases hd
    norm_num at hlt
  have hthm := (sample_eps_IRB_terminates sampleMathLibrary ⟨1, 1, 1, 1⟩ ⟨2⟩ (fun _ => 1 / 2) 0
    true 100000000 6 rfl).2 rmax hbounds hrmax hnone
  exact ⟨hbounds, hthm.1, hthm.2⟩

/-- With the real power function, every proposal of the IRB loop made from a random value in
`[0, 1]` lies between the bounds `a ≤ b` whose powers `a^(1 - 4)` and `b^(1 - 4)` it
interpolates. -/
theorem irbProposal_within (lib : MathLibrary ℝ) (hpow : ∀ x y, lib.pow x y = x ^ y)
    (a b u : ℝ) (ha : 0 < a) (hab : a ≤ b) (hu0 : 0 ≤ u) (hu1 : u ≤ 1) :
    a ≤ irbProposal lib 4 (lib.pow a (1 - 4)) (lib.pow b (1 - 4)) u ∧
    irbProposal lib 4 (lib.pow a (1 - 4)) (lib.pow b (1 - 4)) u ≤ b := by
  have hb : 0 < b := lt_of_lt_of_le ha hab
  simp only [irbProposal, hpow]
  have hp : ((1 : ℝ) - 4) ≤ 0 := by norm_num
  have hq : (1 : ℝ) / (1 - 4) ≤ 0 := by norm_num
  have hA : 0 < a ^ ((1 : ℝ) - 4) := Real.rpow_pos_of_pos ha _
  have hB : 0 < b ^ ((1 : ℝ) - 4) := Real.rpow_pos_of_pos hb _
  have hBA : b ^ ((1 : ℝ) - 4) ≤ a ^ ((1 : ℝ) - 4) := Real.rpow_le_rpow_of_nonpos ha hab hp
  have ht1 : b ^ ((1 : ℝ) - 4) ≤ u * (a ^ ((1 : ℝ) - 4) - b ^ ((1 : ℝ) - 4)) + b ^ ((1 : ℝ) - 4) := by
    nlinarith
  have ht2 : u * (a ^ ((1 : ℝ) - 4) - b ^ ((1 : ℝ) - 4)) + b ^ ((1 : ℝ) - 4) ≤ a ^ ((1 : ℝ) - 4) := by
    nlinarith
  have ht0 : 0 < u * (a ^ ((1 : ℝ) - 4) - b ^ ((1 : ℝ) - 4)) + b ^ ((1 : ℝ) - 4) :=
    lt_of_lt_of_le hB ht1
  have hinvA : (a ^ ((1 : ℝ) - 4)) ^ ((1 : ℝ) / (1 - 4)) = a := by
    rw [← Real.rpow_mul ha.le]
    norm_num
  have hinvB : (b ^ ((1 : ℝ) - 4)) ^ ((1 : ℝ) / (1 - 4)) = b := by
    rw [← Real.rpow_mul hb.le]
    norm_num
  constructor
  · calc a = (a ^ ((1 : ℝ) - 4)) ^ ((1 : ℝ) / (1 - 4)) := hinvA.symm
      _ ≤ _ := Real.rpow_le_rpow_of_nonpos ht0 ht2 hq
  · calc _ ≤ (b ^ ((1 : ℝ) - 4)) ^ ((1 : ℝ) / (1 - 4)) :=
          Real.rpow_le_rpow_of_nonpos hB ht1 hq
      _ = b := hinvB

/-- C18: in real arithmetic (with `std::pow` the real power function), for every input and
every stream of random values in `[0, 1]`, every photon energy with which `sample_eps` leaves
its rejection loop lies within the kinematic bounds of its branch, `[epsMin, epsMax]` in eV, and
the returned value divided by the unit constant `eV` is that energy. -/
theorem sample_eps_within_bounds (lib : MathLibrary ℝ) (units : Units ℝ)
    (sampler : PhotonFieldSampling) (rand : Nat → ℝ) (fuel : Nat) (onProton : Bool)
    (E_in z_in eps : ℝ) (draws : Nat)
    (hpow : ∀ x y, lib.pow x y = x ^ y)
    (hrand : ∀ i, 0 ≤ rand i ∧ rand i ≤ 1)
    (heV : units.eV ≠ 0)
    (hfin : sampler.sample_eps lib rand fuel onProton E_in z_in = .finished eps draws) :
    (sampler.bgFlag = 1 →
      epsMinCMB lib onProton E_in ≤ eps ∧ eps ≤ epsMaxCMB z_in) ∧
    (sampler.bgFlag = 2 →
      epsMinIRB lib onProton E_in ≤ eps ∧ eps ≤ epsMaxIRB) ∧
    ∃ v, (sampler.sample_eps lib rand fuel onProton E_in z_in).value units = some v ∧
      v / units.eV = eps := by
  refine ⟨?_, ?_, ?_⟩
  · intro h1
    have hrun : sampler.sample_eps lib rand fuel onProton E_in z_in =
        sampleCMB lib sampler rand fuel onProton E_in z_in := by
      simp [PhotonFieldSampling.sample_eps, h1]
    rw [hrun] at hfin
    unfold sampleCMB at hfin
    simp only at hfin
    split_ifs at hfin with hgt
    split at hfin
    · cases hfin
    · split at hfin
      · cases hfin
      · obtain ⟨m, hm⟩ := cmbLoop_finished lib sampler rand onProton E_in z_in _ _ _ _ _ _ _ _ hfin
        have hle : epsMinCMB lib onProton E_in ≤ epsMaxCMB z_in := not_lt.mp hgt
        obtain ⟨hm0, hm1⟩ := hrand m
        rw [hm]
        constructor <;> nlinarith
  · intro h2
    have hrun : sampler.sample_eps lib rand fuel onProton E_in z_in =
        sampleIRB lib sampler rand onProton E_in z_in := by
      simp [PhotonFieldSampling.sample_eps, h2]
    rw [hrun] at hfin
    unfold sampleIRB at hfin
    simp only at hfin
    split_ifs at hfin with hgt
    split at hfin
    · cases hfin
    · rename_i rmax hrmax
      have hle : epsMinIRB lib onProton E_in ≤ epsMaxIRB := not_lt.mp hgt
      have hpos : (0 : ℝ) < epsMinIRB lib onProton E_in :=
        lt_of_lt_of_le (by norm_num) (le_max_left _ _)
      rcases irbLoop_spec lib sampler h2 rand z_in 4
          (lib.pow (epsMinIRB lib onProton E_in) (1 - 4)) (lib.pow epsMaxIRB (1 - 4)) rmax
          100000 0 with ⟨hex, -⟩ | ⟨i, -, -, hacc⟩
      · simp only [Nat.mul_zero] at hex
        rw [hex] at hfin
        cases hfin
      · simp only [Nat.mul_zero] at hacc
        rw [hacc] at hfin
        simp only [SampleOutcome.finished.injEq] at hfin
        rw [← hfin.1]
        exact irbProposal_within lib hpow _ _ _ hpos hle (hrand _).1 (hrand _).2
  · rw [hfin]
    exact ⟨eps * units.eV, rfl, mul_div_cancel_right₀ eps heV⟩

/-- Witness of C18: a library over the reals with the real power function (and `gaussInt`
returning 0, so that the first proposal is accepted), the CMB sampler, the constant random
stream `1/2` and a proton of energy `10^10` GeV at redshift 0: the call ends with an accepted
energy, which lies within the bounds. -/
theorem sample_eps_within_bounds_witness :
    ∃ eps draws,
      PhotonFieldSampling.sample_eps
          (⟨Real.pi, fun _ => 0, fun _ => 2, fun _ => 1, Real.log, Real.log,
            fun x y => x ^ y, fun _ _ _ => .ok 0⟩ : MathLibrary ℝ)
          ⟨1⟩ (fun _ => 1 / 2) 1 true 10000000000 0 = .finished eps draws ∧
      epsMinCMB (⟨Real.pi, fun _ => 0, fun _ => 2, fun _ => 1, Real.log, Real.log,
          fun x y => x ^ y, fun _ _ _ => .ok 0⟩ : MathLibrary ℝ) true 10000000000 ≤ eps ∧
      eps ≤ epsMaxCMB 0 := by
  have hprob : ∀ e : ℝ, PhotonFieldSampling.prob_eps
      (⟨Real.pi, fun _ => 0, fun _ => 2, fun _ => 1, Real.log, Real.log,
        fun x y => x ^ y, fun _ _ _ => .ok 0⟩ : MathLibrary ℝ) ⟨1⟩ e true 10000000000 0 =
      .ok 0 := by
    intro e
    simp only [PhotonFieldSampling.prob_eps, PhotonFieldSampling.getPhotonDensity]
    split_ifs <;> simp
  have hle : ¬ epsMinCMB (⟨Real.pi, fun _ => 0, fun _ => 2, fun _ => 1, Real.log, Real.log,
      fun x y => x ^ y, fun _ _ _ => .ok 0⟩ : MathLibrary ℝ) true 10000000000 >
      epsMaxCMB 0 := by
    simp only [epsMinCMB, epsMaxCMB, momentum, nucleonMass]
    norm_num
  have hfin : PhotonFieldSampling.sample_eps
      (⟨Real.pi, fun _ => 0, fun _ => 2, fun _ => 1, Real.log, Real.log,
        fun x y => x ^ y, fun _ _ _ => .ok 0⟩ : MathLibrary ℝ)
      ⟨1⟩ (fun _ => 1 / 2) 1 true 10000000000 0 =
      .finished (epsMinCMB (⟨Real.pi, fun _ => 0, fun _ => 2, fun _ => 1, Real.log, Real.log,
          fun x y => x ^ y, fun _ _ _ => .ok 0⟩ : MathLibrary ℝ) true 10000000000 +
        1 / 2 * (epsMaxCMB 0 - epsMinCMB (⟨Real.pi, fun _ => 0, fun _ => 2, fun _ => 1,
          Real.log, Real.log, fun x y => x ^ y, fun _ _ _ => .ok 0⟩ : MathLibrary ℝ) true
          10000000000)) 2 := by
    simp only [PhotonFieldSampling.sample_eps, sampleCMB, hle, hprob, cmbLoop]
    norm_num
  have hthm := sample_eps_within_bounds
    (⟨Real.pi, fun _ => 0, fun _ => 2, fun _ => 1, Real.log, Real.log,
      fun x y => x ^ y, fun _ _ _ => .ok 0⟩ : MathLibrary ℝ)
    ⟨1, 1, 1, 1⟩ ⟨1⟩ (fun _ => 1 / 2) 1 true 10000000000 0 _ 2 (fun _ _ => rfl)
    (fun _ => ⟨by norm_num, by norm_num⟩) (by norm_num) hfin
  exact ⟨_, 2, hfin, hthm.1 rfl⟩

/-- The value of `Ef`: the error branch is never taken, and the branch taken is the first one
whose test holds. -/
theorem Ef_eq {K : Type} [LinearOrderedField K] [FloorRing K] (x th w : K) :
    Ef x th w = .ok (if x ≤ th then 0 else if x < w + th then (x - th) / w else 1) := by
  unfold Ef
  simp only
  by_cases h1 : x ≤ th
  · simp [h1]
  · have hgt : x > th := not_le.mp h1
    by_cases h2 : x < w + th
    · simp [h1, h2, hgt]
    · have hge : x ≥ w + th := not_lt.mp h2
      simp [h1, h2, hge]

/-- C22 (as amended): the piecewise turn-on function `Ef(x, th, w)` never reaches its
internal-consistency error branch: for all `x`, `th` and `w` of the ordered field a value is
returned and at least one of the three cases `x ≤ th`, `th < x < th + w`, `x ≥ th + w` applies
(the first one that applies decides the value); for `w > 0`, as in every call of the source, no
two of the three cases apply together. -/
theorem Ef_never_fails {K : Type} [LinearOrderedField K] [FloorRing K] (x th w : K) :
    (∃ v, Ef x th w = .ok v) ∧
    (x ≤ th ∨ (th < x ∧ x < th + w) ∨ x ≥ th + w) ∧
    (x ≤ th → Ef x th w = .ok 0) ∧
    (th < x ∧ x < th + w → Ef x th w = .ok ((x - th) / w)) ∧
    (th < x ∧ x ≥ th + w → Ef x th w = .ok 1) ∧
    (0 < w → ¬ (x ≤ th ∧ (th < x ∧ x < th + w)) ∧ ¬ (x ≤ th ∧ x ≥ th + w) ∧
      ¬ ((th < x ∧ x < th + w) ∧ x ≥ th + w)) := by
  refine ⟨⟨_, Ef_eq x th w⟩, ?_, ?_, ?_, ?_, ?_⟩
  · rcases le_or_lt x th with h | h
    · exact Or.inl h
    · rcases lt_or_le x (th + w) with h2 | h2
      · exact Or.inr (Or.inl ⟨h, h2⟩)
      · exact Or.inr (Or.inr h2)
  · intro h
    rw [Ef_eq, if_pos h]
  · rintro ⟨h1, h2⟩
    rw [Ef_eq, if_neg (not_le.mpr h1), if_pos (by rwa [add_comm])]
  · rintro ⟨h1, h2⟩
    rw [Ef_eq, if_neg (not_le.mpr h1), if_neg (by rw [add_comm]; exact not_lt.mpr h2)]
  · intro hw
    refine ⟨?_, ?_, ?_⟩
    · rintro ⟨h1, h2, -⟩
      exact absurd h1 (not_le.mpr h2)
    · rintro ⟨h1, h2⟩
      linarith
    · rintro ⟨⟨-, h2⟩, h3⟩
      exact absurd h3 (not_le.mpr h2)

/-- Witness of C22 (as amended): `Ef(0.55, 0.5, 0.1)` is on the ramp, with value
`(0.55 - 0.5) / 0.1`; the width `0.1` is positive and only the middle case applies. -/
theorem Ef_never_fails_witness :
    (0 : ℚ) < 0.1 ∧ Ef (0.55 : ℚ) 0.5 0.1 = .ok ((0.55 - 0.5) / 0.1) ∧
    ¬ ((0.55 : ℚ) ≤ 0.5 ∧ (0.55 : ℚ) ≥ 0.5 + 0.1) :=
  ⟨by norm_num,
    (Ef_never_fails (0.55 : ℚ) 0.5 0.1).2.2.2.1 ⟨by norm_num, by norm_num⟩,
    ((Ef_never_fails (0.55 : ℚ) 0.5 0.1).2.2.2.2.2 (by norm_num)).2.1⟩

/-- Counterexample to C22 as stated (exactly one case for all `x`, `th`, `w`): at
`x = th = w = 0` the call returns 0, and it is not true that exactly one of the three cases
`x ≤ th`, `th < x < th + w`, `x ≥ th + w` applies: the first and the third both do. -/
theorem Ef_two_cases_apply :
    Ef (0 : ℚ) 0 0 = .ok 0 ∧
    ¬ (((0 : ℚ) ≤ 0 ∧ ¬ ((0 : ℚ) < 0 ∧ (0 : ℚ) < 0 + 0) ∧ ¬ (0 : ℚ) ≥ 0 + 0) ∨
      (¬ (0 : ℚ) ≤ 0 ∧ ((0 : ℚ) < 0 ∧ (0 : ℚ) < 0 + 0) ∧ ¬ (0 : ℚ) ≥ 0 + 0) ∨
      (¬ (0 : ℚ) ≤ 0 ∧ ¬ ((0 : ℚ) < 0 ∧ (0 : ℚ) < 0 + 0) ∧ (0 : ℚ) ≥ 0 + 0)) := by
  refine ⟨?_, by norm_num⟩
  rw [Ef_eq, if_pos (le_refl _)]

/-- The loop over the resonances 1 to 8 never fails. -/
theorem resonanceLoop_ok {K : Type} [LinearOrderedField K] [FloorRing K] (x : K)
    (onProton : Bool) (indices : List Nat) :
    ∀ cross_res : K, ∃ r, resonanceLoop x onProton indices cross_res = .ok r := by
  induction indices with
  | nil => intro cross_res; exact ⟨cross_res, rfl⟩
  | cons i rest ih =>
    intro cross_res
    simp only [resonanceLoop, Ef_eq]
    exact ih _

/-- The resonant term is always computed. -/
theorem resonantTerm_ok {K : Type} [LinearOrderedField K] [FloorRing K] (x : K)
    (onProton : Bool) : ∃ r, resonantTerm x onProton = .ok r := by
  simp only [resonantTerm, Ef_eq]
  exact resonanceLoop_ok x onProton _ _

/-- The invariant energy of a photon of more than 0.85 GeV in the nucleon rest frame is above
the threshold `1.1646`. -/
theorem not_below_threshold_of_high {K : Type} [LinearOrderedField K] [FloorRing K] (x : K)
    (onProton : Bool) (hx : 0.85 < x) :
    ¬ (nucleonMass onProton * nucleonMass onProton + 2 * nucleonMass onProton * x <
      (1.1646 : K)) := by
  cases onProton <;> simp only [nucleonMass, Bool.false_eq_true, if_false, if_true] <;>
    norm_num <;> linarith

/-- The value of `crossection` at or above the threshold, in terms of its blocks. -/
theorem crossection_above_threshold {K : Type} [LinearOrderedField K] [FloorRing K]
    (lib : MathLibrary K) (x : K) (onProton : Bool)
    (hs : ¬ (nucleonMass onProton * nucleonMass onProton + 2 * nucleonMass onProton * x <
      (1.1646 : K)))
    (cross_res cross_dir : K)
    (hlow : lowEnergyTerms lib x onProton = .ok (cross_res, cross_dir)) :
    crossection lib x onProton =
      .ok (cross_res + cross_dir +
        (highEnergyTerms lib x
          (nucleonMass onProton * nucleonMass onProton + 2 * nucleonMass onProton * x) onProton
          (fragmentation2 lib
            (nucleonMass onProton * nucleonMass onProton + 2 * nucleonMass onProton * x)
            (if x ≤ 0.5 then 0 else if x < 0.1 + 0.5 then (x - 0.5) / 0.1 else 1) onProton)).1 +
        (highEnergyTerms lib x
          (nucleonMass onProton * nucleonMass onProton + 2 * nucleonMass onProton * x) onProton
          (fragmentation2 lib
            (nucleonMass onProton * nucleonMass onProton + 2 * nucleonMass onProton * x)
            (if x ≤ 0.5 then 0 else if x < 0.1 + 0.5 then (x - 0.5) / 0.1 else 1)
            onProton)).2) := by
  unfold crossection
  simp only [hs, if_false, hlow, Ef_eq]

/-- The block `if (x > 0.85)` leaves the sum of its two results at the sum of the multipion
fit and the fragmentation value it was entered with, in both branches of the shortfall test. -/
theorem highEnergyTerms_sum {K : Type} [LinearOrderedField K] [FloorRing K]
    (lib : MathLibrary K) (x s : K) (onProton : Bool) (cross_frag2 : K) (hx : 0.85 < x) :
    (highEnergyTerms lib x s onProton cross_frag2).1 +
        (highEnergyTerms lib x s onProton cross_frag2).2 =
      (1 - lib.exp (-((x - 0.85) / 0.69))) *
          ((if onProton then 29.3 else 26.4) * (lib.pow s (-0.34) + 59.3 * lib.pow s 0.095)) +
        cross_frag2 := by
  unfold highEnergyTerms
  simp only [gt_iff_lt, hx, if_true]
  split_ifs <;> ring

/-- The block `if (x <= 10.)` for `x ≤ 10`: the resonant term and the direct term. -/
theorem lowEnergyTerms_of_le {K : Type} [LinearOrderedField K] [FloorRing K]
    (lib : MathLibrary K) (x : K) (onProton : Bool) (hx : x ≤ 10) :
    ∃ res, resonantTerm x onProton = .ok res ∧
      lowEnergyTerms lib x onProton = .ok (res, directTerm lib x) := by
  obtain ⟨res, hres⟩ := resonantTerm_ok x onProton
  exact ⟨res, hres, by simp [lowEnergyTerms, hx, hres]⟩

/-- The block `if (x <= 10.)` for `x > 10`: both terms stay 0. -/
theorem lowEnergyTerms_of_gt {K : Type} [LinearOrderedField K] [FloorRing K]
    (lib : MathLibrary K) (x : K) (onProton : Bool) (hx : 10 < x) :
    lowEnergyTerms lib x onProton = .ok (0, 0) := by
  simp [lowEnergyTerms, not_le.mpr hx]

/-- The value of `crossection` for `x ≤ 0.85` at or above the threshold: the resonant term, the
direct term and the fragmentation term with its own turn-on `Ef(x, 0.5, 0.1)`. -/
theorem crossection_of_le_085 {K : Type} [LinearOrderedField K] [FloorRing K]
    (lib : MathLibrary K) (x : K) (onProton : Bool) (hx : x ≤ 0.85)
    (hs : ¬ (nucleonMass onProton * nucleonMass onProton + 2 * nucleonMass onProton * x <
      (1.1646 : K))) :
    ∃ res, resonantTerm x onProton = .ok res ∧
      crossection lib x onProton =
        .ok (res + directTerm lib x +
          (if onProton then 80.3 else 60.2) *
            ((if x ≤ 0.5 then 0 else if x < 0.1 + 0.5 then (x - 0.5) / 0.1 else 1) *
              lib.pow
                (nucleonMass onProton * nucleonMass onProton + 2 * nucleonMass onProton * x)
                (-0.34))) := by
  have h10 : x ≤ 10 := le_trans hx (by norm_num)
  obtain ⟨res, hres, hlow⟩ := lowEnergyTerms_of_le lib x onProton h10
  refine ⟨res, hres, ?_⟩
  rw [crossection_above_threshold lib x onProton hs res (directTerm lib x) hlow]
  simp only [highEnergyTerms, gt_iff_lt, not_lt.mpr hx, if_false, fragmentation2, add_zero]

/-- C21 (as amended): the multipion and diffractive contributions of `crossection` are active
only for `x > 0.85` GeV, but the fragmentation contribution has its own turn-on
`Ef(x, 0.5, 0.1)` and is added for every `x`: for every `x ≤ 0.85` at or above threshold, the
returned cross section equals the resonant term plus the direct term plus the fragmentation term
`f · Ef(x, 0.5, 0.1) · s^(-0.34)` (`f = 80.3` for a proton, `60.2` for a neutron); for
`x ≤ 0.5`, where `Ef(x, 0.5, 0.1) = 0`, it equals the resonant term plus the direct term. -/
theorem crossection_low_energy {K : Type} [LinearOrderedField K] [FloorRing K]
    (lib : MathLibrary K) (x : K) (onProton : Bool) (hx : x ≤ 0.85)
    (hs : ¬ (nucleonMass onProton * nucleonMass onProton + 2 * nucleonMass onProton * x <
      (1.1646 : K))) :
    ∃ res ef, resonantTerm x onProton = .ok res ∧ Ef x 0.5 0.1 = .ok ef ∧
      crossection lib x onProton =
        .ok (res + directTerm lib x +
          (if onProton then 80.3 else 60.2) *
            (ef * lib.pow
              (nucleonMass onProton * nucleonMass onProton + 2 * nucleonMass onProton * x)
              (-0.34))) ∧
      (x ≤ 0.5 → ef = 0 ∧ crossection lib x onProton = .ok (res + directTerm lib x)) := by
  obtain ⟨res, hres, hcross⟩ := crossection_of_le_085 lib x onProton hx hs
  refine ⟨res, _, hres, Ef_eq x 0.5 0.1, hcross, ?_⟩
  intro h05
  refine ⟨if_pos h05, ?_⟩
  rw [hcross, if_pos h05]
  simp

/-- Witness of C21 (as amended): at `x = 0.4` GeV a proton is above the threshold and below the
turn-on of the fragmentation term; the cross section is the resonant term plus the direct
term. -/
theorem crossection_low_energy_witness :
    ((0.4 : ℚ) ≤ 0.85 ∧
      ¬ ((nucleonMass true : ℚ) * nucleonMass true + 2 * nucleonMass true * 0.4 < 1.1646)) ∧
    ∃ res, resonantTerm (0.4 : ℚ) true = .ok res ∧
      crossection sampleMathLibrary 0.4 true = .ok (res + directTerm sampleMathLibrary 0.4) := by
  have hs : ¬ ((nucleonMass true : ℚ) * nucleonMass true + 2 * nucleonMass true * 0.4 <
      1.1646) := by
    norm_num [nucleonMass]
  obtain ⟨res, ef, hres, -, -, h05⟩ :=
    crossection_low_energy sampleMathLibrary (0.4 : ℚ) true (by norm_num) hs
  exact ⟨⟨by norm_num, hs⟩, res, hres, (h05 (by norm_num)).2⟩

/-- Counterexample to C21 as stated: over the real numbers, with the real power function, a
proton at `x = 0.7` GeV is at or above the threshold and `x ≤ 0.85`, yet the returned cross
section is not the resonant term plus the direct term: the fragmentation term
`80.3 · Ef(0.7, 0.5, 0.1) · s^(-0.34)` is positive. -/
theorem crossection_fragmentation_below_085 :
    (0.7 : ℝ) ≤ 0.85 ∧
    ¬ ((nucleonMass true : ℝ) * nucleonMass true + 2 * nucleonMass true * 0.7 < 1.1646) ∧
    ∃ res, resonantTerm (0.7 : ℝ) true = .ok res ∧
      ¬ crossection
          (⟨Real.pi, Real.sqrt, Real.exp, fun t => Real.exp t - 1, Real.log,
            fun t => Real.log t / Real.log 10, fun a b => a ^ b, fun g a _ => g a⟩ :
            MathLibrary ℝ) 0.7 true =
        .ok (res + directTerm
          (⟨Real.pi, Real.sqrt, Real.exp, fun t => Real.exp t - 1, Real.log,
            fun t => Real.log t / Real.log 10, fun a b => a ^ b, fun g a _ => g a⟩ :
            MathLibrary ℝ) 0.7) := by
  have hs : ¬ ((nucleonMass true : ℝ) * nucleonMass true + 2 * nucleonMass true * 0.7 <
      1.1646) := by
    norm_num [nucleonMass]
  refine ⟨by norm_num, hs, ?_⟩
  obtain ⟨res, hres, hcross⟩ := crossection_of_le_085
    (⟨Real.pi, Real.sqrt, Real.exp, fun t => Real.exp t - 1, Real.log,
      fun t => Real.log t / Real.log 10, fun a b => a ^ b, fun g a _ => g a⟩ : MathLibrary ℝ)
    (0.7 : ℝ) true (by norm_num) hs
  refine ⟨res, hres, ?_⟩
  rw [hcross]
  intro heq
  have hsum := Except.ok.inj heq
  have hpos : (0 : ℝ) < ((nucleonMass true : ℝ) * nucleonMass true +
      2 * nucleonMass true * 0.7) ^ (-0.34 : ℝ) := by
    apply Real.rpow_pos_of_pos
    norm_num [nucleonMass]
  have h1 : ¬ (0.7 : ℝ) ≤ 0.5 := by norm_num
  have h2 : ¬ (0.7 : ℝ) < 0.1 + 0.5 := by norm_num
  simp only [h1, h2, if_false, if_true, one_mul] at hsum
  linarith

/-- C24: in exact arithmetic the rebalancing between the diffractive, multipion and
fragmentation components of `crossection` never changes the total. For every `x > 0.85`, in
both branches of the shortfall test, the returned value is
`cross_res + cross_dir + M + F` with
`M = (1 − exp(−(x − 0.85)/0.69)) · c · (s^(−0.34) + 59.3 · s^0.095)`, `c = 29.3` for a proton
and `26.4` for a neutron, and `F = f · Ef(x, 0.5, 0.1) · s^(−0.34)`, `f = 80.3` for a proton
and `60.2` for a neutron, where `Ef(x, 0.5, 0.1) = 1`; the second diffractive fit `cs_tmp` does
not occur in it. Here `cross_res` and `cross_dir` are the resonant and the direct term for
`x ≤ 10` and 0 for `x > 10`. -/
theorem crossection_total_high_energy {K : Type} [LinearOrderedField K] [FloorRing K]
    (lib : MathLibrary K) (x : K) (onProton : Bool) (hx : 0.85 < x) :
    ∃ cross_res cross_dir,
      lowEnergyTerms lib x onProton = .ok (cross_res, cross_dir) ∧
      (x ≤ 10 → resonantTerm x onProton = .ok cross_res ∧ cross_dir = directTerm lib x) ∧
      (10 < x → cross_res = 0 ∧ cross_dir = 0) ∧
      Ef x 0.5 0.1 = .ok 1 ∧
      crossection lib x onProton =
        .ok (cross_res + cross_dir +
          (1 - lib.exp (-((x - 0.85) / 0.69))) *
            ((if onProton then 29.3 else 26.4) *
              (lib.pow
                  (nucleonMass onProton * nucleonMass onProton + 2 * nucleonMass onProton * x)
                  (-0.34) +
                59.3 * lib.pow
                  (nucleonMass onProton * nucleonMass onProton + 2 * nucleonMass onProton * x)
                  0.095)) +
          (if onProton then 80.3 else 60.2) *
            (1 * lib.pow
              (nucleonMass onProton * nucleonMass onProton + 2 * nucleonMass onProton * x)
              (-0.34))) := by
  have hs := not_below_threshold_of_high x onProton hx
  have h1 : ¬ x ≤ 0.5 := by
    intro h
    have : (0.85 : K) < 0.5 := lt_of_lt_of_le hx h
    norm_num at this
  have h2 : ¬ x < 0.1 + 0.5 := by
    intro h
    have : (0.85 : K) < 0.1 + 0.5 := lt_trans hx h
    norm_num at this
  have hef : Ef x 0.5 0.1 = .ok 1 := by
    rw [Ef_eq, if_neg h1, if_neg h2]
  have hmain : ∀ cross_res cross_dir : K,
      lowEnergyTerms lib x onProton = .ok (cross_res, cross_dir) →
      crossection lib x onProton =
        .ok (cross_res + cross_dir +
          (1 - lib.exp (-((x - 0.85) / 0.69))) *
            ((if onProton then 29.3 else 26.4) *
              (lib.pow
                  (nucleonMass onProton * nucleonMass onProton + 2 * nucleonMass onProton * x)
                  (-0.34) +
                59.3 * lib.pow
                  (nucleonMass onProton * nucleonMass onProton + 2 * nucleonMass onProton * x)
                  0.095)) +
          (if onProton then 80.3 else 60.2) *
            (1 * lib.pow
              (nucleonMass onProton * nucleonMass onProton + 2 * nucleonMass onProton * x)
              (-0.34))) := by
    intro cross_res cross_dir hlow
    rw [crossection_above_threshold lib x onProton hs cross_res cross_dir hlow]
    have hsum := highEnergyTerms_sum lib x
      (nucleonMass onProton * nucleonMass onProton + 2 * nucleonMass onProton * x) onProton
      (fragmentation2 lib
        (nucleonMass onProton * nucleonMass onProton + 2 * nucleonMass onProton * x)
        (if x ≤ 0.5 then 0 else if x < 0.1 + 0.5 then (x - 0.5) / 0.1 else 1) onProton) hx
    rw [add_assoc (cross_res + cross_dir), hsum, if_neg h1, if_neg h2]
    simp only [fragmentation2, add_assoc]
  rcases le_or_lt x 10 with h10 | h10
  · obtain ⟨res, hres, hlow⟩ := lowEnergyTerms_of_le lib x onProton h10
    exact ⟨res, directTerm lib x, hlow, fun _ => ⟨hres, rfl⟩,
      fun h => absurd h10 (not_le.mpr h), hef, hmain _ _ hlow⟩
  · have hlow := lowEnergyTerms_of_gt lib x onProton h10
    exact ⟨0, 0, hlow, fun h => absurd h (not_le.mpr h10), fun _ => ⟨rfl, rfl⟩, hef,
      hmain _ _ hlow⟩

/-- Witness of C24: a proton at `x = 20` GeV with the sample library (`exp` is 2, `pow` is 1):
the resonant and direct terms are 0 and the cross section is
`(1 − 2) · 29.3 · (1 + 59.3) + 80.3`. -/
theorem crossection_total_high_energy_witness :
    (0.85 : ℚ) < 20 ∧
    crossection sampleMathLibrary 20 true =
      .ok ((1 - 2) * (29.3 * (1 + 59.3 * 1)) + 80.3 * (1 * 1)) := by
  refine ⟨by norm_num, ?_⟩
  obtain ⟨cross_res, cross_dir, -, -, hgt, -, hcross⟩ :=
    crossection_total_high_energy sampleMathLibrary (20 : ℚ) true (by norm_num)
  obtain ⟨h1, h2⟩ := hgt (by norm_num)
  rw [hcross, h1, h2]
  simp [sampleMathLibrary]

/-- The index search of the infrared density keeps the abscissa at its index at or below the
argument: entered at an index whose abscissa is at most the argument, it returns an index whose
two neighbouring abscissae bracket the argument. -/
theorem searchIndex_bracket_from {K : Type} [LinearOrderedField K] [FloorRing K] (lgX : K)
    (h : lgX < 2.5) :
    ∀ (bound index : Nat), index ≤ 13 → 14 ≤ index + bound →
      (XData : List K).getD index 0 ≤ lgX →
      ∃ r, searchIndex lgX bound index = some r ∧ r ≤ 14 ∧
        (XData : List K).getD (r - 1) 0 ≤ lgX ∧ lgX ≤ (XData : List K).getD r 0 := by
  intro bound
  induction bound with
  | zero =>
    intro index h13 h14
    omega
  | succ bound ih =>
    intro index h13 h14 hinv
    have hlen : index + 1 < (XData : List K).length := by
      have : (XData : List K).length = 15 := rfl
      omega
    have hget : (XData : List K)[index + 1]? = some ((XData : List K)[index + 1]) :=
      List.getElem?_eq_getElem hlen
    have hgetD : (XData : List K).getD (index + 1) 0 = (XData : List K)[index + 1] := by
      rw [List.getD_eq_getElem?_getD, hget]
      rfl
    rw [searchIndex, hget]
    by_cases hlt : (XData : List K)[index + 1] < lgX
    · simp only [hlt, if_true]
      have hne : index + 1 ≤ 13 := by
        by_contra hcon
        have h14' : index = 13 := by omega
        subst h14'
        have hx : (XData : List K)[13 + 1] = 2.5 := rfl
        rw [hx] at hlt
        exact absurd h (not_lt.mpr (le_of_lt hlt))
      exact ih (index + 1) hne (by omega) (by rw [hgetD]; exact le_of_lt hlt)
    · simp only [hlt, if_false]
      refine ⟨index + 1, rfl, by omega, ?_, ?_⟩
      · simpa using hinv
      · rw [hgetD]
        exact not_lt.mp hlt

/-- From the second abscissa `XData[1] = -0.75` on, the index search of the infrared density
brackets its argument: for `-0.75 ≤ lgX < 2.5` the index it returns is at most 14 and
`XData[index - 1] ≤ lgX ≤ XData[index]`. -/
theorem searchIndex_bracket {K : Type} [LinearOrderedField K] [FloorRing K] (lgX : K)
    (hlow : -0.75 ≤ lgX) (h : lgX < 2.5) :
    ∃ r, searchIndex lgX 15 1 = some r ∧ r ≤ 14 ∧
      (XData : List K).getD (r - 1) 0 ≤ lgX ∧ lgX ≤ (XData : List K).getD r 0 := by
  apply searchIndex_bracket_from lgX h 15 1 (by norm_num) (by norm_num)
  have hx : (XData : List K).getD 1 0 = -0.75 := rfl
  rw [hx]
  exact hlow

/-- Below the third abscissa `XData[2] = -0.5` the index search of the infrared density stops
at once, at the index 2: the loop increments the index from 1 to 2 before its first test, so the
segment between `XData[0]` and `XData[1]` is never selected. -/
theorem searchIndex_first_segment {K : Type} [LinearOrderedField K] [FloorRing K] (lgX : K)
    (h : lgX ≤ -0.5) : searchIndex lgX 15 1 = some 2 := by
  have hget : (XData : List K)[1 + 1]? = some (-0.5 : K) := rfl
  rw [searchIndex, hget]
  simp only [not_lt.mpr h, if_false]

/-- C25, the code at the failing input: for `log10(X) = -0.9`, between the first two abscissae
`XData[0] = -1` and `XData[1] = -0.75`, the index search stops at the index 2, whose lower
neighbour `XData[1]` is above the argument: the two points used, 1 and 2, do not bracket it, and
the returned density is built from the value at `-0.9` of the straight line through the points
1 and 2, an extrapolation. The library is any one whose `log10` returns `-0.9` for `X`; `pow`
is left open. -/
theorem irDensity_extrapolates :
    ((-1 : ℚ) < -0.9 ∧ (-0.9 : ℚ) < 2.5) ∧
    searchIndex (-0.9 : ℚ) 15 1 = some 2 ∧
    ¬ ((XData : List ℚ).getD (2 - 1) 0 ≤ -0.9) ∧
    ∀ pow : ℚ → ℚ → ℚ,
      irDensity
          ⟨3, fun _ => 0, fun _ => 2, fun _ => 1, fun _ => 1, fun _ => -0.9, pow,
            fun g a _ => g a⟩ 1 0 =
        .ok (pow 10 ((0.720354 - 0.349313) / (-0.5 - -0.75) * (-0.9 - -0.75) + 0.349313) *
          pow (1 + 0) 4 / (1 * 1) / 3.82182e3) := by
  refine ⟨⟨by norm_num, by norm_num⟩, searchIndex_first_segment _ (by norm_num), ?_, ?_⟩
  · have hx : (XData : List ℚ).getD (2 - 1) 0 = -0.75 := rfl
    rw [hx]
    norm_num
  · intro pow
    have h5 : ¬ (0 : ℚ) > 5 := by norm_num
    have hX : ¬ (1.2398 * (1 + 0) / 1 : ℚ) > 500 := by norm_num
    have hx0 : (XData : List ℚ).getD 0 0 = -1.0 := rfl
    have hx14 : (XData : List ℚ).getD 14 0 = 2.5 := rfl
    have hs : searchIndex (-0.9 : ℚ) 15 1 = some 2 := searchIndex_first_segment _ (by norm_num)
    have hx2 : (XData : List ℚ).getD 2 0 = -0.5 := rfl
    have hx1 : (XData : List ℚ).getD (2 - 1) 0 = -0.75 := rfl
    have hy2 : (YData : List ℚ).getD 2 0 = 0.720354 := rfl
    have hy1 : (YData : List ℚ).getD (2 - 1) 0 = 0.349313 := rfl
    have hlow : ¬ ((-0.9 : ℚ) ≤ -1.0) := by norm_num
    have hhigh : ¬ ((-0.9 : ℚ) ≥ 2.5) := by norm_num
    simp only [irDensity, h5, hX, if_false, hx0, hx14, hlow, hhigh, hs, hx2, hx1, hy2, hy1]

end crpropa
